import Mathlib

/-!
# Template interpreter entry stubs (x86_64)

Semantics of the machine code emitted by `TemplateInterpreterGenerator`
(`src/hotspot/cpu/x86/templateInterpreterGenerator_x86.cpp`).

Every generator function of the source becomes a state transformer over a
`Machine`: each emitted instruction (`__ push(rax)`, `__ movptr(...)`) is one
step of the transformer, a `cmp`/`jcc` pair becomes a Lean conditional, and a
jump out of the generated code ends the run with an `Exit`.  Stores, pushes,
calls and barriers are appended to a trace so that orderings can be stated.

Machine words are natural numbers reduced modulo `2^64`.  Stack memory is a
map from byte addresses to 64 bit words.  Fields of VM metadata and of the
thread (`Address(rbx, Method::const_offset())`,
`Address(r15_thread, JavaThread::thread_state_offset())`) are addressed by
field name and base pointer, since the numeric offsets are declared in headers
outside this file.
-/

namespace TemplateInterpreter

/-! ## Registers, fields, collaborators -/

/-- General purpose registers of x86_64. -/
inductive Register where
  | rax | rcx | rdx | rbx | rsp | rbp | rsi | rdi
  | r8 | r9 | r10 | r11 | r12 | r13 | r14 | r15
  deriving DecidableEq, Repr

open Register

/-- Global register names of the file (lines 69-70): `rbcp = r13`. -/
abbrev rbcp : Register := r13
/-- Global register names of the file (lines 69-70): `rlocals = r14`. -/
abbrev rlocals : Register := r14
/-- The thread register of x86_64. -/
abbrev r15_thread : Register := r15
/-- First scratch register of the macro assembler. -/
abbrev rscratch1 : Register := r10
/-- Second scratch register of the macro assembler. -/
abbrev rscratch2 : Register := r11

/-- Named fields reached through `Address(base, X::y_offset())`. -/
inductive Field where
  | Method_const | Method_access_flags | Method_method_data
  | Method_signature_handler | Method_native_function
  | ConstMethod_size_of_parameters | ConstMethod_size_of_locals
  | ConstMethod_constants | ConstantPool_cache
  | MethodData_invocation_counter | MethodData_invoke_mask
  | MethodCounters_invocation_counter | MethodCounters_invoke_mask
  | JavaThread_stack_overflow_limit | JavaThread_do_not_unlock_if_synchronized
  | JavaThread_thread_state | JavaThread_suspend_flags
  | JavaThread_preempt_alternate_return
  | JavaThread_pending_jni_exception_check_fn
  | JavaThread_active_handles | JavaThread_stack_guard_state
  | Thread_pending_exception | JavaThread_popframe_condition
  | JavaThread_shadow_zone_growth_watermark | JavaThread_shadow_zone_safe_limit
  | JavaThread_vm_result | JNIHandleBlock_top
  | JavaThread_jvmti_thread_state | JvmtiThreadState_earlyret_state
  deriving DecidableEq, Repr

/-- The top-of-stack states of the interpreter (`TosState`). -/
inductive TosState where
  | btos | ztos | ctos | stos | itos | ltos | ftos | dtos | atos | vtos
  deriving DecidableEq, Repr

/-- Routines and assembler macros that live outside this file. -/
inductive Callee where
  | load_mirror | profile_parameters_type | get_method_counters
  | lock_object | unlock_object | notify_method_entry | notify_method_exit
  | set_last_Java_frame | reset_last_Java_frame
  | push_cont_fastpath | pop_cont_fastpath
  | restore_cpu_control_state_after_jni | safepoint_poll | reinit_heapbase
  | restore_after_resume | resolve_jobject | pusha | popa
  | remove_activation (throw_monitor_exception install_monitor_exception notify_jvmdi : Bool)
  | empty_expression_stack | set_method_data_pointer_for_bcp
  | signature_handler | native_function | result_handler
  | check_special_condition_for_native_trans | reguard_yellow_pages
  | frequency_counter_overflow | prepare_native_call
  | throw_pending_exception | throw_illegal_monitor_state_exception
  | interpreter_contains | popframe_preserve_args
  | popframe_move_outgoing_args | member_name_arg_or_null
  | verify_oop | exception_handler_for_exception | exception_handler_for_return_address
  | load_earlyret_value (state : TosState)
  deriving DecidableEq, Repr

/-- Observable actions of the emitted code, in execution order. -/
inductive Event where
  | push (v : Nat)
  | store (addr v : Nat)
  | store_field (f : Field) (base v : Nat)
  | call (c : Callee) (args : List Nat)
  | membar
  | bang (addr : Nat)
  deriving DecidableEq, Repr

/-- Ways in which control leaves the emitted code. -/
inductive Exit where
  | throw_StackOverflowError_entry
  | forward_exception
  | stop (msg : String)
  | should_not_reach_here
  | jmp (addr : Nat)
  | dispatch_next
  deriving DecidableEq, Repr

/-! ## Machine state -/

/-- Register file, stack memory, named fields, and the trace of the run. -/
structure Machine where
  reg : Register → Nat
  mem : Nat → Nat
  fld : Field → Nat → Nat
  xmm0 : Nat
  trace : List Event

/-- Build-time and platform constants that are declared outside this file. -/
structure Config where
  ASSERT : Bool
  ProfileInterpreter : Bool
  UseCompiler : Bool
  CountCompiledCalls : Bool
  UseSystemMemoryBarrier : Bool
  LockingMode_is_LM_LEGACY : Bool
  CheckJNICalls : Bool
  INCLUDE_JVMTI : Bool
  win64 : Bool
  page_size : Int
  stack_shadow_zone_size : Int
  interpreter_frame_monitor_size_in_bytes : Int
  sizeof_BasicObjectLock : Int
  BasicObjectLock_obj_offset : Int
  interpreter_frame_initial_sp_offset : Int
  interpreter_frame_monitor_block_top_offset : Int
  interpreter_frame_last_sp_offset : Int
  interpreter_frame_sender_sp_offset : Int
  interpreter_frame_method_offset : Int
  interpreter_frame_bcp_offset : Int
  interpreter_frame_locals_offset : Int
  interpreter_frame_result_handler_offset : Int
  interpreter_frame_oop_temp_offset : Int
  return_addr_offset : Int
  arg_reg_save_area_bytes : Int
  ConstMethod_codes_offset : Int
  JavaThread_jni_environment_offset : Int
  MethodData_data_offset : Int
  count_increment : Nat
  JVM_ACC_SYNCHRONIZED : Nat
  JVM_ACC_STATIC : Nat
  JVM_ACC_NATIVE : Nat
  JVM_ACC_ABSTRACT : Nat
  _thread_in_native : Nat
  _thread_in_native_trans : Nat
  _thread_in_Java : Nat
  stack_guard_yellow_reserved_disabled : Nat
  popframe_inactive : Nat
  popframe_processing_bit : Nat
  popframe_force_deopt_reexecution_bit : Nat
  earlyret_inactive : Nat
  result_handler_T_OBJECT : Nat
  native_method_throw_unsatisfied_link_error_entry : Nat
  Bytecodes_invokestatic : Nat

/-- Behaviour of the routines and macros outside this file: the state change
each one makes, and the outcome of the test each one branches on. -/
structure Env where
  effect : Callee → Machine → Machine
  branch : Callee → Machine → Bool
  mirror : Nat → Nat
  scratch : Nat → Nat

/-- Bytes per machine word on x86_64. -/
def wordSize : Nat := 8
/-- Value of `Interpreter::logStackElementSize` (one word per stack element). -/
def logStackElementSize : Nat := 3
/-- Value of `Interpreter::stackElementSize`. -/
def stackElementSize : Nat := 8

/-- Reduce to a 64 bit word. -/
def w64 (x : Int) : Nat := (x % (2 ^ 64 : Int)).toNat
/-- Reduce to a 32 bit word. -/
def w32 (x : Int) : Nat := (x % (2 ^ 32 : Int)).toNat

/-- Effective address `base + disp` of `Address(base, disp)`. -/
def ea (base : Nat) (disp : Int) : Nat := w64 ((base : Int) + disp)

/-- Pointwise update of a total map. -/
def upd {α : Type} [DecidableEq α] (f : α → Nat) (a : α) (v : Nat) : α → Nat :=
  fun b => if b = a then v else f b

namespace Machine

/-- Write a register. -/
def set (s : Machine) (r : Register) (v : Nat) : Machine :=
  { s with reg := upd s.reg r v }

/-- Append an event to the trace. -/
def log (s : Machine) (e : Event) : Machine :=
  { s with trace := s.trace ++ [e] }

/-- Write a word of stack memory (`movptr(Address(...), v)`). -/
def store (s : Machine) (addr v : Nat) : Machine :=
  { s with mem := upd s.mem addr v, trace := s.trace ++ [Event.store addr v] }

/-- Write a named field. -/
def store_field (s : Machine) (f : Field) (base v : Nat) : Machine :=
  { s with fld := fun g => if g = f then upd (s.fld f) base v else s.fld g,
           trace := s.trace ++ [Event.store_field f base v] }

/-- The instruction `push`. -/
def push (s : Machine) (v : Nat) : Machine :=
  let sp := ea (s.reg rsp) (-(wordSize : Int))
  { s with reg := upd s.reg rsp sp, mem := upd s.mem sp v,
           trace := s.trace ++ [Event.push v] }

/-- The instruction `pop` into a register. -/
def pop (s : Machine) (r : Register) : Machine :=
  let v := s.mem (s.reg rsp)
  let s1 := s.set rsp (ea (s.reg rsp) (wordSize : Int))
  s1.set r v

/-- A call that returns to the call site: plain `call`, `call_VM_leaf`,
`super_call_VM_leaf`, and macros without an exit of their own.  The callee
changes the machine as the environment says; it cannot touch the trace. -/
def call (env : Env) (s : Machine) (c : Callee) (args : List Nat) : Machine :=
  { env.effect c s with trace := s.trace ++ [Event.call c args] }

end Machine

/-- Result of running a piece of emitted code: control either falls through
to the next instruction or has left the code. -/
inductive Run (α : Type) where
  | ok (a : α) (s : Machine)
  | leave (e : Exit) (s : Machine)

/-- Emitted code as a state transformer. -/
def Asm (α : Type) : Type := Machine → Run α

namespace Asm

/-- Fall through with a value. -/
def ret {α : Type} (a : α) : Asm α := fun s => Run.ok a s

/-- Sequencing: the second piece runs only if the first falls through. -/
def seq {α β : Type} (x : Asm α) (f : α → Asm β) : Asm β := fun s =>
  match x s with
  | Run.ok a s1 => f a s1
  | Run.leave e s1 => Run.leave e s1

instance : Monad Asm where
  pure := ret
  bind := seq

/-- A straight-line instruction. -/
def step (f : Machine → Machine) : Asm Unit := fun s => Run.ok () (f s)

/-- Read the current machine state. -/
def get : Asm Machine := fun s => Run.ok s s

/-- Control leaves the emitted code. -/
def exit {α : Type} (e : Exit) : Asm α := fun s => Run.leave e s

end Asm

namespace Run

/-- The machine state at the end of the run. -/
def state {α : Type} : Run α → Machine
  | ok _ s => s
  | leave _ s => s

/-- The exit taken, if control left the emitted code. -/
def exit? {α : Type} : Run α → Option Exit
  | ok _ _ => none
  | leave e _ => some e

end Run

/-! ## Instructions -/

open Asm Field

/-- Operand: the value of a register. -/
def R (r : Register) : Machine → Nat := fun s => s.reg r
/-- Operand: an immediate, sign-extended to 64 bits. -/
def Imm (i : Int) : Machine → Nat := fun _ => w64 i
/-- Operand: the stack word at `Address(base, disp)`. -/
def Mem (base : Register) (disp : Int) : Machine → Nat :=
  fun s => s.mem (ea (s.reg base) disp)
/-- Operand: the field at `Address(base, X::f_offset())`. -/
def Fld (base : Register) (f : Field) : Machine → Nat :=
  fun s => s.fld f (s.reg base)

/-- The instruction `mov`/`movptr`/`lea` into a register. -/
def mov (r : Register) (v : Machine → Nat) : Asm Unit :=
  step fun s => s.set r (v s)
/-- The instruction `movl` into a register: 32 bit load, zero-extended. -/
def movl (r : Register) (v : Machine → Nat) : Asm Unit :=
  step fun s => s.set r (v s % 2 ^ 32)
/-- Assembler macro `load_unsigned_short`: 16 bit load, zero-extended. -/
def load_unsigned_short (r : Register) (v : Machine → Nat) : Asm Unit :=
  step fun s => s.set r (v s % 2 ^ 16)
/-- The instruction `movptr(Address(base, disp), v)`. -/
def movptr_to (base : Register) (disp : Int) (v : Machine → Nat) : Asm Unit :=
  step fun s => s.store (ea (s.reg base) disp) (v s)
/-- Store to a pointer-sized named field. -/
def movptr_fld (base : Register) (f : Field) (v : Machine → Nat) : Asm Unit :=
  step fun s => s.store_field f (s.reg base) (v s)
/-- The instruction `movl(Address(base, field), v)`: 32 bit store to a field. -/
def movl_fld (base : Register) (f : Field) (v : Machine → Nat) : Asm Unit :=
  step fun s => s.store_field f (s.reg base) (v s % 2 ^ 32)
/-- Assembler macro `movbool(Address, bool)`: one-byte store to a field. -/
def movbool (base : Register) (f : Field) (b : Bool) : Asm Unit :=
  step fun s => s.store_field f (s.reg base) (if b then 1 else 0)
/-- The instruction `push`. -/
def push (v : Machine → Nat) : Asm Unit := step fun s => s.push (v s)
/-- The instruction `pop`. -/
def pop (r : Register) : Asm Unit := step fun s => s.pop r
/-- The instruction `addptr(r, v)`. -/
def addptr (r : Register) (v : Machine → Nat) : Asm Unit :=
  step fun s => s.set r ((s.reg r + v s) % 2 ^ 64)
/-- The instruction `subptr(r, v)`. -/
def subptr (r : Register) (v : Machine → Nat) : Asm Unit :=
  step fun s => s.set r (w64 ((s.reg r : Int) - (v s : Int)))
/-- The instruction `subptr(Address(base, disp), imm)`: subtract from a stack word. -/
def subptr_mem (base : Register) (disp : Int) (imm : Int) : Asm Unit :=
  step fun s => s.store (ea (s.reg base) disp) (w64 ((s.mem (ea (s.reg base) disp) : Int) - imm))
/-- The instruction `shlptr(r, n)`. -/
def shlptr (r : Register) (n : Nat) : Asm Unit :=
  step fun s => s.set r ((s.reg r * 2 ^ n) % 2 ^ 64)
/-- The instruction `shrptr(r, n)`: logical shift right. -/
def shrptr (r : Register) (n : Nat) : Asm Unit :=
  step fun s => s.set r (s.reg r / 2 ^ n)
/-- The instruction `shll(r, n)`: 32 bit shift, result zero-extended. -/
def shll (r : Register) (n : Nat) : Asm Unit :=
  step fun s => s.set r ((s.reg r % 2 ^ 32 * 2 ^ n) % 2 ^ 32)
/-- The instruction `subl(r, v)`: 32 bit subtract, result zero-extended. -/
def subl (r : Register) (v : Machine → Nat) : Asm Unit :=
  step fun s => s.set r (w32 ((s.reg r : Int) - (v s : Int)))
/-- The instruction `orl(r, imm)`: 32 bit or, result zero-extended. -/
def orl (r : Register) (v : Machine → Nat) : Asm Unit :=
  step fun s => s.set r ((s.reg r % 2 ^ 32) ||| (v s % 2 ^ 32))
/-- The instruction `andptr(r, imm)`. -/
def andptr (r : Register) (v : Machine → Nat) : Asm Unit :=
  step fun s => s.set r (s.reg r &&& v s)
/-- The instruction `enter`: save old and set new `rbp`. -/
def enter : Asm Unit := do
  push (R rbp)
  mov rbp (R rsp)
/-- The instruction `leave`: drop the frame and restore the caller's `rbp`. -/
def leave : Asm Unit := do
  mov rsp (R rbp)
  pop rbp
/-- The barrier `membar(LoadLoad | LoadStore | StoreLoad | StoreStore)` of lines
974-976, the only barrier this file emits. -/
def membar : Asm Unit := step fun s => s.log Event.membar
/-- The assembler's `stop(msg)`. -/
def stop {α : Type} (msg : String) : Asm α := exit (Exit.stop msg)

/-- First C argument register. -/
def c_rarg0 (cfg : Config) : Register := if cfg.win64 then rcx else rdi
/-- Second C argument register. -/
def c_rarg1 (cfg : Config) : Register := if cfg.win64 then rdx else rsi
/-- Third C argument register. -/
def c_rarg2 (cfg : Config) : Register := if cfg.win64 then r8 else rdx

/-- A routine or macro outside this file that returns to the call site. -/
def call (env : Env) (c : Callee) (args : List (Machine → Nat)) : Asm Unit :=
  step fun s => s.call env c (args.map fun a => a s)

/-- Modelled from the spec: `MacroAssembler::call_VM` (macro assembler, not
in this file).  "Any call into a collaborator capable of raising a pending
exception is followed immediately by an explicit check; on a pending
exception, control transfers to the Exception Protocol rather than
continuing."  The comments at lines 990-992 and 1191 say the same. -/
def call_VM (env : Env) (c : Callee) (args : List (Machine → Nat)) : Asm Unit := do
  call env c args
  let s ← get
  if s.fld Thread_pending_exception (s.reg r15_thread) ≠ 0 then
    exit Exit.forward_exception
  else pure ()

/-- An interpreter macro outside this file that calls into the VM
(`lock_object`, `unlock_object`, `notify_method_entry`, `notify_method_exit`,
`remove_activation`): it changes the machine as the environment says and,
when the environment says so, forwards an exception instead of returning. -/
def vm_routine (env : Env) (c : Callee) (args : List (Machine → Nat)) : Asm Unit := do
  call env c args
  let s ← get
  if env.branch c s then exit Exit.forward_exception else pure ()

/-- Assembler macro `verify_oop(reg)` (outside this file): a debug check of
the oop in `reg` that preserves every register; only the check is recorded. -/
def verify_oop (r : Register) : Asm Unit :=
  step fun s => s.log (Event.call Callee.verify_oop [s.reg r])

/-- Assembler macro `get_vm_result(reg, thread)` (outside this file): fetch
the thread's `vm_result` into `reg`, clear the field, and verify the oop. -/
def get_vm_result (r : Register) : Asm Unit := do
  mov r (Fld r15_thread JavaThread_vm_result)
  movptr_fld r15_thread JavaThread_vm_result (Imm 0)
  verify_oop r

/-- Modelled from the spec: `MacroAssembler::call_VM(oop_result, entry, arg)`
with a valid `oop_result` register (macro assembler, not in this file), used
at line 1378 to "find exception handler address and preserve exception oop"
and at line 1520: `call_VM` as above, and when it returns the oop result is
fetched from the thread's `vm_result`. -/
def call_VM_oop (env : Env) (oop_result : Register) (c : Callee)
    (args : List (Machine → Nat)) : Asm Unit := do
  call_VM env c args
  get_vm_result oop_result

/-- Modelled from the spec: `MacroAssembler::load_mirror(dst, method, tmp)`
(not in this file), which "resolves the declaring class's representative
object"; it writes the mirror of the method's holder to `dst` and uses `tmp`
as scratch. -/
def load_mirror (env : Env) (dst method tmp : Register) : Asm Unit :=
  step fun s =>
    let s1 := s.log (Event.call Callee.load_mirror [s.reg method])
    (s1.set tmp (env.scratch (s.reg method))).set dst (env.mirror (s.reg method))

/-- Interpreter macro `get_method(reg)`: reload `Method*` from its frame
slot, the same load as line 399. -/
def get_method (cfg : Config) (r : Register) : Asm Unit :=
  mov r (Mem rbp (cfg.interpreter_frame_method_offset * wordSize))

/-- Interpreter macro `restore_bcp`: reload `rbcp` from its frame slot. -/
def restore_bcp (cfg : Config) : Asm Unit :=
  mov rbcp (Mem rbp (cfg.interpreter_frame_bcp_offset * wordSize))

/-- Interpreter macro `restore_locals`: reload the relativized locals slot
and turn it into an address again. -/
def restore_locals (cfg : Config) : Asm Unit := do
  mov rlocals (Mem rbp (cfg.interpreter_frame_locals_offset * wordSize))
  mov rlocals fun s => (s.reg rbp + s.reg rlocals * wordSize) % 2 ^ 64

/-- Interpreter macro `push(ltos)`: two stack elements, value in the lower. -/
def push_ltos : Asm Unit := do
  subptr rsp (Imm (2 * wordSize))
  movptr_to rsp 0 (R rax)
  movptr_to rsp wordSize (Imm 0)
/-- Interpreter macro `push(dtos)`: two stack elements holding `xmm0`. -/
def push_dtos : Asm Unit := do
  subptr rsp (Imm (2 * wordSize))
  movptr_to rsp 0 fun s => s.xmm0
/-- Interpreter macro `pop(ltos)`. -/
def pop_ltos : Asm Unit := do
  mov rax (Mem rsp 0)
  addptr rsp (Imm (2 * stackElementSize))
/-- Interpreter macro `pop(dtos)`. -/
def pop_dtos : Asm Unit := do
  step fun s => { s with xmm0 := s.mem (ea (s.reg rsp) 0) }
  addptr rsp (Imm (2 * stackElementSize))

/-- Assembler macro `bang_stack_with_offset(offset)`: a 32 bit store of `rax`
at `rsp - offset`, touching the page there. -/
def bang_stack_with_offset (offset : Int) : Asm Unit :=
  step fun s =>
    let a := ea (s.reg rsp) (-offset)
    { s with mem := upd s.mem a (s.mem a / 2 ^ 32 * 2 ^ 32 + s.reg rax % 2 ^ 32),
             trace := s.trace ++ [Event.bang a] }

/-! ## Helpers of the method entries (lines 334-603) -/

/-- Modelled from the spec: `InterpreterMacroAssembler::increment_mask_and_jump`
(interpreter macro assembler, not in this file): the counter "increments with
an overflow test against a stored mask", a "non-atomic increment-and-test".
The 32 bit counter is loaded into `scratch`, incremented by
`InvocationCounter::count_increment`, stored back, and-ed with the mask, and
the jump to the overflow label is taken when the masked value is zero.
Returns `true` when the overflow label is taken. -/
def increment_mask_and_jump (cfg : Config) (base : Register) (counter mask : Field)
    (scratch : Register) : Asm Bool := do
  movl scratch (Fld base counter)
  movl scratch fun s => s.reg scratch + cfg.count_increment
  movl_fld base counter (R scratch)
  movl scratch fun s => s.reg scratch &&& (s.fld mask (s.reg base) % 2 ^ 32)
  let s ← get
  pure (s.reg scratch == 0)

/-- Lines 346-371.  Returns `true` when control goes to the `overflow` label. -/
def generate_counter_incr (cfg : Config) (env : Env) : Asm Bool := do
  let mdo ← (if cfg.ProfileInterpreter then do
      -- Are we profiling?
      mov rax (Fld rbx Method_method_data)
      let s ← get
      pure (s.reg rax != 0)
    else pure false : Asm Bool)
  if mdo then
    -- Increment counter in the MDO
    increment_mask_and_jump cfg rax MethodData_invocation_counter MethodData_invoke_mask rcx
  else do
    -- Increment counter in MethodCounters
    call env Callee.get_method_counters [R rbx]
    let s1 ← get
    if env.branch Callee.get_method_counters s1 then pure false
    else
      increment_mask_and_jump cfg rax MethodCounters_invocation_counter
        MethodCounters_invoke_mask rcx

/-- Lines 373-403; the final `jmp(do_continue)` is the fall-through. -/
def generate_counter_overflow (cfg : Config) (env : Env) : Asm Unit := do
  movl (c_rarg1 cfg) (Imm 0)
  call_VM env Callee.frequency_counter_overflow [R (c_rarg1 cfg)]
  mov rbx (Mem rbp (cfg.interpreter_frame_method_offset * wordSize))

/-- The constant `overhead_size` of lines 431-432. -/
def overhead_size (cfg : Config) : Int :=
  -(cfg.interpreter_frame_initial_sp_offset * wordSize)
    + cfg.interpreter_frame_monitor_size_in_bytes

/-- Lines 423-490. -/
def generate_stack_overflow_check (cfg : Config) : Asm Unit := do
  let s ← get
  -- see if the frame is greater than one page in size
  if s.reg rdx % 2 ^ 32 ≤ w32 (Int.tdiv (cfg.page_size - overhead_size cfg) stackElementSize) then
    pure ()
  else do
    -- locals + overhead, in bytes
    mov rax (R rdx)
    shlptr rax logStackElementSize
    addptr rax (Imm (overhead_size cfg))
    (if cfg.ASSERT then do
      -- Verify that thread stack overflow limit is non-zero.
      let s1 ← get
      if s1.fld JavaThread_stack_overflow_limit (s1.reg r15_thread) ≠ 0 then pure ()
      else stop "stack overflow limit is zero"
    else pure ())
    -- Add locals/frame size to stack limit.
    addptr rax (Fld r15_thread JavaThread_stack_overflow_limit)
    -- Check against the current stack bottom.
    let s2 ← get
    if s2.reg rsp > s2.reg rax then pure ()
    else do
      -- Restore sender's sp as SP.
      pop rax
      mov rsp (R rbcp)
      push (R rax)
      exit Exit.throw_StackOverflowError_entry

/-- The test `testl(r, imm)` followed by `jcc(zero, ..)`: is the masked
32 bit value zero? -/
def testl_zero (s : Machine) (r : Register) (imm : Nat) : Bool :=
  (s.reg r % 2 ^ 32) &&& imm == 0

/-- Lines 502-551. -/
def lock_method (cfg : Config) (env : Env) : Asm Unit := do
  (if cfg.ASSERT then do
    load_unsigned_short rax (Fld rbx Method_access_flags)
    let s ← get
    if !testl_zero s rax cfg.JVM_ACC_SYNCHRONIZED then pure ()
    else stop "method doesn't need synchronization"
  else pure ())
  -- get synchronization object
  load_unsigned_short rax (Fld rbx Method_access_flags)
  let s1 ← get
  -- get receiver (assume this is frequent case)
  mov rax (Mem rlocals 0)
  (if testl_zero s1 rax cfg.JVM_ACC_STATIC then pure ()
  else do
    load_mirror env rax rbx rscratch2
    if cfg.ASSERT then do
      let s2 ← get
      if s2.reg rax ≠ 0 then pure ()
      else stop "synchronization object is null"
    else pure ())
  -- add space for monitor & lock
  subptr rsp (Imm cfg.interpreter_frame_monitor_size_in_bytes)
  subptr_mem rbp (cfg.interpreter_frame_monitor_block_top_offset * wordSize)
    (Int.tdiv cfg.interpreter_frame_monitor_size_in_bytes wordSize)
  -- store object
  movptr_to rsp cfg.BasicObjectLock_obj_offset (R rax)
  mov (c_rarg1 cfg) (R rsp)
  vm_routine env Callee.lock_object [R (c_rarg1 cfg)]

/-- Lines 574-584 of `generate_fixed_frame`: set the mdp (method data
pointer). -/
def fixed_frame_mdp (cfg : Config) : Asm Unit :=
  if cfg.ProfileInterpreter then do
    mov rdx (Fld rbx Method_method_data)
    let s ← get
    (if s.reg rdx = 0 then pure ()
    else addptr rdx (Imm cfg.MethodData_data_offset))
    push (R rdx)
  else
    push (Imm 0)

/-- Lines 596-600 of `generate_fixed_frame`: the bcp slot. -/
def fixed_frame_bcp (native_call : Bool) : Asm Unit :=
  if native_call then
    push (Imm 0)
  else
    push (R rbcp)

/-- Lines 562-603. -/
def generate_fixed_frame (cfg : Config) (env : Env) (native_call : Bool) : Asm Unit := do
  -- initialize fixed part of activation frame
  push (R rax)
  enter
  push (R rbcp)
  push (Imm 0)
  mov rbcp (Fld rbx Method_const)
  mov rbcp fun s => ea (s.reg rbcp) cfg.ConstMethod_codes_offset
  push (R rbx)
  -- Get mirror and store it in the frame as GC root for this Method*
  load_mirror env rdx rbx rscratch2
  push (R rdx)
  fixed_frame_mdp cfg
  mov rdx (Fld rbx Method_const)
  mov rdx (Fld rdx ConstMethod_constants)
  mov rdx (Fld rdx ConstantPool_cache)
  push (R rdx)
  mov rax (R rlocals)
  subptr rax (R rbp)
  shrptr rax logStackElementSize
  push (R rax)
  fixed_frame_bcp native_call
  -- initialize relativized pointer to expression stack bottom
  push (Imm cfg.interpreter_frame_initial_sp_offset)

/-- The loop of lines 696-698: one bang per shadow page, `p = from .. n`. -/
def bang_pages (page_size : Int) : Nat → Nat → Asm Unit
  | 0, _ => pure ()
  | k + 1, p => do
    bang_stack_with_offset (p * page_size)
    bang_pages page_size k (p + 1)

/-- Lines 661-707. -/
def bang_stack_shadow_pages (cfg : Config) (_native_call : Bool) : Asm Unit := do
  let n_shadow_pages := Int.tdiv cfg.stack_shadow_zone_size cfg.page_size
  (if cfg.ASSERT then do
    let s ← get
    (if s.fld JavaThread_shadow_zone_safe_limit (s.reg r15_thread) ≠ 0 then pure ()
    else stop "shadow zone safe limit is not initialized")
    if s.fld JavaThread_shadow_zone_growth_watermark (s.reg r15_thread) ≠ 0 then pure ()
    else stop "shadow zone growth watermark is not initialized"
  else pure ())
  let s ← get
  if s.reg rsp > s.fld JavaThread_shadow_zone_growth_watermark (s.reg r15_thread) then
    pure ()
  else do
    bang_pages cfg.page_size n_shadow_pages.toNat 1
    -- Record the new watermark, but only if update is above the safe limit.
    let s1 ← get
    if s1.reg rsp ≤ s1.fld JavaThread_shadow_zone_safe_limit (s1.reg r15_thread) then pure ()
    else movptr_fld r15_thread JavaThread_shadow_zone_growth_watermark (R rsp)

/-! ## Native method entry (lines 712-1174) -/

/-- The indirect jump `jmp(reg)` out of the emitted code. -/
def jmp_reg (r : Register) : Asm Unit := do
  let s ← get
  exit (Exit.jmp (s.reg r))

/-- The debug check of lines 818-830 and 1322-1334. -/
def assert_frame_setup (cfg : Config) (msg : String) : Asm Unit := do
  if cfg.ASSERT then do
    mov rax (Mem rbp (cfg.interpreter_frame_monitor_block_top_offset * wordSize))
    mov rax fun s => (s.reg rbp + s.reg rax * wordSize) % 2 ^ 64
    let s ← get
    if s.reg rax = s.reg rsp then pure () else stop msg
  else pure ()

/-- Lines 727-750: parameter size, return address, beginning of the
parameters, and the two extra slots of a native frame. -/
def native_entry_frame_start : Asm Unit := do
  -- get parameter size (always needed)
  mov rcx (Fld rbx Method_const)
  load_unsigned_short rcx (Fld rcx ConstMethod_size_of_parameters)
  pop rax
  -- compute beginning of parameters
  mov rlocals fun s => w64 ((s.reg rsp : Int) + (s.reg rcx : Int) * stackElementSize - wordSize)
  -- add 2 zero-initialized slots for native calls
  push (Imm 0)
  push (Imm 0)

/-- Lines 755-772: make sure method is native & not abstract (debug builds). -/
def native_entry_frame_checks (cfg : Config) : Asm Unit :=
  if cfg.ASSERT then do
    load_unsigned_short rax (Fld rbx Method_access_flags)
    let s ← get
    (if !testl_zero s rax cfg.JVM_ACC_NATIVE then pure ()
    else stop "tried to execute non-native method as native")
    if testl_zero s rax cfg.JVM_ACC_ABSTRACT then pure ()
    else stop "tried to execute abstract method in interpreter"
  else pure ()

/-- Lines 727-772: parameter size, the two extra slots of a native frame,
the fixed frame, and the debug checks on the access flags. -/
def native_entry_frame (cfg : Config) (env : Env) : Asm Unit := do
  native_entry_frame_start
  -- initialize fixed part of activation frame
  generate_fixed_frame cfg env true
  native_entry_frame_checks cfg

/-- Lines 774-815: the do-not-unlock flag, the invocation counter (with the
overflow handler of lines 1167-1171, which jumps back to
`continue_after_compile`), the shadow page banging and the method lock. -/
def native_entry_count_bang_lock (cfg : Config) (env : Env) (synchronized : Bool) :
    Asm Unit := do
  let inc_counter := cfg.UseCompiler || cfg.CountCompiledCalls
  movbool r15_thread JavaThread_do_not_unlock_if_synchronized true
  -- increment invocation count & check for overflow
  let overflow ← (if inc_counter then generate_counter_incr cfg env else pure false : Asm Bool)
  (if overflow then generate_counter_overflow cfg env else pure ())
  -- continue_after_compile:
  bang_stack_shadow_pages cfg true
  -- reset the _do_not_unlock_if_synchronized flag
  movbool r15_thread JavaThread_do_not_unlock_if_synchronized false
  -- check for synchronized methods
  if synchronized then
    lock_method cfg env
  else if cfg.ASSERT then do
    load_unsigned_short rax (Fld rbx Method_access_flags)
    let s ← get
    if testl_zero s rax cfg.JVM_ACC_SYNCHRONIZED then pure ()
    else stop "method needs synchronization"
  else pure ()

/-- Lines 840-849: allocate space for the parameters of the native call and
align the stack pointer to 16 bytes. -/
def native_entry_param_area (cfg : Config) : Asm Unit := do
  let method := rbx
  let t := r11
  get_method cfg method
  mov t (Fld method Method_const)
  load_unsigned_short t (Fld t ConstMethod_size_of_parameters)
  shll t logStackElementSize
  subptr rsp (R t)
  subptr rsp (Imm cfg.arg_reg_save_area_bytes)
  -- must be 16 byte boundary (see amd64 ABI)
  andptr rsp (Imm (-16))

/-- Lines 817-929: parameter area, signature handler, mirror handle, native
function entry point, `JNIEnv`, last Java frame. -/
def native_entry_prepare (cfg : Config) (env : Env) : Asm Unit := do
  let method := rbx
  let t := r11
  assert_frame_setup cfg "broken stack frame setup in interpreter 5"
  -- jvmti support
  vm_routine env Callee.notify_method_entry []
  -- allocate space for parameters
  native_entry_param_area cfg
  -- get signature handler
  mov t (Fld method Method_signature_handler)
  let s ← get
  (if s.reg t ≠ 0 then pure ()
  else do
    call_VM env Callee.prepare_native_call [R method]
    get_method cfg method
    mov t (Fld method Method_signature_handler))
  -- call signature handler
  call env Callee.signature_handler [R t]
  get_method cfg method
  -- set result handler
  movptr_to rbp (cfg.interpreter_frame_result_handler_offset * wordSize) (R rax)
  -- pass mirror handle if static call
  load_unsigned_short t (Fld method Method_access_flags)
  let s1 ← get
  (if testl_zero s1 t cfg.JVM_ACC_STATIC then pure ()
  else do
    load_mirror env t method rax
    movptr_to rbp (cfg.interpreter_frame_oop_temp_offset * wordSize) (R t)
    mov (c_rarg1 cfg) fun s => ea (s.reg rbp) (cfg.interpreter_frame_oop_temp_offset * wordSize))
  -- get native function entry point
  mov rax (Fld method Method_native_function)
  let s2 ← get
  (if s2.reg rax ≠ cfg.native_method_throw_unsatisfied_link_error_entry then pure ()
  else do
    call_VM env Callee.prepare_native_call [R method]
    get_method cfg method
    mov rax (Fld method Method_native_function))
  -- pass JNIEnv
  mov (c_rarg0 cfg) fun s => ea (s.reg r15_thread) cfg.JavaThread_jni_environment_offset
  call env Callee.set_last_Java_frame [R rsp, R rbp]

/-- Lines 931-941: the debug check that the thread is in state
`_thread_in_Java`. -/
def native_entry_assert_thread_state (cfg : Config) : Asm Unit := do
  let thread := r15_thread
  let t := r11
  if cfg.ASSERT then do
    movl t (Fld thread JavaThread_thread_state)
    let s ← get
    if s.reg t = cfg._thread_in_Java % 2 ^ 32 then pure ()
    else stop "Wrong thread state in native stub"
  else pure ()

/-- Lines 943-1008: the thread state transitions around the native call. -/
def native_entry_transition (cfg : Config) (env : Env) : Asm Unit := do
  let thread := r15_thread
  -- Change state to native
  movl_fld thread JavaThread_thread_state (fun _ => cfg._thread_in_native)
  call env Callee.push_cont_fastpath []
  -- Call the native method.
  call env Callee.native_function [R rax]
  call env Callee.pop_cont_fastpath []
  -- Verify or restore cpu control state after JNI call
  call env Callee.restore_cpu_control_state_after_jni []
  push_dtos
  push_ltos
  -- change thread state
  movl_fld thread JavaThread_thread_state (fun _ => cfg._thread_in_native_trans)
  -- Force this write out before the read below
  (if !cfg.UseSystemMemoryBarrier then membar else pure ())
  -- check for safepoint operation in progress and/or pending suspend requests
  call env Callee.safepoint_poll []
  let s1 ← get
  (if !env.branch Callee.safepoint_poll s1
      && s1.fld JavaThread_suspend_flags (s1.reg thread) % 2 ^ 32 == 0 then pure ()
  else do
    -- slow_path: a runtime call by hand
    mov (c_rarg0 cfg) (R r15_thread)
    mov r12 (R rsp)
    subptr rsp (Imm cfg.arg_reg_save_area_bytes)
    andptr rsp (Imm (-16))
    call env Callee.check_special_condition_for_native_trans [R (c_rarg0 cfg)]
    mov rsp (R r12)
    call env Callee.reinit_heapbase [])
  -- change thread state
  movl_fld thread JavaThread_thread_state (fun _ => cfg._thread_in_Java)

/-- Lines 931-1008: debug check and thread state transitions. -/
def native_entry_call (cfg : Config) (env : Env) : Asm Unit := do
  native_entry_assert_thread_state cfg
  native_entry_transition cfg env

/-- Lines 1038-1056: if the result is an oop, unbox it and store it in the
frame where the collector will see it. -/
def native_entry_oop_result (cfg : Config) (env : Env) : Asm Unit := do
  let t := r11
  mov t (fun _ => cfg.result_handler_T_OBJECT)
  let s1 ← get
  if s1.reg t ≠ s1.mem (ea (s1.reg rbp) (cfg.interpreter_frame_result_handler_offset * wordSize))
  then pure ()
  else do
    -- retrieve result
    pop_ltos
    -- Unbox oop result, e.g. JNIHandles::resolve value.
    call env Callee.resolve_jobject [R rax]
    movptr_to rbp (cfg.interpreter_frame_oop_temp_offset * wordSize) (R rax)
    -- keep stack depth as expected by pushing oop which will eventually be discarded
    push_ltos

/-- Lines 1010-1085: preemption check, last Java frame, handle block, oop
result, yellow zone, reload of method and bcp. -/
def native_entry_unlink (cfg : Config) (env : Env) : Asm Unit := do
  let method := rbx
  let thread := r15_thread
  let t := r11
  (if !cfg.LockingMode_is_LM_LEGACY then do
    -- Check preemption for Object.wait()
    mov rscratch1 (Fld r15_thread JavaThread_preempt_alternate_return)
    let s ← get
    if s.reg rscratch1 = 0 then pure ()
    else do
      movptr_fld r15_thread JavaThread_preempt_alternate_return (Imm 0)
      jmp_reg rscratch1
  else pure ())
  call env Callee.reset_last_Java_frame []
  (if cfg.CheckJNICalls then
    movptr_fld thread JavaThread_pending_jni_exception_check_fn (Imm 0)
  else pure ())
  -- reset handle block
  mov t (Fld thread JavaThread_active_handles)
  movl_fld t JNIHandleBlock_top (Imm 0)
  -- If result is an oop unbox and store it in frame where gc will see it
  native_entry_oop_result cfg env
  let s2 ← get
  (if s2.fld JavaThread_stack_guard_state (s2.reg thread) % 2 ^ 32
      ≠ cfg.stack_guard_yellow_reserved_disabled % 2 ^ 32 then pure ()
  else do
    call env Callee.pusha []
    mov r12 (R rsp)
    subptr rsp (Imm cfg.arg_reg_save_area_bytes)
    andptr rsp (Imm (-16))
    call env Callee.reguard_yellow_pages []
    mov rsp (R r12)
    call env Callee.popa []
    call env Callee.reinit_heapbase [])
  get_method cfg method
  -- restore to have legal interpreter frame, i.e., bci == 0 <=> code_base()
  mov rbcp (Fld method Method_const)
  mov rbcp fun s => ea (s.reg rbcp) cfg.ConstMethod_codes_offset

/-- Lines 1087-1101: handle exceptions. -/
def native_entry_pending_exception (env : Env) : Asm Unit := do
  let s ← get
  if s.fld Thread_pending_exception (s.reg r15_thread) = 0 then pure ()
  else do
    call_VM env Callee.throw_pending_exception []
    exit Exit.should_not_reach_here

/-- Lines 1103-1139: do unlocking if necessary. -/
def native_entry_unlock (cfg : Config) (env : Env) : Asm Unit := do
  let method := rbx
  let t := r11
  load_unsigned_short t (Fld method Method_access_flags)
  let s ← get
  if testl_zero s t cfg.JVM_ACC_SYNCHRONIZED then pure ()
  else do
    let regmon := c_rarg1 cfg
    -- monitor expect in c_rarg1 for slow unlock path
    mov regmon fun s => ea (s.reg rbp)
      (cfg.interpreter_frame_initial_sp_offset * wordSize - cfg.sizeof_BasicObjectLock)
    mov t fun s => s.mem (ea (s.reg regmon) cfg.BasicObjectLock_obj_offset)
    let s1 ← get
    if s1.reg t ≠ 0 then
      vm_routine env Callee.unlock_object [R regmon]
    else do
      -- Entry already unlocked, need to throw exception
      call_VM env Callee.throw_illegal_monitor_state_exception []
      exit Exit.should_not_reach_here

/-- Lines 1141-1165: method exit notification, result handler, frame
removal and return to the caller. -/
def native_entry_return (cfg : Config) (env : Env) : Asm Unit := do
  let t := r11
  -- jvmti support
  vm_routine env Callee.notify_method_exit []
  pop_ltos
  pop_dtos
  mov t (Mem rbp (cfg.interpreter_frame_result_handler_offset * wordSize))
  call env Callee.result_handler [R t]
  -- remove activation
  mov t (Mem rbp (cfg.interpreter_frame_sender_sp_offset * wordSize))
  leave
  pop rdi
  mov rsp (R t)
  jmp_reg rdi

/-- Lines 1087-1165: everything after the method and bcp have been reloaded. -/
def native_entry_finish (cfg : Config) (env : Env) : Asm Unit := do
  native_entry_pending_exception env
  native_entry_unlock cfg env
  native_entry_return cfg env

/-- Lines 712-1174. -/
def generate_native_entry (cfg : Config) (env : Env) (synchronized : Bool) : Asm Unit := do
  native_entry_frame cfg env
  native_entry_count_bang_lock cfg env synchronized
  native_entry_prepare cfg env
  native_entry_call cfg env
  native_entry_unlink cfg env
  native_entry_finish cfg env

/-! ## Interpreted method entry (lines 1200-1349) -/

/-- Is the 32 bit value, read as a signed number, at most zero?  This is the
condition `lessEqual` after `testl(r, r)`. -/
def lessEqual_zero32 (x : Nat) : Bool := x % 2 ^ 32 == 0 || 2 ^ 31 ≤ x % 2 ^ 32

/-- The condition `greater` after `decrementl` of the 32 bit value `x`:
`ZF = 0` and `SF = OF`, where the result is `x - 1` and the overflow flag is
set exactly when `x` was the most negative number. -/
def greater_after_dec32 (x : Nat) : Bool :=
  let r := w32 ((x % 2 ^ 32 : Nat) - 1)
  r != 0 && ((2 ^ 31 ≤ r) == (x % 2 ^ 32 == 2 ^ 31))

/-- The loop of lines 1246-1249.  The first argument bounds the number of
iterations; `generate_normal_entry` passes the value of `rdx`, which the loop
counts down. -/
def locals_loop : Nat → Asm Unit
  | 0 => pure ()
  | fuel + 1 => do
    let s ← get
    push (Imm 0)
    mov rdx fun s => w32 ((s.reg rdx % 2 ^ 32 : Nat) - 1)
    if greater_after_dec32 (s.reg rdx) then locals_loop fuel else pure ()

/-- Lines 1215-1224: parameter size and number of additional locals. -/
def normal_entry_sizes : Asm Unit := do
  -- get parameter size (always needed)
  mov rdx (Fld rbx Method_const)
  load_unsigned_short rcx (Fld rdx ConstMethod_size_of_parameters)
  load_unsigned_short rdx (Fld rdx ConstMethod_size_of_locals)
  subl rdx (R rcx)

/-- Lines 1233-1237: pop the return address and compute the beginning of the
parameters. -/
def normal_entry_locals_base : Asm Unit := do
  -- get return address
  pop rax
  -- compute beginning of parameters
  mov rlocals fun s => w64 ((s.reg rsp : Int) + (s.reg rcx : Int) * stackElementSize - wordSize)

/-- Lines 1239-1251: allocate space for the additional locals and initialize
them; `rdx` holds their number. -/
def normal_entry_locals : Asm Unit := do
  let s ← get
  -- do nothing if rdx <= 0
  if lessEqual_zero32 (s.reg rdx) then pure ()
  else locals_loop (s.reg rdx % 2 ^ 32)

/-- Lines 1233-1273: return address, locals, fixed frame, and the debug
checks on the access flags. -/
def normal_entry_allocate (cfg : Config) (env : Env) : Asm Unit := do
  normal_entry_locals_base
  -- allocate space for locals, explicitly initialize locals
  normal_entry_locals
  -- initialize fixed part of activation frame
  generate_fixed_frame cfg env false
  -- make sure method is not native & not abstract
  if cfg.ASSERT then do
    load_unsigned_short rax (Fld rbx Method_access_flags)
    let s1 ← get
    (if testl_zero s1 rax cfg.JVM_ACC_NATIVE then pure ()
    else stop "tried to execute native method as non-native")
    if testl_zero s1 rax cfg.JVM_ACC_ABSTRACT then pure ()
    else stop "tried to execute abstract method in interpreter"
  else pure ()

/-- Lines 1215-1273: sizes, stack overflow check, locals and fixed frame. -/
def normal_entry_frame (cfg : Config) (env : Env) : Asm Unit := do
  normal_entry_sizes
  -- see if we've got enough room on the stack for locals plus overhead.
  generate_stack_overflow_check cfg
  normal_entry_allocate cfg env

/-- Lines 1275-1319: the do-not-unlock flag, parameter profiling, the
invocation counter (with the overflow handler of lines 1341-1346, which jumps
back to `continue_after_compile`), the shadow page banging and the lock. -/
def normal_entry_count_bang_lock (cfg : Config) (env : Env) (synchronized : Bool) :
    Asm Unit := do
  let inc_counter := cfg.UseCompiler || cfg.CountCompiledCalls
  movbool r15_thread JavaThread_do_not_unlock_if_synchronized true
  call env Callee.profile_parameters_type []
  -- increment invocation count & check for overflow
  let overflow ← (if inc_counter then generate_counter_incr cfg env else pure false : Asm Bool)
  (if overflow then generate_counter_overflow cfg env else pure ())
  -- continue_after_compile:
  bang_stack_shadow_pages cfg false
  -- reset the _do_not_unlock_if_synchronized flag
  movbool r15_thread JavaThread_do_not_unlock_if_synchronized false
  -- check for synchronized methods
  if synchronized then
    -- Allocate monitor and lock method
    lock_method cfg env
  else if cfg.ASSERT then do
    load_unsigned_short rax (Fld rbx Method_access_flags)
    let s ← get
    if testl_zero s rax cfg.JVM_ACC_SYNCHRONIZED then pure ()
    else stop "method needs synchronization"
  else pure ()

/-- Lines 1321-1339: start execution. -/
def normal_entry_start (cfg : Config) (env : Env) : Asm Unit := do
  assert_frame_setup cfg "broken stack frame setup in interpreter 6"
  -- jvmti support
  vm_routine env Callee.notify_method_entry []
  exit Exit.dispatch_next

/-- Lines 1200-1349. -/
def generate_normal_entry (cfg : Config) (env : Env) (synchronized : Bool) : Asm Unit := do
  normal_entry_frame cfg env
  normal_entry_count_bang_lock cfg env synchronized
  normal_entry_start cfg env

/-! ## JVMTI PopFrame support (lines 1405-1531) -/

/-- Lines 1405-1430 of `generate_throw_exception`: the popframe processing
bit and the call of `InterpreterRuntime::interpreter_contains` on the
frame's return address. -/
def popframe_entry_check (cfg : Config) (env : Env) : Asm Unit := do
  let thread := r15_thread
  call env Callee.empty_expression_stack []
  -- Set the popframe_processing bit in pending_popframe_condition
  movl rdx (Fld thread JavaThread_popframe_condition)
  orl rdx (fun _ => cfg.popframe_processing_bit)
  movl_fld thread JavaThread_popframe_condition (R rdx)
  -- Check to see whether we are returning to a deoptimized frame.
  mov (c_rarg1 cfg) (Mem rbp (cfg.return_addr_offset * wordSize))
  call env Callee.interpreter_contains [R (c_rarg1 cfg)]

/-- Lines 1434-1448 of `generate_throw_exception`: compute the size of the
arguments for saving when returning to a deoptimized caller, and save them. -/
def popframe_save_args (cfg : Config) (env : Env) : Asm Unit := do
  let thread := r15_thread
  get_method cfg rax
  mov rax (Fld rax Method_const)
  load_unsigned_short rax (Fld rax ConstMethod_size_of_parameters)
  shll rax logStackElementSize
  restore_locals cfg
  subptr rlocals (R rax)
  addptr rlocals (Imm wordSize)
  -- Save these arguments
  call env Callee.popframe_preserve_args [R thread, R rax, R rlocals]

/-- Lines 1431-1531 of `generate_throw_exception`: the branch on the result
of `interpreter_contains` and both continuations. -/
def popframe_entry_finish (cfg : Config) (env : Env) : Asm Unit := do
  let thread := r15_thread
  let s ← get
  (if s.reg rax % 2 ^ 32 ≠ 0 then pure ()
  else do
    popframe_save_args cfg env
    vm_routine env (Callee.remove_activation false false false) []
    -- Inform deoptimization that it is responsible for restoring these arguments
    movl_fld thread JavaThread_popframe_condition
      (fun _ => cfg.popframe_force_deopt_reexecution_bit)
    -- Continue in deoptimization handler
    jmp_reg rdx)
  -- caller_not_deoptimized:
  vm_routine env (Callee.remove_activation false false false) []
  -- Finish with popframe handling
  mov (c_rarg1 cfg) (R rsp)
  mov (c_rarg2 cfg) (Mem rbp (cfg.interpreter_frame_last_sp_offset * wordSize))
  mov (c_rarg2 cfg) fun s => (s.reg rbp + s.reg (c_rarg2 cfg) * wordSize) % 2 ^ 64
  call env Callee.set_last_Java_frame [R rbp]
  call env Callee.popframe_move_outgoing_args [R r15_thread, R (c_rarg1 cfg), R (c_rarg2 cfg)]
  call env Callee.reset_last_Java_frame []
  -- Restore the last_sp and null it out
  mov rcx (Mem rbp (cfg.interpreter_frame_last_sp_offset * wordSize))
  mov rsp fun s => (s.reg rbp + s.reg rcx * wordSize) % 2 ^ 64
  movptr_to rbp (cfg.interpreter_frame_last_sp_offset * wordSize) (Imm 0)
  restore_bcp cfg
  restore_locals cfg
  (if cfg.ProfileInterpreter then
    call env Callee.set_method_data_pointer_for_bcp []
  else pure ())
  -- Clear the popframe condition flag
  movl_fld thread JavaThread_popframe_condition (fun _ => cfg.popframe_inactive)
  (if cfg.INCLUDE_JVMTI then do
    let local0 := rlocals
    let s1 ← get
    if s1.mem (s1.reg rbcp) % 2 ^ 8 ≠ cfg.Bytecodes_invokestatic % 2 ^ 8 then pure ()
    else do
      get_method cfg rdx
      mov rax (Mem local0 0)
      call_VM_oop env rax Callee.member_name_arg_or_null [R rax, R rdx, R rbcp]
      let s2 ← get
      if s2.reg rax = 0 then pure ()
      else movptr_to rbx 0 (R rax)
  else pure ())
  exit Exit.dispatch_next

/-- The code at `Interpreter::_remove_activation_preserving_args_entry`,
lines 1405-1531 of `generate_throw_exception`. -/
def remove_activation_preserving_args_entry (cfg : Config) (env : Env) : Asm Unit := do
  popframe_entry_check cfg env
  popframe_entry_finish cfg env

/-! ## Exception and unwind entries (lines 1354-1403, 1533-1589) -/

/-- Lines 1357-1365: the code at `Interpreter::_rethrow_exception_entry`, up
to the point where it runs into the throw entry. -/
def rethrow_exception_head (cfg : Config) (env : Env) : Asm Unit := do
  -- Restore sp to interpreter_frame_last_sp even though we are going
  -- to empty the expression stack for the exception processing.
  movptr_to rbp (cfg.interpreter_frame_last_sp_offset * wordSize) (Imm 0)
  restore_bcp cfg
  restore_locals cfg
  call env Callee.reinit_heapbase []

/-- Lines 1366-1386: the code at `Interpreter::_throw_exception_entry`. -/
def throw_exception_entry (cfg : Config) (env : Env) : Asm Unit := do
  verify_oop rax
  mov (c_rarg1 cfg) (R rax)
  -- expression stack must be empty before entering the VM in case of an exception
  call env Callee.empty_expression_stack []
  -- find exception handler address and preserve exception oop
  call_VM_oop env rdx Callee.exception_handler_for_exception [R (c_rarg1 cfg)]
  -- push exception which is now the only value on the stack
  push (R rdx)
  -- jump to exception handler (may be _remove_activation_entry!)
  jmp_reg rax

/-- Lines 1357-1386: the code at `Interpreter::_rethrow_exception_entry`,
which runs into the throw entry. -/
def rethrow_exception_entry (cfg : Config) (env : Env) : Asm Unit := do
  rethrow_exception_head cfg env
  throw_exception_entry cfg env

/-- Lines 1536-1542 of the remove-activation entry: the exception is kept
in the thread's `vm_result` while the activation is removed. -/
def remove_activation_entry_unwind (env : Env) : Asm Unit := do
  let thread := r15_thread
  -- preserve exception over this code sequence
  pop rax
  movptr_fld thread JavaThread_vm_result (R rax)
  -- remove the activation (without doing throws on illegalMonitorExceptions)
  vm_routine env (Callee.remove_activation false true false) []
  -- restore exception
  get_vm_result rax

/-- Lines 1552-1560 of the remove-activation entry: compute the continuation
point and jump to the exception handler of the caller. -/
def remove_activation_entry_continue (env : Env) : Asm Unit := do
  let thread := r15_thread
  -- save exception
  push (R rax)
  -- save return address
  push (R rdx)
  call env Callee.exception_handler_for_return_address [R thread, R rdx]
  -- save exception handler
  mov rbx (R rax)
  -- restore return address
  pop rdx
  -- restore exception
  pop rax
  -- jump to exception handler of caller
  jmp_reg rbx

/-- Lines 1533-1561: the code at `Interpreter::_remove_activation_entry`. -/
def remove_activation_entry (env : Env) : Asm Unit := do
  remove_activation_entry_unwind env
  remove_activation_entry_continue env

/-- Lines 1568-1589: `generate_earlyret_entry_for(state)`. -/
def generate_earlyret_entry_for (cfg : Config) (env : Env) (state : TosState) : Asm Unit := do
  restore_bcp cfg
  restore_locals cfg
  call env Callee.empty_expression_stack []
  call env (Callee.load_earlyret_value state) []
  mov rcx (Fld r15_thread JavaThread_jvmti_thread_state)
  -- Clear the earlyret state
  movl_fld rcx JvmtiThreadState_earlyret_state (fun _ => cfg.earlyret_inactive)
  vm_routine env (Callee.remove_activation false false true) []
  jmp_reg rsi

/-! ## Quantities and fixtures used in the statements -/

/-- Number of additional locals that lines 1216-1224 leave in `rdx`. -/
def additional_locals (s : Machine) : Nat :=
  let cm := s.fld Method_const (s.reg rbx)
  w32 ((s.fld ConstMethod_size_of_locals cm % 2 ^ 16 : Nat)
    - (s.fld ConstMethod_size_of_parameters cm % 2 ^ 16 : Nat))

/-- The immediate of the `cmpl` at line 441, as a 32 bit value. -/
def one_page_locals (cfg : Config) : Nat :=
  w32 (Int.tdiv (cfg.page_size - overhead_size cfg) stackElementSize)

/-- The value returned by a run that falls through. -/
def Run.val? {α : Type} : Run α → Option α
  | Run.ok a _ => some a
  | Run.leave _ _ => none

/-- A product build on Linux x86_64 with 4K pages and a 20 page shadow zone. -/
def linux_x86_64 : Config where
  ASSERT := false
  ProfileInterpreter := false
  UseCompiler := true
  CountCompiledCalls := false
  UseSystemMemoryBarrier := false
  LockingMode_is_LM_LEGACY := false
  CheckJNICalls := false
  INCLUDE_JVMTI := true
  win64 := false
  page_size := 4096
  stack_shadow_zone_size := 20 * 4096
  interpreter_frame_monitor_size_in_bytes := 16
  sizeof_BasicObjectLock := 16
  BasicObjectLock_obj_offset := 8
  interpreter_frame_initial_sp_offset := -9
  interpreter_frame_monitor_block_top_offset := -9
  interpreter_frame_last_sp_offset := -2
  interpreter_frame_sender_sp_offset := -1
  interpreter_frame_method_offset := -3
  interpreter_frame_bcp_offset := -8
  interpreter_frame_locals_offset := -7
  interpreter_frame_result_handler_offset := 3
  interpreter_frame_oop_temp_offset := 2
  return_addr_offset := 1
  arg_reg_save_area_bytes := 0
  ConstMethod_codes_offset := 56
  JavaThread_jni_environment_offset := 1000
  MethodData_data_offset := 300
  count_increment := 2
  JVM_ACC_SYNCHRONIZED := 0x20
  JVM_ACC_STATIC := 0x8
  JVM_ACC_NATIVE := 0x100
  JVM_ACC_ABSTRACT := 0x400
  _thread_in_native := 4
  _thread_in_native_trans := 5
  _thread_in_Java := 8
  stack_guard_yellow_reserved_disabled := 1
  popframe_inactive := 0
  popframe_processing_bit := 2
  popframe_force_deopt_reexecution_bit := 4
  earlyret_inactive := 0
  result_handler_T_OBJECT := 7777
  native_method_throw_unsatisfied_link_error_entry := 5555
  Bytecodes_invokestatic := 184

/-- Collaborators that change nothing and never branch away. -/
def idle_env : Env where
  effect := fun _ s => s
  branch := fun _ _ => false
  mirror := fun _ => 99
  scratch := fun _ => 0

/-- A thread at `0x500` about to enter the method at `0x600`: stack pointer
`0x100000`, sender sp one word above, stack overflow limit `0x100000`,
growth watermark `0x200000`, safe limit `0x8000`. -/
def entry_state (locals access_flags : Nat) : Machine where
  reg := fun r => match r with
    | .rsp => 0x100000 | .rbp => 0x200000 | .r15 => 0x500 | .rbx => 0x600
    | .r13 => 0x100008 | _ => 0
  mem := fun a => if a = 0x100000 then 0x4242 else 0
  fld := fun f _ => match f with
    | .JavaThread_stack_overflow_limit => 0x100000
    | .JavaThread_thread_state => 8
    | .JavaThread_shadow_zone_growth_watermark => 0x200000
    | .JavaThread_shadow_zone_safe_limit => 0x8000
    | .Method_access_flags => access_flags
    | .Method_signature_handler => 1
    | .ConstMethod_size_of_locals => locals
    | .MethodCounters_invocation_counter => 6
    | .MethodCounters_invoke_mask => 6
    | _ => 0
  xmm0 := 0
  trace := []

/-- The values pushed, in order, among the events of a trace. -/
def pushes (evs : List Event) : List Nat :=
  evs.filterMap fun e => match e with
    | Event.push v => some v
    | _ => none

/-- The eleven words of the fixed frame as the claim lists them: return
address, caller `rbp`, sender sp, null last_sp, `Method*`, holder mirror,
method-data pointer, constant-pool cache, relativized locals, bcp, initial-sp
offset, for a frame built from machine state `s`. -/
def fixed_frame_words (cfg : Config) (env : Env) (s : Machine) (native_call : Bool) : List Nat :=
  let cm := s.fld Method_const (s.reg rbx)
  let md := s.fld Method_method_data (s.reg rbx)
  [ s.reg rax,
    s.reg rbp,
    s.reg rbcp,
    0,
    s.reg rbx,
    env.mirror (s.reg rbx),
    if cfg.ProfileInterpreter then
      (if md = 0 then 0 else (md + w64 cfg.MethodData_data_offset) % 2 ^ 64) else 0,
    s.fld ConstantPool_cache (s.fld ConstMethod_constants cm),
    w64 ((s.reg rlocals : Int) - (ea (s.reg rsp) (-(2 * wordSize : Nat)) : Nat))
      / 2 ^ logStackElementSize,
    if native_call then 0 else ea cm cfg.ConstMethod_codes_offset,
    w64 cfg.interpreter_frame_initial_sp_offset ]

/-- The page touches of one pass of the loop of lines 696-698 at stack
pointer `sp`: one per shadow page, at `sp - p*page_size` for `p = 1 .. n`. -/
def shadow_page_bangs (cfg : Config) (sp : Nat) : List Event :=
  (List.range (Int.tdiv cfg.stack_shadow_zone_size cfg.page_size).toNat).map
    fun i => Event.bang (ea sp (-(((1 + i : Nat) : Int) * cfg.page_size)))

/-- What a state-recording collaborator sees of the native bridge: stores
to the thread state and the call of the native function. -/
inductive BridgeMark where
  | state (v : Nat)
  | native_call
  deriving DecidableEq, Repr

/-- The bridge mark of one event, if it has one. -/
def bridge_mark : Event → Option BridgeMark
  | Event.store_field JavaThread_thread_state _ v => some (BridgeMark.state v)
  | Event.call Callee.native_function _ => some BridgeMark.native_call
  | _ => none

/-- The bridge marks of a trace, in order. -/
def bridge_marks (evs : List Event) : List BridgeMark := evs.filterMap bridge_mark

/-- The steps of a method entry that the locking claims speak about: stores
to `do_not_unlock_if_synchronized`, shadow page touches, and the call of
`lock_object`. -/
inductive EntryMark where
  | flag (v : Nat)
  | bang
  | lock
  deriving DecidableEq, Repr

/-- The entry mark of one event, if it has one. -/
def entry_mark : Event → Option EntryMark
  | Event.store_field JavaThread_do_not_unlock_if_synchronized _ v => some (EntryMark.flag v)
  | Event.bang _ => some EntryMark.bang
  | Event.call Callee.lock_object _ => some EntryMark.lock
  | _ => none

/-- The entry marks of a trace, in order. -/
def entry_marks (evs : List Event) : List EntryMark := evs.filterMap entry_mark

/-- Every run of the code appends to the trace only events satisfying `P`. -/
def Appends {α : Type} (P : Event → Prop) (x : Asm α) : Prop :=
  ∀ s, ∃ evs, (x s).state.trace = s.trace ++ evs ∧ ∀ e ∈ evs, P e

/-- Events other than calls of the callees `cs`, stores to the fields `fs`,
and (when `bangs` is set) page touches. -/
def avoids (cs : List Callee) (fs : List Field) (bangs : Bool) : Event → Bool
  | Event.call c _ => !cs.contains c
  | Event.store_field f _ _ => !fs.contains f
  | Event.bang _ => !bangs
  | _ => true

/-- The routines and macros called, in order, among the events of a trace. -/
def calls (evs : List Event) : List Callee :=
  evs.filterMap fun e => match e with
    | Event.call c _ => some c
    | _ => none

/-- Address of the first monitor record, as computed at lines 1116-1123. -/
def first_monitor (cfg : Config) (s : Machine) : Nat :=
  ea (s.reg rbp)
    (cfg.interpreter_frame_initial_sp_offset * wordSize - cfg.sizeof_BasicObjectLock)

/-- Does the method in `rbx` carry `JVM_ACC_SYNCHRONIZED` in its access
flags?  This is the test of lines 1106-1108, negated. -/
def is_synchronized (cfg : Config) (s : Machine) : Bool :=
  (s.fld Method_access_flags (s.reg rbx) % 2 ^ 16 % 2 ^ 32) &&& cfg.JVM_ACC_SYNCHRONIZED != 0

/-- Every run of the code appends events whose marks (under `m`) form a
prefix of `M`, and all of `M` when the run falls through. -/
def Shape {α μ : Type} (m : Event → Option μ) (M : List μ) (x : Asm α) : Prop :=
  ∀ s, ∃ evs, (x s).state.trace = s.trace ++ evs ∧ evs.filterMap m <+: M
    ∧ ((x s).exit? = none → evs.filterMap m = M)

/-- Every run of the code falls through. -/
def Falls {α : Type} (x : Asm α) : Prop := ∀ s, (x s).exit? = none

/-- Events that carry neither a bridge mark nor an entry mark. -/
abbrev unmarked (e : Event) : Prop :=
  avoids [Callee.native_function, Callee.lock_object]
    [JavaThread_thread_state, JavaThread_do_not_unlock_if_synchronized] true e = true

/-- Events that carry no bridge mark: anything but thread state stores and
the native call. -/
abbrev no_bridge (e : Event) : Prop :=
  avoids [Callee.native_function] [JavaThread_thread_state] false e = true

/-- Events that carry no entry mark: anything but flag stores, page touches
and the call of `lock_object`. -/
abbrev no_entry (e : Event) : Prop :=
  avoids [Callee.lock_object] [JavaThread_do_not_unlock_if_synchronized] true e = true

/-- Every run of the code either falls through having emitted exactly the
marks `M`, or leaves having emitted no mark. -/
def AllOrLeave {α μ : Type} (m : Event → Option μ) (M : List μ) (x : Asm α) : Prop :=
  ∀ s, ∃ evs, (x s).state.trace = s.trace ++ evs
    ∧ (((x s).exit? = none ∧ evs.filterMap m = M)
      ∨ ((x s).exit? ≠ none ∧ evs.filterMap m = []))

/-- Every run of the code emits either no mark or exactly the marks `M`. -/
def NoneOrAll {α μ : Type} (m : Event → Option μ) (M : List μ) (x : Asm α) : Prop :=
  ∀ s, ∃ evs, (x s).state.trace = s.trace ++ evs
    ∧ (evs.filterMap m = [] ∨ evs.filterMap m = M)

/-- The marks of one complete pass through the native bridge. -/
def bridge_sequence (cfg : Config) : List BridgeMark :=
  [BridgeMark.state (cfg._thread_in_native % 2 ^ 32),
   BridgeMark.native_call,
   BridgeMark.state (cfg._thread_in_native_trans % 2 ^ 32),
   BridgeMark.state (cfg._thread_in_Java % 2 ^ 32)]

/-- Every run of the code appends events whose marks form a prefix of
`pre`, then any number of copies of `u`, then `post`. -/
def UpTo {α μ : Type} (m : Event → Option μ) (pre : List μ) (u : μ) (post : List μ)
    (x : Asm α) : Prop :=
  ∀ s, ∃ evs k, (x s).state.trace = s.trace ++ evs
    ∧ evs.filterMap m <+: pre ++ (List.replicate k u ++ post)

/-- Events that carry no bridge mark and no entry mark other than a page
touch. -/
abbrev unmarked_or_bang (e : Event) : Prop :=
  avoids [Callee.native_function, Callee.lock_object]
    [JavaThread_thread_state, JavaThread_do_not_unlock_if_synchronized] false e = true

/-- Is the entry mark a store to the do-not-unlock flag? -/
def EntryMark.is_flag : EntryMark → Bool
  | EntryMark.flag _ => true
  | _ => false

/-- The entry marks of a synchronized entry that runs to the end of its
locking sequence with `k` page touches. -/
def entry_sequence (k : Nat) : List EntryMark :=
  [EntryMark.flag 1] ++ (List.replicate k EntryMark.bang ++ [EntryMark.flag 0, EntryMark.lock])

/-- A debug build of `linux_x86_64`. -/
def linux_x86_64_debug : Config := { linux_x86_64 with ASSERT := true }

/-- The value that lines 446-466 leave in `rax` for `n` additional locals:
stack overflow limit plus locals plus overhead, as a 64 bit word. -/
def stack_limit_plus_frame (cfg : Config) (s : Machine) (n : Nat) : Nat :=
  w64 ((s.fld JavaThread_stack_overflow_limit (s.reg r15_thread) : Int)
    + n * stackElementSize + overhead_size cfg)

/-- The 32 bit counter value that one increment writes back. -/
def incremented (cfg : Config) (c : Nat) : Nat := (c % 2 ^ 32 + cfg.count_increment) % 2 ^ 32

/-- The overflow test of one increment: is the incremented counter, and-ed
with the 32 bit mask, zero? -/
def overflows (cfg : Config) (c mask : Nat) : Bool :=
  (incremented cfg c &&& (mask % 2 ^ 32)) % 2 ^ 32 == 0

/-- The machine just after `get_method_counters` has run at line 367: `rax`
holds the (null) `MethodData*` when profiling is on, and the macro has had
its effect. -/
def after_get_method_counters (cfg : Config) (env : Env) (s : Machine) : Machine :=
  (if cfg.ProfileInterpreter then s.set rax (s.fld Method_method_data (s.reg rbx))
    else s).call env Callee.get_method_counters [s.reg rbx]

/-- The machine just after `InterpreterRuntime::frequency_counter_overflow`
has returned to `call_VM` at line 394. -/
def after_frequency_counter_overflow (cfg : Config) (env : Env) (s : Machine) : Machine :=
  (s.set (c_rarg1 cfg) 0).call env Callee.frequency_counter_overflow [0]

/-- Does the method in `rbx` carry `JVM_ACC_STATIC` in its access flags?
This is the test of lines 526-530, negated. -/
def is_static (cfg : Config) (s : Machine) : Bool :=
  (s.fld Method_access_flags (s.reg rbx) % 2 ^ 16 % 2 ^ 32) &&& cfg.JVM_ACC_STATIC != 0

/-- The object `lock_method` synchronizes on: the mirror of the method's
holder for a static method, local 0 (the receiver) otherwise. -/
def lock_target (cfg : Config) (env : Env) (s : Machine) : Nat :=
  if is_static cfg s then env.mirror (s.reg rbx) else s.mem (ea (s.reg rlocals) 0)

/-- Address of the monitor record that `lock_method` allocates: `rsp` lowered
by `interpreter_frame_monitor_size_in_bytes`. -/
def new_monitor (cfg : Config) (s : Machine) : Nat :=
  ea (s.reg rsp) (-cfg.interpreter_frame_monitor_size_in_bytes)

/-- The steps of the native bridge that the barrier claim speaks about:
stores to the thread state, the memory barrier of lines 973-977, and the
safepoint poll. -/
inductive PollMark where
  | state (v : Nat)
  | barrier
  | poll
  deriving DecidableEq, Repr

/-- The poll mark of one event, if it has one. -/
def poll_mark : Event → Option PollMark
  | Event.store_field JavaThread_thread_state _ v => some (PollMark.state v)
  | Event.membar => some PollMark.barrier
  | Event.call Callee.safepoint_poll _ => some PollMark.poll
  | _ => none

/-- The poll marks of a trace, in order. -/
def poll_marks (evs : List Event) : List PollMark := evs.filterMap poll_mark

/-- Events that carry no poll mark. -/
abbrev poll_quiet (e : Event) : Prop := poll_mark e = none

/-- The poll marks of one complete pass through the native bridge: the
barrier is there exactly when `UseSystemMemoryBarrier` is off. -/
def poll_sequence (cfg : Config) : List PollMark :=
  PollMark.state (cfg._thread_in_native % 2 ^ 32)
    :: PollMark.state (cfg._thread_in_native_trans % 2 ^ 32)
    :: ((if cfg.UseSystemMemoryBarrier then [] else [PollMark.barrier])
      ++ [PollMark.poll, PollMark.state (cfg._thread_in_Java % 2 ^ 32)])

/-- The build `linux_x86_64` run with `-XX:+UseSystemMemoryBarrier`. -/
def linux_x86_64_system_barrier : Config :=
  { linux_x86_64 with UseSystemMemoryBarrier := true }

/-- The machine on which `resolve_jobject` runs at line 1049: `pop(ltos)` has
reloaded the raw result into `rax` and dropped its two stack elements. -/
def before_resolve_jobject (cfg : Config) (s : Machine) : Machine :=
  ((s.set r11 cfg.result_handler_T_OBJECT).set rax (s.mem (ea (s.reg rsp) 0))).set rsp
    ((s.reg rsp + 16) % 2 ^ 64)

/-- The machine as `resolve_jobject` leaves it at line 1049. -/
def after_resolve_jobject (cfg : Config) (env : Env) (s : Machine) : Machine :=
  env.effect Callee.resolve_jobject (before_resolve_jobject cfg s)

/-- The machine on which the result handler runs at line 1153: the method
exit has been notified, the saved `ltos` and `dtos` results have been popped
into `rax` and `xmm0`, and `r11` holds the frame's result handler. -/
def before_result_handler (cfg : Config) (env : Env) (s : Machine) : Machine :=
  let n := s.call env Callee.notify_method_exit []
  let p := (n.set rax (n.mem (ea (n.reg rsp) 0))).set rsp ((n.reg rsp + 16) % 2 ^ 64)
  let q := { p with xmm0 := p.mem (ea (p.reg rsp) 0) }.set rsp ((p.reg rsp + 16) % 2 ^ 64)
  q.set r11 (q.mem (ea (q.reg rbp) (cfg.interpreter_frame_result_handler_offset * wordSize)))

/-- The machine as the result handler leaves it at line 1153. -/
def after_result_handler (cfg : Config) (env : Env) (s : Machine) : Machine :=
  env.effect Callee.result_handler (before_result_handler cfg env s)

/-- Lines 727-1139 of `generate_native_entry`: everything that runs before
the method exit is notified at line 1146. -/
def native_entry_before_return (cfg : Config) (env : Env) (synchronized : Bool) : Asm Unit := do
  native_entry_frame cfg env
  native_entry_count_bang_lock cfg env synchronized
  native_entry_prepare cfg env
  native_entry_call cfg env
  native_entry_unlink cfg env
  native_entry_pending_exception env
  native_entry_unlock cfg env

/-- The machine as `InterpreterRuntime::exception_handler_for_exception`
leaves it at line 1378 of the throw entry: the exception oop has been copied
to `c_rarg1` and the expression stack emptied before the call. -/
def after_handler_lookup (cfg : Config) (env : Env) (s : Machine) : Machine :=
  let s1 := ((s.log (Event.call Callee.verify_oop [s.reg rax])).set (c_rarg1 cfg) (s.reg rax)).call
    env Callee.empty_expression_stack []
  s1.call env Callee.exception_handler_for_exception [s1.reg (c_rarg1 cfg)]

/-- Collaborators that change nothing, except that the handler lookup
`exception_handler_for_exception` preserves its argument (in `rsi`) in the
thread's `vm_result` and returns null in `rax`. -/
def null_handler_env : Env where
  effect := fun c s => if c = Callee.exception_handler_for_exception
    then (s.store_field JavaThread_vm_result (s.reg r15_thread) (s.reg rsi)).set rax 0 else s
  branch := fun _ _ => false
  mirror := fun _ => 99
  scratch := fun _ => 0

/-- The machine after `restore_bcp` and `restore_locals`: `rbcp` and
`rlocals` reloaded from their frame slots. -/
def restored (cfg : Config) (s : Machine) : Machine :=
  ((restore_bcp cfg >>= fun _ => restore_locals cfg) s).state

/-- The shadow zone growth watermark of the thread in `r15`. -/
def watermark (s : Machine) : Nat :=
  s.fld JavaThread_shadow_zone_growth_watermark (s.reg r15_thread)

/-- The shadow zone safe limit of the thread in `r15`. -/
def safe_limit (s : Machine) : Nat :=
  s.fld JavaThread_shadow_zone_safe_limit (s.reg r15_thread)

/-- A sequence of executions of the code of `bang_stack_shadow_pages`, one
at each of the given stack pointers. -/
def bang_runs (cfg : Config) (b : Bool) : List Nat → Machine → Machine
  | [], s => s
  | sp :: sps, s => bang_runs cfg b sps (bang_stack_shadow_pages cfg b (s.set rsp sp)).state

/-- The machine as `remove_activation` leaves it at line 1540 of the
remove-activation entry: the exception has been popped into `rax` and saved
in the thread's `vm_result` before the call. -/
def after_remove_activation (env : Env) (s : Machine) : Machine :=
  env.effect (Callee.remove_activation false true false)
    ((s.pop rax).store_field JavaThread_vm_result ((s.pop rax).reg r15_thread)
      ((s.pop rax).reg rax))

/-- The machine on which `remove_activation` runs at line 1582 of the
early-return entry for `state`: bcp and locals restored, expression stack
emptied, early-return value loaded, earlyret state cleared. -/
def before_earlyret_remove_activation (cfg : Config) (env : Env) (state : TosState)
    (s : Machine) : Machine :=
  let s1 := ((restored cfg s).call env Callee.empty_expression_stack []).call env
    (Callee.load_earlyret_value state) []
  let s2 := s1.set rcx (s1.fld JavaThread_jvmti_thread_state (s1.reg r15_thread))
  s2.store_field JvmtiThreadState_earlyret_state (s2.reg rcx) (cfg.earlyret_inactive % 2 ^ 32)

/-- The machine as `remove_activation` leaves it at line 1582 of the
early-return entry for `state`. -/
def after_earlyret_remove_activation (cfg : Config) (env : Env) (state : TosState)
    (s : Machine) : Machine :=
  (before_earlyret_remove_activation cfg env state s).call env
    (Callee.remove_activation false false true) []

/-- The handler address that `exception_handler_for_return_address` returns
at line 1555 of the remove-activation entry entered in state `s`. -/
def return_address_handler (env : Env) (s : Machine) : Nat :=
  let u := (remove_activation_entry_unwind env s).state
  (env.effect Callee.exception_handler_for_return_address
    ((u.push (u.reg rax)).push (u.reg rdx))).reg rax

/-- The parameter count the native entry reads at lines 840-844: the
unsigned 16 bit `size_of_parameters` of the frame's method. -/
def parameter_count (cfg : Config) (s : Machine) : Nat :=
  s.fld ConstMethod_size_of_parameters
    (s.fld Method_const (s.mem (ea (s.reg rbp) (cfg.interpreter_frame_method_offset * wordSize))))
    % 2 ^ 16

/-- The 64 bit value `rsp - p*stackElementSize - arg_reg_save_area_bytes`
that lines 845-847 leave in `rsp` before it is aligned. -/
def param_area_unaligned (cfg : Config) (s : Machine) : Nat :=
  w64 ((s.reg rsp : Int) - (parameter_count cfg s * stackElementSize : Nat)
    - cfg.arg_reg_save_area_bytes)

/-- The address `rlocals - p*stackElementSize + wordSize` in 64 bit
arithmetic, for the locals base that `restore_locals` reloads from the frame
and the parameter count `p` of the frame's method. -/
def preserved_args_start (cfg : Config) (s : Machine) : Nat :=
  ea ((restored cfg s).reg rlocals)
    ((wordSize : Int) - (parameter_count cfg s * stackElementSize : Nat))

/-- Modelled from the spec: the `BasicType` enumeration (declared outside
this file), the "per-return-type" index of the result handlers. -/
inductive BasicType where
  | T_BOOLEAN | T_CHAR | T_FLOAT | T_DOUBLE | T_BYTE | T_SHORT | T_INT | T_LONG
  | T_OBJECT | T_ARRAY | T_VOID | T_ADDRESS | T_NARROWOOP | T_METADATA
  | T_NARROWKLASS | T_CONFLICT | T_ILLEGAL
  deriving DecidableEq, Repr

/-- Modelled from the spec: assembler macro `c2bool(reg)` (macro assembler,
not in this file), the "result-fixup" of a C boolean: `andl(reg, 0xFF)`
followed by `setb(notZero, reg)`, so the register becomes 1 when its low
byte is non-zero and 0 otherwise. -/
def c2bool (r : Register) : Asm Unit :=
  step fun s => s.set r (if s.reg r % 2 ^ 32 % 256 ≠ 0 then 1 else 0)

/-- Modelled from the spec: the instruction `movzwl(dst, src)` (assembler,
not in this file): 16 bit load, zero-extended. -/
def movzwl (dst src : Register) : Asm Unit :=
  step fun s => s.set dst (s.reg src % 2 ^ 16)

/-- Modelled from the spec: assembler macro `sign_extend_byte(reg)`
(`movsbl(reg, reg)`, not in this file): the low byte sign-extended to 32
bits; the upper half of the register is cleared as for every 32 bit write. -/
def sign_extend_byte (r : Register) : Asm Unit :=
  step fun s => s.set r
    (if s.reg r % 2 ^ 8 < 2 ^ 7 then s.reg r % 2 ^ 8 else 2 ^ 32 - 2 ^ 8 + s.reg r % 2 ^ 8)

/-- Modelled from the spec: assembler macro `sign_extend_short(reg)`
(`movswl(reg, reg)`, not in this file): the low 16 bits sign-extended to 32
bits; the upper half of the register is cleared. -/
def sign_extend_short (r : Register) : Asm Unit :=
  step fun s => s.set r
    (if s.reg r % 2 ^ 16 < 2 ^ 15 then s.reg r % 2 ^ 16 else 2 ^ 32 - 2 ^ 16 + s.reg r % 2 ^ 16)

/-- The instruction `ret(imm16)`: pop the return address, release `imm16`
further bytes, and continue at the return address. -/
def ret_imm16 (imm : Nat) : Asm Unit := do
  let s ← get
  mov rsp fun s => ea (s.reg rsp) ((wordSize : Int) + imm)
  exit (Exit.jmp (s.mem (s.reg rsp)))

/-- Lines 275-294 of `generate_result_handler_for`: the switch on the type.
`none` stands for `ShouldNotReachHere()` in the generator itself, which
stops generation; no handler exists for such a type. -/
def result_handler_fixup (cfg : Config) : BasicType → Option (Asm Unit)
  | .T_BOOLEAN => some (c2bool rax)
  | .T_CHAR => some (movzwl rax rax)
  | .T_BYTE => some (sign_extend_byte rax)
  | .T_SHORT => some (sign_extend_short rax)
  | .T_INT => some (pure ())
  | .T_LONG => some (pure ())
  | .T_VOID => some (pure ())
  | .T_FLOAT => some (pure ())
  | .T_DOUBLE => some (pure ())
  | .T_OBJECT => some (do
      -- retrieve result from frame
      mov rax (Mem rbp (cfg.interpreter_frame_oop_temp_offset * wordSize))
      -- and verify it
      verify_oop rax)
  | _ => none

/-- Lines 272-297: `generate_result_handler_for(type)`: the fixup for the
type followed by `ret(0)`. -/
def generate_result_handler_for (cfg : Config) (type : BasicType) : Option (Asm Unit) := do
  let fixup ← result_handler_fixup cfg type
  pure (do
    fixup
    -- return from result handler
    ret_imm16 0)

/-- The value a result handler leaves in `rax` when run in state `s`, if a
handler was generated for the type. -/
def result_handler_rax (cfg : Config) (type : BasicType) (s : Machine) : Option Nat :=
  (generate_result_handler_for cfg type).map fun h => (h s).state.reg rax

/-- The way control leaves a result handler run in state `s`, if a handler
was generated for the type. -/
def result_handler_exit (cfg : Config) (type : BasicType) (s : Machine) : Option (Option Exit) :=
  (generate_result_handler_for cfg type).map fun h => (h s).exit?

/-- The integer that the low `n` bits of `x` denote in two's complement. -/
def as_signed (n : Nat) (x : Nat) : Int :=
  if x % 2 ^ n < 2 ^ (n - 1) then (x % 2 ^ n : Nat) else (x % 2 ^ n : Nat) - (2 ^ n : Nat)
/-- The signed value of the 32 bit count of additional locals in `rdx`. -/
def additional_locals_signed (s : Machine) : Int := as_signed 32 (s.reg rdx)

/-! ## The service thread (`serviceThread.cpp`, lines 82-192) -/

/-- The thirteen kinds of work of `ServiceThread::service_thread_entry`,
named after the local flags of lines 84-97, in the order in which the poll of
lines 114-126 lists them. -/
inductive Work where
  | has_jvmti_events | stringtable_work | symboltable_work | finalizerservice_work
  | resolved_method_table_work | thread_id_table_work | protection_domain_table_work
  | oopstorage_work | oop_handles_to_release | cldg_cleanup_work | jvmti_tagmap_work
  | oopmap_cache_work | object_monitor_table_work
  deriving DecidableEq, Repr

/-- Observable actions of the service thread, in execution order. -/
inductive ServiceEvent where
  | poll (w : Work) (result : Bool)
  | wait
  | dequeue
  | work (w : Work)
  deriving DecidableEq, Repr

/-- Behaviour of the subsystems the service thread talks to, over a state
`W` of the rest of the VM: the work predicate of each kind (some of them
reset a request flag, so they may change the state), the timed wait on
`Service_lock`, the dequeue of a deferred JVMTI event, and the work routine
of each kind. -/
structure ServiceEnv (W : Type) where
  has_work : Work → W → Bool × W
  wait : W → W
  dequeue : W → W
  do_work : Work → W → W

/-- State of the VM together with the log of what the service thread did. -/
structure ServiceState (W : Type) where
  world : W
  log : List ServiceEvent

/-- The local flags of lines 84-97. -/
structure Flags where
  has_jvmti_events : Bool := false
  stringtable_work : Bool := false
  symboltable_work : Bool := false
  finalizerservice_work : Bool := false
  resolved_method_table_work : Bool := false
  thread_id_table_work : Bool := false
  protection_domain_table_work : Bool := false
  oopstorage_work : Bool := false
  oop_handles_to_release : Bool := false
  cldg_cleanup_work : Bool := false
  jvmti_tagmap_work : Bool := false
  oopmap_cache_work : Bool := false
  object_monitor_table_work : Bool := false
  deriving DecidableEq, Repr

/-- The flag of a kind of work. -/
def Flags.get (f : Flags) : Work → Bool
  | .has_jvmti_events => f.has_jvmti_events
  | .stringtable_work => f.stringtable_work
  | .symboltable_work => f.symboltable_work
  | .finalizerservice_work => f.finalizerservice_work
  | .resolved_method_table_work => f.resolved_method_table_work
  | .thread_id_table_work => f.thread_id_table_work
  | .protection_domain_table_work => f.protection_domain_table_work
  | .oopstorage_work => f.oopstorage_work
  | .oop_handles_to_release => f.oop_handles_to_release
  | .cldg_cleanup_work => f.cldg_cleanup_work
  | .jvmti_tagmap_work => f.jvmti_tagmap_work
  | .oopmap_cache_work => f.oopmap_cache_work
  | .object_monitor_table_work => f.object_monitor_table_work

/-- One work predicate of the poll, e.g. `StringTable::has_work()`. -/
def has_work {W : Type} (env : ServiceEnv W) (w : Work) (st : ServiceState W) :
    Bool × ServiceState W :=
  ((env.has_work w st.world).1,
    { world := (env.has_work w st.world).2,
      log := st.log ++ [ServiceEvent.poll w (env.has_work w st.world).1] })

/-- The condition of the `while` of lines 114-127: every predicate is
called and its result assigned to its flag; the results are combined with
the arithmetic or.  The operands are taken in the order written. -/
def poll {W : Type} (env : ServiceEnv W) (st : ServiceState W) : Flags × ServiceState W :=
  let r1 := has_work env .has_jvmti_events st
  let r2 := has_work env .stringtable_work r1.2
  let r3 := has_work env .symboltable_work r2.2
  let r4 := has_work env .finalizerservice_work r3.2
  let r5 := has_work env .resolved_method_table_work r4.2
  let r6 := has_work env .thread_id_table_work r5.2
  let r7 := has_work env .protection_domain_table_work r6.2
  let r8 := has_work env .oopstorage_work r7.2
  let r9 := has_work env .oop_handles_to_release r8.2
  let r10 := has_work env .cldg_cleanup_work r9.2
  let r11 := has_work env .jvmti_tagmap_work r10.2
  let r12 := has_work env .oopmap_cache_work r11.2
  let r13 := has_work env .object_monitor_table_work r12.2
  ({ has_jvmti_events := r1.1, stringtable_work := r2.1, symboltable_work := r3.1,
     finalizerservice_work := r4.1, resolved_method_table_work := r5.1,
     thread_id_table_work := r6.1, protection_domain_table_work := r7.1,
     oopstorage_work := r8.1, oop_handles_to_release := r9.1, cldg_cleanup_work := r10.1,
     jvmti_tagmap_work := r11.1, oopmap_cache_work := r12.1,
     object_monitor_table_work := r13.1 }, r13.2)

/-- The arithmetic or of the thirteen flags, compared with zero at line 127. -/
def Flags.any (f : Flags) : Bool :=
  f.has_jvmti_events || f.stringtable_work || f.symboltable_work || f.finalizerservice_work
    || f.resolved_method_table_work || f.thread_id_table_work
    || f.protection_domain_table_work || f.oopstorage_work || f.oop_handles_to_release
    || f.cldg_cleanup_work || f.jvmti_tagmap_work || f.oopmap_cache_work
    || f.object_monitor_table_work

/-- The call `ml.wait(ServiceThreadCleanupInterval)` of line 130. -/
def service_wait {W : Type} (env : ServiceEnv W) (st : ServiceState W) : ServiceState W :=
  { world := env.wait st.world, log := st.log ++ [ServiceEvent.wait] }

/-- The poll loop of lines 114-131.  The first argument bounds the number of
polls; the loop itself has no bound. -/
def poll_loop {W : Type} (env : ServiceEnv W) : Nat → ServiceState W →
    Option (Flags × ServiceState W)
  | 0, _ => none
  | fuel + 1, st =>
    let r := poll env st
    if r.1.any then some r
    else
      -- Wait until notified that there is some work to do or timer expires.
      poll_loop env fuel (service_wait env r.2)

/-- Lines 133-137: get the event under the `Service_lock`. -/
def dequeue_event {W : Type} (env : ServiceEnv W) (st : ServiceState W) : ServiceState W :=
  { world := env.dequeue st.world, log := st.log ++ [ServiceEvent.dequeue] }

/-- One guarded work routine, e.g. `if (stringtable_work)
StringTable::do_concurrent_work(jt)`. -/
def work_if {W : Type} (env : ServiceEnv W) (flag : Bool) (w : Work) (st : ServiceState W) :
    ServiceState W :=
  if flag then { world := env.do_work w st.world, log := st.log ++ [ServiceEvent.work w] }
  else st

/-- Lines 133-190: what one outer iteration does once the poll loop has
exited with the flags `f`. -/
def process_work {W : Type} (env : ServiceEnv W) (f : Flags) (st : ServiceState W) :
    ServiceState W :=
  let st := if f.has_jvmti_events then dequeue_event env st else st
  let st := work_if env f.stringtable_work .stringtable_work st
  let st := work_if env f.symboltable_work .symboltable_work st
  let st := work_if env f.finalizerservice_work .finalizerservice_work st
  let st := work_if env f.has_jvmti_events .has_jvmti_events st
  let st := work_if env f.resolved_method_table_work .resolved_method_table_work st
  let st := work_if env f.thread_id_table_work .thread_id_table_work st
  let st := work_if env f.protection_domain_table_work .protection_domain_table_work st
  let st := work_if env f.oopstorage_work .oopstorage_work st
  let st := work_if env f.oop_handles_to_release .oop_handles_to_release st
  let st := work_if env f.cldg_cleanup_work .cldg_cleanup_work st
  let st := work_if env f.jvmti_tagmap_work .jvmti_tagmap_work st
  let st := work_if env f.oopmap_cache_work .oopmap_cache_work st
  work_if env f.object_monitor_table_work .object_monitor_table_work st

/-- Lines 84-190: one iteration of the outer `while (true)` of
`ServiceThread::service_thread_entry`; the entry repeats it for ever. -/
def service_thread_iteration {W : Type} (env : ServiceEnv W) (fuel : Nat)
    (st : ServiceState W) : Option (ServiceState W) :=
  match poll_loop env fuel st with
  | none => none
  | some r => some (process_work env r.1 r.2)

/-- The kinds of work in the order of the poll. -/
def poll_order : List Work :=
  [.has_jvmti_events, .stringtable_work, .symboltable_work, .finalizerservice_work,
   .resolved_method_table_work, .thread_id_table_work, .protection_domain_table_work,
   .oopstorage_work, .oop_handles_to_release, .cldg_cleanup_work, .jvmti_tagmap_work,
   .oopmap_cache_work, .object_monitor_table_work]

/-- The kinds of work in the order of the work routines of lines 139-190. -/
def work_order : List Work :=
  [.stringtable_work, .symboltable_work, .finalizerservice_work, .has_jvmti_events,
   .resolved_method_table_work, .thread_id_table_work, .protection_domain_table_work,
   .oopstorage_work, .oop_handles_to_release, .cldg_cleanup_work, .jvmti_tagmap_work,
   .oopmap_cache_work, .object_monitor_table_work]

/-- The events of one poll with the results `r`. -/
def poll_events (r : Work → Bool) : List ServiceEvent :=
  poll_order.map fun w => ServiceEvent.poll w (r w)

/-- The events of `k` polls that found nothing, each followed by a wait. -/
def idle_rounds : Nat → List ServiceEvent
  | 0 => []
  | k + 1 => poll_events (fun _ => false) ++ ServiceEvent.wait :: idle_rounds k

/-- One work event for every kind of the list whose flag is raised. -/
def raised (r : Work → Bool) : List Work → List ServiceEvent
  | [] => []
  | w :: l => (if r w then [ServiceEvent.work w] else []) ++ raised r l

/-- The events after the poll loop for the flags `r`: the dequeue if there
are JVMTI events, then one work routine per raised flag. -/
def work_events (r : Work → Bool) : List ServiceEvent :=
  (if r .has_jvmti_events then [ServiceEvent.dequeue] else []) ++ raised r work_order

/-- A VM in which string table work shows up after two waits: the state
counts the waits. -/
def late_stringtable : ServiceEnv Nat where
  has_work := fun w n => (w == .stringtable_work && 2 ≤ n, n)
  wait := fun n => n + 1
  dequeue := fun n => n
  do_work := fun _ n => n

/-- The equality that the debug check of lines 818-830 and 1322-1334 tests:
`rbp + [monitor_block_top slot]*wordSize = rsp`. -/
def frame_setup (cfg : Config) (s : Machine) : Prop :=
  (s.reg rbp + s.mem (ea (s.reg rbp) (cfg.interpreter_frame_monitor_block_top_offset * wordSize))
      * wordSize) % 2 ^ 64 = s.reg rsp

instance (cfg : Config) (s : Machine) : Decidable (frame_setup cfg s) := by
  unfold frame_setup
  infer_instance

/-- The frame as `generate_fixed_frame` leaves it: `rsp` is nine words below
`rbp` and the word there is the initial-sp offset. -/
def fresh_frame (cfg : Config) (s : Machine) : Prop :=
  s.reg rsp = ea (s.reg rbp) (-72)
    ∧ s.mem (s.reg rsp) = w64 cfg.interpreter_frame_initial_sp_offset

instance (cfg : Config) (s : Machine) : Decidable (fresh_frame cfg s) := by
  unfold fresh_frame
  infer_instance

/-- A collaborator that returns with the frame intact: it keeps `rsp`, `rbp`
and the word nine words below `rbp`. -/
def keeps_frame (env : Env) (c : Callee) : Prop :=
  ∀ m, (env.effect c m).reg rsp = m.reg rsp ∧ (env.effect c m).reg rbp = m.reg rbp
    ∧ (env.effect c m).mem (ea (m.reg rbp) (-72)) = m.mem (ea (m.reg rbp) (-72))

/-- The collaborators called between the fixed frame and the debug check of
the frame setup. -/
def frame_collaborators : List Callee :=
  [Callee.profile_parameters_type, Callee.get_method_counters,
   Callee.frequency_counter_overflow, Callee.lock_object]

/-- What is assumed of the constants declared outside the file: the monitor
block top slot is the initial-sp slot, nine words below `rbp`; a monitor
record is a whole number of words and its object field lies inside it; pages
have a positive size and the shadow zone fits the address space. -/
def frame_constants (cfg : Config) : Prop :=
  cfg.interpreter_frame_initial_sp_offset = -9
    ∧ cfg.interpreter_frame_monitor_block_top_offset = -9
    ∧ cfg.interpreter_frame_monitor_size_in_bytes % 8 = 0
    ∧ 0 ≤ cfg.BasicObjectLock_obj_offset
    ∧ cfg.BasicObjectLock_obj_offset < cfg.interpreter_frame_monitor_size_in_bytes
    ∧ cfg.interpreter_frame_monitor_size_in_bytes < 2 ^ 64
    ∧ 0 < cfg.page_size
    ∧ 0 ≤ cfg.stack_shadow_zone_size
    ∧ cfg.stack_shadow_zone_size < 2 ^ 64

instance (cfg : Config) : Decidable (frame_constants cfg) := by
  unfold frame_constants
  infer_instance

/-- The frame of `t` is the frame of `s`: same `rsp`, same `rbp`, same word
at the stack pointer. -/
def same_frame (s t : Machine) : Prop :=
  t.reg rsp = s.reg rsp ∧ t.reg rbp = s.reg rbp ∧ t.mem (s.reg rsp) = s.mem (s.reg rsp)

/-- The frame of `t` is the frame of `s` with one monitor record added:
`rsp` is lower by the size of a record in bytes and the word that was at the
stack pointer (the monitor block top slot of a fresh frame) is lower by the
size of a record in words. -/
def monitor_allocated (cfg : Config) (s t : Machine) : Prop :=
  t.reg rbp = s.reg rbp
    ∧ t.reg rsp = ea (s.reg rsp) (-cfg.interpreter_frame_monitor_size_in_bytes)
    ∧ t.mem (s.reg rsp)
      = w64 ((s.mem (s.reg rsp) : Int)
          - Int.tdiv cfg.interpreter_frame_monitor_size_in_bytes wordSize)

/-- A piece of code that leaves a fresh frame as it is, on every path. -/
def Stable {α : Type} (cfg : Config) (x : Asm α) : Prop :=
  ∀ s, fresh_frame cfg s → same_frame s (x s).state

/-- A piece of code that, started on a fresh frame, ends with the frame
setup equality, on every path. -/
def Ends {α : Type} (cfg : Config) (x : Asm α) : Prop :=
  ∀ s, fresh_frame cfg s → frame_setup cfg (x s).state

/-- A piece of code that, started on a fresh frame, ends with the frame
setup equality on every path and, when it falls through, has added one
monitor record. -/
def Locks {α : Type} (cfg : Config) (x : Asm α) : Prop :=
  ∀ s, fresh_frame cfg s →
    frame_setup cfg (x s).state ∧ ((x s).exit? = none → monitor_allocated cfg s (x s).state)

/-- A property of every state in which a piece of code falls through. -/
def After {α : Type} (Q : Machine → Prop) (x : Asm α) : Prop :=
  ∀ s a t, x s = Run.ok a t → Q t

/-- A piece of code that never ends in the assembler's `stop`. -/
def NoStop {α : Type} (x : Asm α) : Prop :=
  ∀ s msg, (x s).exit? ≠ some (Exit.stop msg)

/-- The code of the native entry up to the debug check of the frame setup
(lines 727-815). -/
def native_entry_to_frame_check (cfg : Config) (env : Env) (synchronized : Bool) : Asm Unit := do
  native_entry_frame cfg env
  native_entry_count_bang_lock cfg env synchronized

/-- The code of the interpreted entry up to the debug check of the frame
setup (lines 1215-1319). -/
def normal_entry_to_frame_check (cfg : Config) (env : Env) (synchronized : Bool) : Asm Unit := do
  normal_entry_frame cfg env
  normal_entry_count_bang_lock cfg env synchronized

/-! ## Running emitted code -/

@[simp] theorem run_pure {α : Type} (a : α) (s : Machine) :
    (pure a : Asm α) s = Run.ok a s := rfl

@[simp] theorem run_bind {α β : Type} (x : Asm α) (f : α → Asm β) (s : Machine) :
    (x >>= f) s = match x s with
      | Run.ok a s1 => f a s1
      | Run.leave e s1 => Run.leave e s1 := rfl

@[simp] theorem run_step (f : Machine → Machine) (s : Machine) :
    Asm.step f s = Run.ok () (f s) := rfl

@[simp] theorem run_get (s : Machine) : Asm.get s = Run.ok s s := rfl

@[simp] theorem run_exit {α : Type} (e : Exit) (s : Machine) :
    (Asm.exit e : Asm α) s = Run.leave e s := rfl

@[simp] theorem run_ite {α : Type} (c : Prop) [Decidable c] (x y : Asm α) (s : Machine) :
    (if c then x else y) s = if c then x s else y s := by
  split <;> rfl

@[simp] theorem upd_same {α : Type} [DecidableEq α] (f : α → Nat) (a : α) (v : Nat) :
    upd f a v a = v := by simp [upd]

theorem upd_other {α : Type} [DecidableEq α] (f : α → Nat) (a b : α) (v : Nat) (h : b ≠ a) :
    upd f a v b = f b := by simp [upd, h]

@[simp] theorem R_apply (r : Register) (s : Machine) : R r s = s.reg r := rfl
@[simp] theorem Imm_apply (i : Int) (s : Machine) : Imm i s = w64 i := rfl
@[simp] theorem Mem_apply (b : Register) (d : Int) (s : Machine) :
    Mem b d s = s.mem (ea (s.reg b) d) := rfl
@[simp] theorem Fld_apply (b : Register) (f : Field) (s : Machine) :
    Fld b f s = s.fld f (s.reg b) := rfl

@[simp] theorem set_reg (s : Machine) (r r1 : Register) (v : Nat) :
    (s.set r v).reg r1 = if r1 = r then v else s.reg r1 := rfl
@[simp] theorem set_mem (s : Machine) (r : Register) (v : Nat) : (s.set r v).mem = s.mem := rfl
@[simp] theorem set_fld (s : Machine) (r : Register) (v : Nat) : (s.set r v).fld = s.fld := rfl
@[simp] theorem set_xmm0 (s : Machine) (r : Register) (v : Nat) :
    (s.set r v).xmm0 = s.xmm0 := rfl
@[simp] theorem set_trace (s : Machine) (r : Register) (v : Nat) :
    (s.set r v).trace = s.trace := rfl

@[simp] theorem log_reg (s : Machine) (e : Event) : (s.log e).reg = s.reg := rfl
@[simp] theorem log_mem (s : Machine) (e : Event) : (s.log e).mem = s.mem := rfl
@[simp] theorem log_fld (s : Machine) (e : Event) : (s.log e).fld = s.fld := rfl
@[simp] theorem log_trace (s : Machine) (e : Event) : (s.log e).trace = s.trace ++ [e] := rfl

@[simp] theorem store_reg (s : Machine) (a v : Nat) : (s.store a v).reg = s.reg := rfl
@[simp] theorem store_mem (s : Machine) (a v b : Nat) :
    (s.store a v).mem b = if b = a then v else s.mem b := rfl
@[simp] theorem store_fld (s : Machine) (a v : Nat) : (s.store a v).fld = s.fld := rfl
@[simp] theorem store_trace (s : Machine) (a v : Nat) :
    (s.store a v).trace = s.trace ++ [Event.store a v] := rfl

@[simp] theorem store_field_reg (s : Machine) (f : Field) (b v : Nat) :
    (s.store_field f b v).reg = s.reg := rfl
@[simp] theorem store_field_mem (s : Machine) (f : Field) (b v : Nat) :
    (s.store_field f b v).mem = s.mem := rfl
@[simp] theorem store_field_fld (s : Machine) (f g : Field) (b v c : Nat) :
    (s.store_field f b v).fld g c = if g = f ∧ c = b then v else s.fld g c := by
  by_cases h1 : g = f <;> by_cases h2 : c = b <;> simp [Machine.store_field, upd, h1, h2]
@[simp] theorem store_field_trace (s : Machine) (f : Field) (b v : Nat) :
    (s.store_field f b v).trace = s.trace ++ [Event.store_field f b v] := rfl

@[simp] theorem push_reg (s : Machine) (v : Nat) (r : Register) :
    (s.push v).reg r = if r = rsp then ea (s.reg rsp) (-(wordSize : Int)) else s.reg r := rfl
@[simp] theorem push_mem (s : Machine) (v b : Nat) :
    (s.push v).mem b = if b = ea (s.reg rsp) (-(wordSize : Int)) then v else s.mem b := rfl
@[simp] theorem push_fld (s : Machine) (v : Nat) : (s.push v).fld = s.fld := rfl
@[simp] theorem push_trace (s : Machine) (v : Nat) :
    (s.push v).trace = s.trace ++ [Event.push v] := rfl

@[simp] theorem pop_reg (s : Machine) (r r1 : Register) :
    (s.pop r).reg r1 = if r1 = r then s.mem (s.reg rsp)
      else if r1 = rsp then ea (s.reg rsp) (wordSize : Int) else s.reg r1 := rfl
@[simp] theorem pop_mem (s : Machine) (r : Register) : (s.pop r).mem = s.mem := rfl
@[simp] theorem pop_fld (s : Machine) (r : Register) : (s.pop r).fld = s.fld := rfl
@[simp] theorem pop_trace (s : Machine) (r : Register) : (s.pop r).trace = s.trace := rfl

@[simp] theorem call_trace (env : Env) (s : Machine) (c : Callee) (args : List Nat) :
    (s.call env c args).trace = s.trace ++ [Event.call c args] := rfl
@[simp] theorem call_reg (env : Env) (s : Machine) (c : Callee) (args : List Nat) :
    (s.call env c args).reg = (env.effect c s).reg := rfl
@[simp] theorem call_mem (env : Env) (s : Machine) (c : Callee) (args : List Nat) :
    (s.call env c args).mem = (env.effect c s).mem := rfl
@[simp] theorem call_fld (env : Env) (s : Machine) (c : Callee) (args : List Nat) :
    (s.call env c args).fld = (env.effect c s).fld := rfl

theorem w32_lt (x : Int) : w32 x < 2 ^ 32 := by
  unfold w32
  have h := Int.emod_lt_of_pos x (show (0 : Int) < 4294967296 by decide)
  have h0 := Int.emod_nonneg x (show (4294967296 : Int) ≠ 0 by decide)
  norm_num
  omega

theorem w64_lt (x : Int) : w64 x < 2 ^ 64 := by
  unfold w64
  have h := Int.emod_lt_of_pos x (show (0 : Int) < 18446744073709551616 by decide)
  have h0 := Int.emod_nonneg x (show (18446744073709551616 : Int) ≠ 0 by decide)
  norm_num
  omega

theorem w64_of_range (x : Int) (h0 : 0 ≤ x) (h1 : x < 2 ^ 64) : w64 x = x.toNat := by
  unfold w64
  norm_num at h1 ⊢
  omega

@[simp] theorem state_ok {α : Type} (a : α) (s : Machine) : (Run.ok a s).state = s := rfl
@[simp] theorem state_leave {α : Type} (e : Exit) (s : Machine) :
    (Run.leave e s : Run α).state = s := rfl
@[simp] theorem exit_ok {α : Type} (a : α) (s : Machine) : (Run.ok a s).exit? = none := rfl
@[simp] theorem exit_leave {α : Type} (e : Exit) (s : Machine) :
    (Run.leave e s : Run α).exit? = some e := rfl

theorem bind_of_exit {α β : Type} {x : Asm α} {f : α → Asm β} {s : Machine} {e : Exit}
    (h : (x s).exit? = some e) : (x >>= f) s = Run.leave e (x s).state := by
  simp only [run_bind]
  cases hx : x s with
  | ok a s1 => simp [hx] at h
  | leave e1 s1 => simp [hx] at h; simp [h]

/-! ## Stack overflow check -/

theorem stack_overflow_check_fault (cfg : Config) (s : Machine)
    (hn : s.reg rdx < 2 ^ 32)
    (hbig : one_page_locals cfg < s.reg rdx)
    (hL : cfg.ASSERT = true → s.fld JavaThread_stack_overflow_limit (s.reg r15_thread) ≠ 0)
    (hov : 0 ≤ overhead_size cfg)
    (hwrap : (s.fld JavaThread_stack_overflow_limit (s.reg r15_thread) : Int)
      + s.reg rdx * stackElementSize + overhead_size cfg < 2 ^ 64)
    (h : (s.reg rsp : Int) - (s.reg rdx * stackElementSize + overhead_size cfg)
      < s.fld JavaThread_stack_overflow_limit (s.reg r15_thread)) :
    (generate_stack_overflow_check cfg s).exit? = some Exit.throw_StackOverflowError_entry
    ∧ (generate_stack_overflow_check cfg s).state.trace
        = s.trace ++ [Event.push (s.mem (s.reg rsp))]
    ∧ (generate_stack_overflow_check cfg s).state.reg rsp
        = ea (s.reg rbcp) (-(wordSize : Int)) := by
  have ho : w64 (overhead_size cfg) = (overhead_size cfg).toNat :=
    w64_of_range _ hov (by simp only [stackElementSize] at hwrap; omega)
  simp only [one_page_locals, stackElementSize, Nat.cast_ofNat] at hbig hwrap h
  have h1 : ¬ s.reg rdx % 4294967296 ≤ w32 ((cfg.page_size - overhead_size cfg).tdiv 8) := by
    omega
  have h2 : ¬ (s.reg rdx * 8 + (overhead_size cfg).toNat
      + s.fld JavaThread_stack_overflow_limit (s.reg r15_thread)) % 18446744073709551616
      < s.reg rsp := by omega
  by_cases hA : cfg.ASSERT = true
  · simp [generate_stack_overflow_check, mov, shlptr, addptr, pop, push, stop,
      logStackElementSize, stackElementSize, ho, h1, h2, hA, hL hA]
  · simp [generate_stack_overflow_check, mov, shlptr, addptr, pop, push, stop,
      logStackElementSize, stackElementSize, ho, h1, h2, hA]

theorem normal_entry_sizes_run (s : Machine) :
    normal_entry_sizes s = Run.ok ()
      ((((s.set rdx (s.fld Method_const (s.reg rbx))).set rcx
        (s.fld ConstMethod_size_of_parameters (s.fld Method_const (s.reg rbx)) % 2 ^ 16)).set rdx
        (s.fld ConstMethod_size_of_locals (s.fld Method_const (s.reg rbx)) % 2 ^ 16)).set rdx
        (additional_locals s)) := by
  simp [normal_entry_sizes, mov, load_unsigned_short, subl, additional_locals]

/-- C1 (as amended): when the number of additional locals is above the
one-page threshold of line 441 and the sum of stack limit, locals and overhead
does not wrap around, `sp - (n*stackElementSize + overhead_size) < L` sends
the interpreted entry to the shared StackOverflowError stub; the only word
pushed is the return address put back on the sender's stack, so no local
slot is pushed. -/
theorem stack_overflow_check_conservative (cfg : Config) (env : Env) (s : Machine)
    (hbig : one_page_locals cfg < additional_locals s)
    (hL : cfg.ASSERT = true → s.fld JavaThread_stack_overflow_limit (s.reg r15_thread) ≠ 0)
    (hov : 0 ≤ overhead_size cfg)
    (hwrap : (s.fld JavaThread_stack_overflow_limit (s.reg r15_thread) : Int)
      + additional_locals s * stackElementSize + overhead_size cfg < 2 ^ 64)
    (h : (s.reg rsp : Int) - (additional_locals s * stackElementSize + overhead_size cfg)
      < s.fld JavaThread_stack_overflow_limit (s.reg r15_thread)) :
    (normal_entry_frame cfg env s).exit? = some Exit.throw_StackOverflowError_entry
    ∧ (normal_entry_frame cfg env s).state.trace = s.trace ++ [Event.push (s.mem (s.reg rsp))]
    ∧ (normal_entry_frame cfg env s).state.reg rsp = ea (s.reg rbcp) (-(wordSize : Int)) := by
  have hn : additional_locals s < 2 ^ 32 := w32_lt _
  have hs := normal_entry_sizes_run s
  generalize hs4 : (((s.set rdx (s.fld Method_const (s.reg rbx))).set rcx
        (s.fld ConstMethod_size_of_parameters (s.fld Method_const (s.reg rbx)) % 2 ^ 16)).set rdx
        (s.fld ConstMethod_size_of_locals (s.fld Method_const (s.reg rbx)) % 2 ^ 16)).set rdx
        (additional_locals s) = s4 at hs
  have h4 : s4.reg rdx = additional_locals s := by simp [← hs4]
  have hf := stack_overflow_check_fault cfg s4 (by rw [h4]; exact hn) (by rw [h4]; exact hbig)
    (by simpa [← hs4] using hL) hov (by simpa [← hs4] using hwrap) (by simpa [← hs4] using h)
  have hrun : normal_entry_frame cfg env s
      = Run.leave Exit.throw_StackOverflowError_entry
          (generate_stack_overflow_check cfg s4).state := by
    simp only [normal_entry_frame, run_bind, hs]
    exact bind_of_exit hf.1
  rw [hrun]
  refine ⟨rfl, ?_, ?_⟩
  · rw [state_leave, hf.2.1]; simp [← hs4]
  · rw [state_leave, hf.2.2]; simp [← hs4]

/-- C1, witness: a frame of 600 additional locals on a stack whose pointer
sits 16 bytes above the limit. -/
theorem stack_overflow_check_conservative_witness :
    (normal_entry_frame linux_x86_64 idle_env (entry_state 600 0)).exit?
        = some Exit.throw_StackOverflowError_entry
    ∧ (normal_entry_frame linux_x86_64 idle_env (entry_state 600 0)).state.trace
        = (entry_state 600 0).trace ++ [Event.push ((entry_state 600 0).mem
            ((entry_state 600 0).reg rsp))]
    ∧ (normal_entry_frame linux_x86_64 idle_env (entry_state 600 0)).state.reg rsp
        = ea ((entry_state 600 0).reg rbcp) (-(wordSize : Int)) :=
  stack_overflow_check_conservative linux_x86_64 idle_env (entry_state 600 0)
    (by decide) (by decide) (by decide) (by decide) (by decide)

/-- C1, counterexample to the claim as stated: with 3 additional locals the
check is skipped (the frame fits in one page), so although
`sp - (n*stackElementSize + overhead_size) < L` the entry does not take the
fault path and pushes the three local slots. -/
theorem stack_overflow_check_small_frame_unchecked :
    ((entry_state 3 0).reg rsp : Int)
        - (additional_locals (entry_state 3 0) * stackElementSize + overhead_size linux_x86_64)
      < (entry_state 3 0).fld JavaThread_stack_overflow_limit ((entry_state 3 0).reg r15_thread)
    ∧ (normal_entry_frame linux_x86_64 idle_env (entry_state 3 0)).exit? = none
    ∧ (normal_entry_frame linux_x86_64 idle_env (entry_state 3 0)).state.trace.take 3
        = [Event.push 0, Event.push 0, Event.push 0] := by
  decide

/-! ## Invocation counter -/

theorem ea_ea (x : Nat) (a b : Int) : ea (ea x a) b = ea x (a + b) := by
  unfold ea w64
  norm_num
  omega

theorem ea_eq_iff (x : Nat) (a b : Int) : ea x a = ea x b ↔ (a - b) % 2 ^ 64 = 0 := by
  unfold ea w64
  norm_num
  omega

@[simp] theorem w64_zero : w64 0 = 0 := by decide



theorem set_reg_self (s : Machine) (r : Register) : s.set r (s.reg r) = s := by
  cases s
  simp only [Machine.set, Machine.mk.injEq, and_true, true_and]
  funext r1
  by_cases h : r1 = r <;> simp [upd, h]

theorem set_set (s : Machine) (r : Register) (v w : Nat) : (s.set r v).set r w = s.set r w := by
  cases s
  simp only [Machine.set, Machine.mk.injEq, and_true, true_and]
  funext r1
  by_cases h : r1 = r <;> simp [upd, h]

theorem fixed_frame_mdp_run (cfg : Config) (s : Machine) :
    fixed_frame_mdp cfg s = Run.ok ()
      ((s.set rdx (if cfg.ProfileInterpreter then
          (if s.fld Method_method_data (s.reg rbx) = 0 then 0
            else (s.fld Method_method_data (s.reg rbx) + w64 cfg.MethodData_data_offset) % 2 ^ 64)
          else s.reg rdx)).push
        (if cfg.ProfileInterpreter then
          (if s.fld Method_method_data (s.reg rbx) = 0 then 0
            else (s.fld Method_method_data (s.reg rbx) + w64 cfg.MethodData_data_offset) % 2 ^ 64)
          else 0)) := by
  by_cases hP : cfg.ProfileInterpreter = true <;>
    by_cases hmd : s.fld Method_method_data (s.reg rbx) = 0 <;>
    simp [fixed_frame_mdp, mov, addptr, push, hP, hmd, set_reg_self, set_set]

theorem fixed_frame_bcp_run (b : Bool) (s : Machine) :
    fixed_frame_bcp b s = Run.ok () (s.push (if b then 0 else s.reg rbcp)) := by
  cases b <;> simp [fixed_frame_bcp, push]

set_option maxHeartbeats 1000000 in
theorem fixed_frame_facts (cfg : Config) (env : Env) (s : Machine) (b : Bool) :
    (generate_fixed_frame cfg env b s).exit? = none
    ∧ (generate_fixed_frame cfg env b s).state.reg rbp = ea (s.reg rsp) (-16)
    ∧ (generate_fixed_frame cfg env b s).state.reg rsp = ea (s.reg rsp) (-88)
    ∧ pushes (generate_fixed_frame cfg env b s).state.trace
      = pushes s.trace ++ fixed_frame_words cfg env s b
    ∧ [ (generate_fixed_frame cfg env b s).state.mem (ea (s.reg rsp) (-8)),
      (generate_fixed_frame cfg env b s).state.mem (ea (s.reg rsp) (-16)),
      (generate_fixed_frame cfg env b s).state.mem (ea (s.reg rsp) (-24)),
      (generate_fixed_frame cfg env b s).state.mem (ea (s.reg rsp) (-32)),
      (generate_fixed_frame cfg env b s).state.mem (ea (s.reg rsp) (-40)),
      (generate_fixed_frame cfg env b s).state.mem (ea (s.reg rsp) (-48)),
      (generate_fixed_frame cfg env b s).state.mem (ea (s.reg rsp) (-56)),
      (generate_fixed_frame cfg env b s).state.mem (ea (s.reg rsp) (-64)),
      (generate_fixed_frame cfg env b s).state.mem (ea (s.reg rsp) (-72)),
      (generate_fixed_frame cfg env b s).state.mem (ea (s.reg rsp) (-80)),
      (generate_fixed_frame cfg env b s).state.mem (ea (s.reg rsp) (-88)) ]
      = fixed_frame_words cfg env s b := by
  simp [generate_fixed_frame, enter, push, mov, load_mirror, addptr, subptr, shrptr,
      ea_ea, ea_eq_iff, wordSize, fixed_frame_mdp_run, fixed_frame_bcp_run, pushes,
      fixed_frame_words, List.filterMap_append]

set_option maxHeartbeats 1000000 in
theorem fixed_frame_native_only_bcp (cfg : Config) (env : Env) (s : Machine) (b : Bool) :
    (generate_fixed_frame cfg env b s).state.reg
        = (generate_fixed_frame cfg env (!b) s).state.reg
    ∧ ∀ a, a ≠ ea (s.reg rsp) (-80) →
        (generate_fixed_frame cfg env b s).state.mem a
          = (generate_fixed_frame cfg env (!b) s).state.mem a := by
  constructor
  · funext r
    simp [generate_fixed_frame, enter, push, mov, load_mirror, subptr, shrptr,
      ea_ea, wordSize, fixed_frame_mdp_run, fixed_frame_bcp_run]
  · intro a ha
    simp [generate_fixed_frame, enter, push, mov, load_mirror, subptr, shrptr,
      ea_ea, wordSize, fixed_frame_mdp_run, fixed_frame_bcp_run, ha]

/-- C4: `generate_fixed_frame` falls through having pushed exactly the eleven
words of `fixed_frame_words`, in that order, for both values of
`native_call`; afterwards `rsp = rbp - 9*wordSize`, and the words sit at
`rbp + wordSize`, `rbp`, `rbp - wordSize`, ..., `rbp - 9*wordSize`.  The two
entry kinds leave the same registers and the same memory except for the bcp
slot at `rbp - 8*wordSize`, which holds 0 for a native call and the method's
code base otherwise. -/
theorem fixed_frame_layout (cfg : Config) (env : Env) (s : Machine) (b : Bool) :
    (generate_fixed_frame cfg env b s).exit? = none
    ∧ (generate_fixed_frame cfg env b s).state.reg rsp
        = ea ((generate_fixed_frame cfg env b s).state.reg rbp) (-(9 * wordSize : Nat))
    ∧ pushes (generate_fixed_frame cfg env b s).state.trace
        = pushes s.trace ++ fixed_frame_words cfg env s b
    ∧ (List.range 11).map (fun k => (generate_fixed_frame cfg env b s).state.mem
          (ea ((generate_fixed_frame cfg env b s).state.reg rbp)
            ((wordSize : Int) - (k : Int) * wordSize)))
        = fixed_frame_words cfg env s b
    ∧ (generate_fixed_frame cfg env b s).state.mem
          (ea ((generate_fixed_frame cfg env b s).state.reg rbp) (-(8 * wordSize : Nat)))
        = (if b then 0 else ea (s.fld Method_const (s.reg rbx)) cfg.ConstMethod_codes_offset)
    ∧ (generate_fixed_frame cfg env b s).state.reg
        = (generate_fixed_frame cfg env (!b) s).state.reg
    ∧ ∀ a, a ≠ ea ((generate_fixed_frame cfg env b s).state.reg rbp) (-(8 * wordSize : Nat)) →
        (generate_fixed_frame cfg env b s).state.mem a
          = (generate_fixed_frame cfg env (!b) s).state.mem a := by
  obtain ⟨h1, h2, h3, h4, h5⟩ := fixed_frame_facts cfg env s b
  obtain ⟨h6, h7⟩ := fixed_frame_native_only_bcp cfg env s b
  rw [h2, h3]
  simp only [fixed_frame_words, List.cons.injEq, and_true] at h5
  obtain ⟨m1, m2, m3, m4, m5, m6, m7, m8, m9, m10, m11⟩ := h5
  refine ⟨h1, ?_, h4, ?_, ?_, h6, ?_⟩
  · simp [ea_ea, wordSize]
  · simp only [List.range, List.range.loop, List.map, fixed_frame_words, ea_ea, wordSize]
    norm_num
    exact ⟨m1, m2, m3, m4, m5, m6, m7, m8, m9, m10, m11⟩
  · simp only [ea_ea, wordSize]
    norm_num
    exact m10
  · intro a ha
    apply h7
    simpa [ea_ea, wordSize] using ha

/-! ## Shadow page banging -/

theorem bang_pages_run (ps : Int) (k : Nat) : ∀ (p : Nat) (s : Machine),
    (bang_pages ps k p s).exit? = none
    ∧ (bang_pages ps k p s).state.reg = s.reg
    ∧ (bang_pages ps k p s).state.fld = s.fld
    ∧ (bang_pages ps k p s).state.trace = s.trace ++ (List.range k).map
        fun i => Event.bang (ea (s.reg rsp) (-(((p + i : Nat) : Int) * ps))) := by
  induction k with
  | zero => intro p s; simp [bang_pages]
  | succ k ih =>
    intro p s
    obtain ⟨h1, h2, h3, h4⟩ := ih (p + 1)
      { s with mem := upd s.mem (ea (s.reg rsp) (-(↑p * ps)))
                (s.mem (ea (s.reg rsp) (-(↑p * ps))) / 2 ^ 32 * 2 ^ 32 + s.reg rax % 2 ^ 32),
               trace := s.trace ++ [Event.bang (ea (s.reg rsp) (-(↑p * ps)))] }
    simp only [bang_pages, bang_stack_with_offset, run_bind, run_step]
    refine ⟨h1, h2, h3, ?_⟩
    rw [h4]
    simp only [List.append_assoc, List.singleton_append, List.range_succ_eq_map, List.map_cons,
      List.map_map, Nat.add_zero]
    congr 2
    apply List.map_congr_left
    intro i _
    simp only [Function.comp, Nat.succ_eq_add_one]
    have hpi : p + (i + 1) = p + 1 + i := by omega
    rw [hpi]

theorem bang_skip (cfg : Config) (b : Bool) (s : Machine)
    (h : s.fld JavaThread_shadow_zone_growth_watermark (s.reg r15_thread) < s.reg rsp) :
    (bang_stack_shadow_pages cfg b s).state = s := by
  have hpos : 0 < s.reg rsp := by omega
  by_cases hA : cfg.ASSERT = true <;>
    by_cases h1 : s.fld JavaThread_shadow_zone_safe_limit (s.reg r15_thread) = 0 <;>
    by_cases h2 : s.fld JavaThread_shadow_zone_growth_watermark (s.reg r15_thread) = 0 <;>
    simp [bang_stack_shadow_pages, stop, hA, h1, h2, h, hpos]

theorem bang_record (cfg : Config) (b : Bool) (s : Machine)
    (hsafe : s.fld JavaThread_shadow_zone_safe_limit (s.reg r15_thread) < s.reg rsp)
    (hwm : s.reg rsp ≤ s.fld JavaThread_shadow_zone_growth_watermark (s.reg r15_thread))
    (hA : cfg.ASSERT = true →
      s.fld JavaThread_shadow_zone_safe_limit (s.reg r15_thread) ≠ 0) :
    (bang_stack_shadow_pages cfg b s).exit? = none
    ∧ (bang_stack_shadow_pages cfg b s).state.reg = s.reg
    ∧ (bang_stack_shadow_pages cfg b s).state.fld JavaThread_shadow_zone_growth_watermark
        (s.reg r15_thread) = s.reg rsp
    ∧ (bang_stack_shadow_pages cfg b s).state.fld JavaThread_shadow_zone_safe_limit
        (s.reg r15_thread) = s.fld JavaThread_shadow_zone_safe_limit (s.reg r15_thread)
    ∧ (bang_stack_shadow_pages cfg b s).state.trace
        = s.trace ++ shadow_page_bangs cfg (s.reg rsp)
          ++ [Event.store_field JavaThread_shadow_zone_growth_watermark (s.reg r15_thread)
                (s.reg rsp)] := by
  obtain ⟨b1, b2, b3, b4⟩ := bang_pages_run cfg.page_size
    (Int.tdiv cfg.stack_shadow_zone_size cfg.page_size).toNat 1 s
  have hw0 : s.fld JavaThread_shadow_zone_growth_watermark (s.reg r15_thread) ≠ 0 := by omega
  have hnot : ¬ s.fld JavaThread_shadow_zone_growth_watermark (s.reg r15_thread) < s.reg rsp := by
    omega
  have hnot2 : ¬ s.reg rsp ≤ s.fld JavaThread_shadow_zone_safe_limit (s.reg r15_thread) := by
    omega
  cases hrun : bang_pages cfg.page_size
      (Int.tdiv cfg.stack_shadow_zone_size cfg.page_size).toNat 1 s with
  | leave e s1 => rw [hrun] at b1; simp at b1
  | ok u s1 =>
    rw [hrun] at b2 b3 b4
    simp only [state_ok] at b2 b3 b4
    by_cases hAs : cfg.ASSERT = true
    · have := hA hAs
      simp [bang_stack_shadow_pages, stop, movptr_fld, hAs, hw0, hnot, hnot2, hrun, b2, b3, b4,
        this, shadow_page_bangs]
    · simp [bang_stack_shadow_pages, stop, movptr_fld, hAs, hw0, hnot, hnot2, hrun, b2, b3, b4,
        shadow_page_bangs]

theorem bang_stop (cfg : Config) (b : Bool) (s : Machine) (hA : cfg.ASSERT = true)
    (h0 : s.fld JavaThread_shadow_zone_safe_limit (s.reg r15_thread) = 0) :
    (bang_stack_shadow_pages cfg b s).state = s := by
  simp [bang_stack_shadow_pages, stop, hA, h0]

/-- C10 (as amended): for a stack pointer above the safe limit, a second run
of `bang_stack_shadow_pages` at the same stack pointer leaves the growth
watermark unchanged.  It touches no page when the stack pointer was strictly
above the watermark; when it was not, the first run has recorded the stack
pointer as the new watermark and the second run, whose skip test is
"strictly above", touches all shadow pages once more. -/
theorem bang_stack_shadow_pages_twice (cfg : Config) (b : Bool) (s : Machine)
    (hsafe : s.fld JavaThread_shadow_zone_safe_limit (s.reg r15_thread) < s.reg rsp) :
    (bang_stack_shadow_pages cfg b (bang_stack_shadow_pages cfg b s).state).state.fld
        JavaThread_shadow_zone_growth_watermark (s.reg r15_thread)
      = (bang_stack_shadow_pages cfg b s).state.fld
        JavaThread_shadow_zone_growth_watermark (s.reg r15_thread)
    ∧ (s.fld JavaThread_shadow_zone_growth_watermark (s.reg r15_thread) < s.reg rsp →
        (bang_stack_shadow_pages cfg b (bang_stack_shadow_pages cfg b s).state).state.trace
          = (bang_stack_shadow_pages cfg b s).state.trace)
    ∧ (s.reg rsp ≤ s.fld JavaThread_shadow_zone_growth_watermark (s.reg r15_thread) →
        (cfg.ASSERT = true →
          s.fld JavaThread_shadow_zone_safe_limit (s.reg r15_thread) ≠ 0) →
        (bang_stack_shadow_pages cfg b s).state.fld
            JavaThread_shadow_zone_growth_watermark (s.reg r15_thread) = s.reg rsp
        ∧ (bang_stack_shadow_pages cfg b (bang_stack_shadow_pages cfg b s).state).state.trace
          = (bang_stack_shadow_pages cfg b s).state.trace
            ++ shadow_page_bangs cfg (s.reg rsp)
            ++ [Event.store_field JavaThread_shadow_zone_growth_watermark (s.reg r15_thread)
                  (s.reg rsp)]) := by
  have hrec : s.reg rsp ≤ s.fld JavaThread_shadow_zone_growth_watermark (s.reg r15_thread) →
      (cfg.ASSERT = true →
        s.fld JavaThread_shadow_zone_safe_limit (s.reg r15_thread) ≠ 0) →
      (bang_stack_shadow_pages cfg b s).state.fld
          JavaThread_shadow_zone_growth_watermark (s.reg r15_thread) = s.reg rsp
      ∧ (bang_stack_shadow_pages cfg b (bang_stack_shadow_pages cfg b s).state).state.fld
          JavaThread_shadow_zone_growth_watermark (s.reg r15_thread) = s.reg rsp
      ∧ (bang_stack_shadow_pages cfg b (bang_stack_shadow_pages cfg b s).state).state.trace
        = (bang_stack_shadow_pages cfg b s).state.trace
          ++ shadow_page_bangs cfg (s.reg rsp)
          ++ [Event.store_field JavaThread_shadow_zone_growth_watermark (s.reg r15_thread)
                (s.reg rsp)] := by
    intro hwm hA
    obtain ⟨_, r2, r3, r4, _⟩ := bang_record cfg b s hsafe hwm hA
    have q := bang_record cfg b (bang_stack_shadow_pages cfg b s).state
      (by rw [r2, r4]; exact hsafe) (by rw [r2, r3]) (by rw [r2, r4]; exact hA)
    rw [r2] at q
    exact ⟨r3, q.2.2.1, q.2.2.2.2⟩
  refine ⟨?_, ?_, ?_⟩
  · by_cases hwm : s.fld JavaThread_shadow_zone_growth_watermark (s.reg r15_thread) < s.reg rsp
    · rw [bang_skip cfg b s hwm, bang_skip cfg b s hwm]
    · by_cases hA : cfg.ASSERT = true →
          s.fld JavaThread_shadow_zone_safe_limit (s.reg r15_thread) ≠ 0
      · obtain ⟨a1, a2, _⟩ := hrec (by omega) hA
        rw [a1, a2]
      · have hA1 : cfg.ASSERT = true := by
          by_contra hc; exact hA (fun h => absurd h hc)
        have h0 : s.fld JavaThread_shadow_zone_safe_limit (s.reg r15_thread) = 0 := by
          by_contra hc; exact hA (fun _ => hc)
        rw [bang_stop cfg b s hA1 h0, bang_stop cfg b s hA1 h0]
  · intro hwm
    rw [bang_skip cfg b s hwm, bang_skip cfg b s hwm]
  · intro hwm hA
    obtain ⟨a1, _, a3⟩ := hrec hwm hA
    exact ⟨a1, a3⟩

/-- C10, witness: stack pointer `0x100000`, safe limit `0x8000`. -/
theorem bang_stack_shadow_pages_twice_witness :
    (bang_stack_shadow_pages linux_x86_64 false
        (bang_stack_shadow_pages linux_x86_64 false (entry_state 0 0)).state).state.fld
        JavaThread_shadow_zone_growth_watermark ((entry_state 0 0).reg r15_thread)
      = (bang_stack_shadow_pages linux_x86_64 false (entry_state 0 0)).state.fld
        JavaThread_shadow_zone_growth_watermark ((entry_state 0 0).reg r15_thread) :=
  (bang_stack_shadow_pages_twice linux_x86_64 false (entry_state 0 0) (by decide)).1

/-- C10, counterexample to the claim as stated: at stack pointer `0x100000`
(above the safe limit `0x8000`, below the watermark `0x200000`) the first run
bangs the 20 shadow pages and records the watermark; the second run at the
same stack pointer bangs the same 20 pages again. -/
theorem bang_stack_shadow_pages_rebangs :
    (entry_state 0 0).fld JavaThread_shadow_zone_safe_limit ((entry_state 0 0).reg r15_thread)
      < (entry_state 0 0).reg rsp
    ∧ (bang_stack_shadow_pages linux_x86_64 false (entry_state 0 0)).state.trace.length = 21
    ∧ (bang_stack_shadow_pages linux_x86_64 false
        (bang_stack_shadow_pages linux_x86_64 false (entry_state 0 0)).state).state.trace.length
        = 42
    ∧ ((bang_stack_shadow_pages linux_x86_64 false
        (bang_stack_shadow_pages linux_x86_64 false (entry_state 0 0)).state).state.trace.drop
          21).take 2 = [Event.bang 0xFF000, Event.bang 0xFE000] := by
  decide

/-! ## Events appended by a piece of code -/

theorem Appends.pure {α : Type} {P : Event → Prop} (a : α) : Appends P (pure a : Asm α) := by
  intro s; exact ⟨[], by simp, by simp⟩

theorem Appends.get {P : Event → Prop} : Appends P Asm.get := by
  intro s; exact ⟨[], by simp, by simp⟩

theorem Appends.exit {α : Type} {P : Event → Prop} (e : Exit) :
    Appends P (Asm.exit e : Asm α) := by
  intro s; exact ⟨[], by simp, by simp⟩

theorem Appends.bind {α β : Type} {P : Event → Prop} {x : Asm α} {f : α → Asm β}
    (hx : Appends P x) (hf : ∀ a, Appends P (f a)) : Appends P (x >>= f) := by
  intro s
  obtain ⟨e1, h1, p1⟩ := hx s
  simp only [run_bind]
  cases hxs : x s with
  | ok a s1 =>
    obtain ⟨e2, h2, p2⟩ := hf a s1
    rw [hxs] at h1
    simp only [state_ok] at h1
    refine ⟨e1 ++ e2, ?_, ?_⟩
    · simp only [h2, h1, List.append_assoc]
    · intro e he
      rcases List.mem_append.mp he with h | h
      · exact p1 e h
      · exact p2 e h
  | leave e s1 =>
    rw [hxs] at h1
    exact ⟨e1, h1, p1⟩

theorem Appends.ite {α : Type} {P : Event → Prop} {c : Prop} [Decidable c] {x y : Asm α}
    (hx : Appends P x) (hy : Appends P y) : Appends P (if c then x else y) := by
  split <;> assumption

theorem Appends.mono {α : Type} {P Q : Event → Prop} {x : Asm α}
    (hx : Appends P x) (h : ∀ e, P e → Q e) : Appends Q x := by
  intro s
  obtain ⟨evs, h1, h2⟩ := hx s
  exact ⟨evs, h1, fun e he => h e (h2 e he)⟩

theorem Appends.silent {P : Event → Prop} (f : Machine → Machine)
    (h : ∀ s, (f s).trace = s.trace) : Appends P (Asm.step f) := by
  intro s; exact ⟨[], by simp [h], by simp⟩

theorem Appends.logs {P : Event → Prop} (f : Machine → Machine) (ev : Machine → Event)
    (h : ∀ s, (f s).trace = s.trace ++ [ev s]) (hP : ∀ s, P (ev s)) :
    Appends P (Asm.step f) := by
  intro s; exact ⟨[ev s], by simp [h], by simpa using hP s⟩

theorem Appends.push {P : Event → Prop} (v : Machine → Nat) (hP : ∀ v, P (Event.push v)) :
    Appends P (push v) :=
  Appends.logs _ (fun s => Event.push (v s)) (fun _ => rfl) (fun _ => hP _)

theorem Appends.movptr_to {P : Event → Prop} (b : Register) (d : Int) (v : Machine → Nat)
    (hP : ∀ a v, P (Event.store a v)) : Appends P (movptr_to b d v) :=
  Appends.logs _ (fun s => Event.store (ea (s.reg b) d) (v s)) (fun _ => rfl) (fun _ => hP _ _)

theorem Appends.subptr_mem {P : Event → Prop} (b : Register) (d i : Int)
    (hP : ∀ a v, P (Event.store a v)) : Appends P (subptr_mem b d i) :=
  Appends.logs _ (fun s => Event.store (ea (s.reg b) d)
    (w64 ((s.mem (ea (s.reg b) d) : Int) - i))) (fun _ => rfl) (fun _ => hP _ _)

theorem Appends.movptr_fld {P : Event → Prop} (b : Register) (f : Field) (v : Machine → Nat)
    (hP : ∀ a v, P (Event.store_field f a v)) : Appends P (movptr_fld b f v) :=
  Appends.logs _ (fun s => Event.store_field f (s.reg b) (v s)) (fun _ => rfl)
    (fun _ => hP _ _)

theorem Appends.movl_fld {P : Event → Prop} (b : Register) (f : Field) (v : Machine → Nat)
    (hP : ∀ a v, P (Event.store_field f a v)) : Appends P (movl_fld b f v) :=
  Appends.logs _ (fun s => Event.store_field f (s.reg b) (v s % 2 ^ 32)) (fun _ => rfl)
    (fun _ => hP _ _)

theorem Appends.movbool {P : Event → Prop} (b : Register) (f : Field) (v : Bool)
    (hP : ∀ a v, P (Event.store_field f a v)) : Appends P (movbool b f v) :=
  Appends.logs _ (fun s => Event.store_field f (s.reg b) (if v then 1 else 0)) (fun _ => rfl)
    (fun _ => hP _ _)

theorem Appends.call {P : Event → Prop} (env : Env) (c : Callee) (args : List (Machine → Nat))
    (hP : ∀ a, P (Event.call c a)) : Appends P (call env c args) := by
  intro s
  refine ⟨[Event.call c (List.map (fun (a : Machine → Nat) => a s) args)], ?_, ?_⟩
  · rfl
  · intro e he
    rw [List.mem_singleton] at he
    rw [he]
    exact hP _

theorem Appends.membar {P : Event → Prop} (hP : P Event.membar) : Appends P membar :=
  Appends.logs _ (fun _ => Event.membar) (fun _ => rfl) (fun _ => hP)

theorem Appends.bang {P : Event → Prop} (o : Int) (hP : ∀ a, P (Event.bang a)) :
    Appends P (bang_stack_with_offset o) :=
  Appends.logs _ (fun s => Event.bang (ea (s.reg rsp) (-o))) (fun _ => rfl) (fun _ => hP _)

theorem Appends.load_mirror {P : Event → Prop} (env : Env) (d m t : Register)
    (hP : ∀ a, P (Event.call Callee.load_mirror a)) : Appends P (load_mirror env d m t) :=
  Appends.logs _ (fun s => Event.call Callee.load_mirror [s.reg m]) (fun _ => rfl)
    (fun _ => hP _)

theorem locals_loop_appends {P : Event → Prop} (hP : ∀ v, P (Event.push v)) :
    ∀ fuel, Appends P (locals_loop fuel) := by
  intro fuel
  induction fuel with
  | zero => exact Appends.pure ()
  | succ n ih =>
    unfold locals_loop
    refine Appends.bind Appends.get fun s => ?_
    refine Appends.bind (Appends.push _ hP) fun _ => ?_
    refine Appends.bind (Appends.silent _ (fun _ => rfl)) fun _ => ?_
    exact Appends.ite ih (Appends.pure ())

theorem bang_pages_appends {P : Event → Prop} (ps : Int) (hP : ∀ a, P (Event.bang a)) :
    ∀ k p, Appends P (bang_pages ps k p) := by
  intro k
  induction k with
  | zero => intro p; exact Appends.pure ()
  | succ n ih =>
    intro p
    unfold bang_pages
    exact Appends.bind (Appends.bang _ hP) fun _ => ih (p + 1)

section rules

variable {P : Event → Prop}

theorem Appends.stop {α : Type} (msg : String) : Appends P (stop msg : Asm α) :=
  Appends.exit _
theorem Appends.mov (r : Register) (v : Machine → Nat) : Appends P (mov r v) :=
  Appends.silent _ (fun _ => rfl)
theorem Appends.movl (r : Register) (v : Machine → Nat) : Appends P (movl r v) :=
  Appends.silent _ (fun _ => rfl)
theorem Appends.load_unsigned_short (r : Register) (v : Machine → Nat) :
    Appends P (load_unsigned_short r v) :=
  Appends.silent _ (fun _ => rfl)
theorem Appends.pop (r : Register) : Appends P (pop r) := Appends.silent _ (fun _ => rfl)
theorem Appends.addptr (r : Register) (v : Machine → Nat) : Appends P (addptr r v) :=
  Appends.silent _ (fun _ => rfl)
theorem Appends.subptr (r : Register) (v : Machine → Nat) : Appends P (subptr r v) :=
  Appends.silent _ (fun _ => rfl)
theorem Appends.shlptr (r : Register) (n : Nat) : Appends P (shlptr r n) :=
  Appends.silent _ (fun _ => rfl)
theorem Appends.shrptr (r : Register) (n : Nat) : Appends P (shrptr r n) :=
  Appends.silent _ (fun _ => rfl)
theorem Appends.shll (r : Register) (n : Nat) : Appends P (shll r n) :=
  Appends.silent _ (fun _ => rfl)
theorem Appends.subl (r : Register) (v : Machine → Nat) : Appends P (subl r v) :=
  Appends.silent _ (fun _ => rfl)
theorem Appends.orl (r : Register) (v : Machine → Nat) : Appends P (orl r v) :=
  Appends.silent _ (fun _ => rfl)
theorem Appends.andptr (r : Register) (v : Machine → Nat) : Appends P (andptr r v) :=
  Appends.silent _ (fun _ => rfl)
theorem Appends.get_method (cfg : Config) (r : Register) : Appends P (get_method cfg r) :=
  Appends.silent _ (fun _ => rfl)
theorem Appends.restore_bcp (cfg : Config) : Appends P (restore_bcp cfg) :=
  Appends.silent _ (fun _ => rfl)
theorem Appends.restore_locals (cfg : Config) : Appends P (restore_locals cfg) :=
  Appends.bind (Appends.mov _ _) fun _ => Appends.mov _ _
theorem Appends.jmp_reg (r : Register) : Appends P (jmp_reg r) :=
  Appends.bind Appends.get fun _ => Appends.exit _
theorem Appends.enter (hP : ∀ v, P (Event.push v)) : Appends P enter :=
  Appends.bind (Appends.push _ hP) fun _ => Appends.mov _ _
theorem Appends.leave : Appends P leave :=
  Appends.bind (Appends.mov _ _) fun _ => Appends.pop _
theorem Appends.push_ltos (hP : ∀ a v, P (Event.store a v)) : Appends P push_ltos :=
  Appends.bind (Appends.subptr _ _) fun _ =>
    Appends.bind (Appends.movptr_to _ _ _ hP) fun _ => Appends.movptr_to _ _ _ hP
theorem Appends.push_dtos (hP : ∀ a v, P (Event.store a v)) : Appends P push_dtos :=
  Appends.bind (Appends.subptr _ _) fun _ => Appends.movptr_to _ _ _ hP
theorem Appends.pop_ltos : Appends P pop_ltos :=
  Appends.bind (Appends.mov _ _) fun _ => Appends.addptr _ _
theorem Appends.pop_dtos : Appends P pop_dtos :=
  Appends.bind (Appends.silent _ (fun _ => rfl)) fun _ => Appends.addptr _ _
theorem Appends.call_VM (env : Env) (c : Callee) (args : List (Machine → Nat))
    (hP : ∀ a, P (Event.call c a)) : Appends P (call_VM env c args) :=
  Appends.bind (Appends.call _ _ _ hP) fun _ =>
    Appends.bind Appends.get fun _ => Appends.ite (Appends.exit _) (Appends.pure _)
theorem Appends.vm_routine (env : Env) (c : Callee) (args : List (Machine → Nat))
    (hP : ∀ a, P (Event.call c a)) : Appends P (vm_routine env c args) :=
  Appends.bind (Appends.call _ _ _ hP) fun _ =>
    Appends.bind Appends.get fun _ => Appends.ite (Appends.exit _) (Appends.pure _)
theorem Appends.assert_frame_setup (cfg : Config) (msg : String) :
    Appends P (assert_frame_setup cfg msg) :=
  Appends.ite
    (Appends.bind (Appends.mov _ _) fun _ => Appends.bind (Appends.mov _ _) fun _ =>
      Appends.bind Appends.get fun _ => Appends.ite (Appends.pure _) (Appends.stop _))
    (Appends.pure _)

end rules

theorem avoids_push (cs : List Callee) (fs : List Field) (b : Bool) (v : Nat) :
    avoids cs fs b (Event.push v) = true := rfl
theorem avoids_store (cs : List Callee) (fs : List Field) (b : Bool) (a v : Nat) :
    avoids cs fs b (Event.store a v) = true := rfl
theorem avoids_membar (cs : List Callee) (fs : List Field) (b : Bool) :
    avoids cs fs b Event.membar = true := rfl
theorem avoids_call (cs : List Callee) (fs : List Field) (b : Bool) (c : Callee)
    (h : cs.contains c = false) (a : List Nat) : avoids cs fs b (Event.call c a) = true := by
  show (!cs.contains c) = true
  rw [h]
  rfl
theorem avoids_store_field (cs : List Callee) (fs : List Field) (b : Bool) (f : Field)
    (h : fs.contains f = false) (a v : Nat) :
    avoids cs fs b (Event.store_field f a v) = true := by
  show (!fs.contains f) = true
  rw [h]
  rfl
theorem avoids_bang (cs : List Callee) (fs : List Field) (a : Nat) :
    avoids cs fs false (Event.bang a) = true := rfl

/-! ## Marks emitted by a piece of code -/

theorem bind_cases {α β : Type} (x : Asm α) (f : α → Asm β) (s : Machine) :
    (∃ e s1, x s = Run.leave e s1 ∧ (x >>= f) s = Run.leave e s1)
    ∨ (∃ a s1, x s = Run.ok a s1 ∧ (x >>= f) s = f a s1) := by
  simp only [run_bind]
  cases hx : x s with
  | ok a s1 => exact Or.inr ⟨a, s1, rfl, rfl⟩
  | leave e s1 => exact Or.inl ⟨e, s1, rfl, rfl⟩

theorem filterMap_none {μ : Type} (m : Event → Option μ) (evs : List Event)
    (h : ∀ e ∈ evs, m e = none) : evs.filterMap m = [] := by
  induction evs with
  | nil => rfl
  | cons e es ih =>
    rw [List.filterMap_cons, h e (List.mem_cons_self _ _)]
    exact ih fun e' he' => h e' (List.mem_cons_of_mem _ he')

theorem Shape.quiet {α μ : Type} {m : Event → Option μ} {x : Asm α}
    (hx : Appends (fun e => m e = none) x) : Shape m [] x := by
  intro s
  obtain ⟨evs, h1, h2⟩ := hx s
  have h3 := filterMap_none m evs h2
  exact ⟨evs, h1, by rw [h3], fun _ => h3⟩

theorem Shape.shape_bind {α β μ : Type} {m : Event → Option μ} {M N : List μ} {x : Asm α}
    {f : α → Asm β} (hx : Shape m M x) (hf : ∀ a, Shape m N (f a)) :
    Shape m (M ++ N) (x >>= f) := by
  intro s
  obtain ⟨e1, h1, p1, c1⟩ := hx s
  rcases bind_cases x f s with ⟨e, s1, hxs, hr⟩ | ⟨a, s1, hxs, hr⟩
  · rw [hr]
    rw [hxs] at h1
    refine ⟨e1, h1, ?_, ?_⟩
    · exact p1.trans (List.prefix_append _ _)
    · intro h; simp at h
  · obtain ⟨e2, h2, p2, c2⟩ := hf a s1
    rw [hr]
    rw [hxs] at h1 c1
    simp only [state_ok] at h1
    have hm1 := c1 rfl
    refine ⟨e1 ++ e2, ?_, ?_, ?_⟩
    · rw [h2, h1, List.append_assoc]
    · rw [List.filterMap_append, hm1]
      exact (List.prefix_append_right_inj M).mpr p2
    · intro h
      rw [List.filterMap_append, hm1, c2 h]

theorem Shape.bind_quiet {α β μ : Type} {m : Event → Option μ} {M : List μ} {x : Asm α}
    {f : α → Asm β} (hx : Appends (fun e => m e = none) x) (hf : ∀ a, Shape m M (f a)) :
    Shape m M (x >>= f) :=
  Shape.shape_bind (Shape.quiet hx) hf

theorem Shape.shape_then_quiet {α β μ : Type} {m : Event → Option μ} {M : List μ} {x : Asm α}
    {f : α → Asm β} (hx : Shape m M x) (hf : ∀ a, Appends (fun e => m e = none) (f a)) :
    Shape m M (x >>= f) := by
  have h := Shape.shape_bind hx fun a => Shape.quiet (hf a)
  rwa [List.append_nil] at h

theorem Shape.shape_ite {α μ : Type} {m : Event → Option μ} {M : List μ} {c : Prop} [Decidable c]
    {x y : Asm α} (hx : Shape m M x) (hy : Shape m M y) : Shape m M (if c then x else y) := by
  split <;> assumption

theorem Shape.one {α μ : Type} {m : Event → Option μ} {x : Asm α} (u : μ)
    (hx : ∀ s, ∃ e, (x s).state.trace = s.trace ++ [e] ∧ m e = some u) : Shape m [u] x := by
  intro s
  obtain ⟨e, h1, h2⟩ := hx s
  have h3 : [e].filterMap m = [u] := by simp [List.filterMap_cons, h2]
  exact ⟨[e], h1, by rw [h3], fun _ => h3⟩

theorem Falls.falls_pure {α : Type} (a : α) : Falls (pure a : Asm α) := fun _ => rfl
theorem Falls.falls_get : Falls Asm.get := fun _ => rfl
theorem Falls.step (f : Machine → Machine) : Falls (Asm.step f) := fun _ => rfl
theorem Falls.falls_bind {α β : Type} {x : Asm α} {f : α → Asm β} (hx : Falls x)
    (hf : ∀ a, Falls (f a)) : Falls (x >>= f) := by
  intro s
  rcases bind_cases x f s with ⟨e, s1, hxs, _⟩ | ⟨a, s1, _, hr⟩
  · have := hx s; rw [hxs] at this; simp at this
  · rw [hr]; exact hf a s1
theorem Falls.falls_ite {α : Type} {c : Prop} [Decidable c] {x y : Asm α} (hx : Falls x)
    (hy : Falls y) : Falls (if c then x else y) := by
  split <;> assumption

theorem avoids_bridge (cs : List Callee) (fs : List Field) (b : Bool)
    (hc : cs.contains Callee.native_function = true)
    (hf : fs.contains JavaThread_thread_state = true) (e : Event)
    (h : avoids cs fs b e = true) : bridge_mark e = none := by
  cases e with
  | call c args =>
    by_cases hcc : c = Callee.native_function
    · subst hcc
      have : (!cs.contains Callee.native_function) = true := h
      rw [hc] at this
      exact absurd this (by decide)
    · unfold bridge_mark
      split <;> simp_all
  | store_field f base v =>
    by_cases hff : f = JavaThread_thread_state
    · subst hff
      have : (!fs.contains JavaThread_thread_state) = true := h
      rw [hf] at this
      exact absurd this (by decide)
    · unfold bridge_mark
      split <;> simp_all
  | push v => rfl
  | store a v => rfl
  | membar => rfl
  | bang a => rfl

theorem avoids_entry (cs : List Callee) (fs : List Field)
    (hc : cs.contains Callee.lock_object = true)
    (hf : fs.contains JavaThread_do_not_unlock_if_synchronized = true) (e : Event)
    (h : avoids cs fs true e = true) : entry_mark e = none := by
  cases e with
  | call c args =>
    by_cases hcc : c = Callee.lock_object
    · subst hcc
      have : (!cs.contains Callee.lock_object) = true := h
      rw [hc] at this
      exact absurd this (by decide)
    · unfold entry_mark
      split <;> simp_all
  | store_field f base v =>
    by_cases hff : f = JavaThread_do_not_unlock_if_synchronized
    · subst hff
      have : (!fs.contains JavaThread_do_not_unlock_if_synchronized) = true := h
      rw [hf] at this
      exact absurd this (by decide)
    · unfold entry_mark
      split <;> simp_all
  | push v => rfl
  | store a v => rfl
  | membar => rfl
  | bang a => exact absurd (show (!true) = true from h) (by decide)

/-! ## Which events each piece of the entries appends -/

theorem fixed_frame_unmarked (cfg : Config) (env : Env) (b : Bool) :
    Appends unmarked (generate_fixed_frame cfg env b) := by
  unfold generate_fixed_frame fixed_frame_mdp fixed_frame_bcp
  repeat' (with_reducible first
    | exact Appends.pure _ | exact Appends.get | exact Appends.exit _ | exact Appends.stop _
    | exact Appends.mov _ _ | exact Appends.movl _ _ | exact Appends.load_unsigned_short _ _
    | exact Appends.pop _ | exact Appends.addptr _ _ | exact Appends.subptr _ _
    | exact Appends.shlptr _ _ | exact Appends.shrptr _ _ | exact Appends.shll _ _
    | exact Appends.subl _ _ | exact Appends.orl _ _ | exact Appends.andptr _ _
    | exact Appends.get_method _ _ | exact Appends.restore_bcp _ | exact Appends.restore_locals _
    | exact Appends.jmp_reg _ | exact Appends.leave | exact Appends.pop_ltos
    | exact Appends.pop_dtos | exact Appends.assert_frame_setup _ _
    | exact Appends.silent _ (fun _ => rfl)
    | exact Appends.enter (avoids_push _ _ _)
    | exact Appends.push _ (avoids_push _ _ _)
    | exact Appends.push_ltos (avoids_store _ _ _)
    | exact Appends.push_dtos (avoids_store _ _ _)
    | exact Appends.movptr_to _ _ _ (avoids_store _ _ _)
    | exact Appends.subptr_mem _ _ _ (avoids_store _ _ _)
    | exact Appends.membar (avoids_membar _ _ _)
    | exact Appends.movptr_fld _ _ _ (avoids_store_field _ _ _ _ (by decide))
    | exact Appends.movl_fld _ _ _ (avoids_store_field _ _ _ _ (by decide))
    | exact Appends.movbool _ _ _ (avoids_store_field _ _ _ _ (by decide))
    | exact Appends.call _ _ _ (avoids_call _ _ _ _ (by decide))
    | exact Appends.call_VM _ _ _ (avoids_call _ _ _ _ (by decide))
    | exact Appends.vm_routine _ _ _ (avoids_call _ _ _ _ (by decide))
    | exact Appends.load_mirror _ _ _ _ (avoids_call _ _ _ _ (by decide))
    | apply Appends.bind | apply Appends.ite | intro _)

theorem native_entry_frame_unmarked (cfg : Config) (env : Env) :
    Appends unmarked (native_entry_frame cfg env) := by
  unfold native_entry_frame native_entry_frame_start native_entry_frame_checks
  repeat' (with_reducible first
    | exact Appends.pure _ | exact Appends.get | exact Appends.exit _ | exact Appends.stop _
    | exact Appends.mov _ _ | exact Appends.movl _ _ | exact Appends.load_unsigned_short _ _
    | exact Appends.pop _ | exact Appends.addptr _ _ | exact Appends.subptr _ _
    | exact Appends.shlptr _ _ | exact Appends.shrptr _ _ | exact Appends.shll _ _
    | exact Appends.subl _ _ | exact Appends.orl _ _ | exact Appends.andptr _ _
    | exact Appends.get_method _ _ | exact Appends.restore_bcp _ | exact Appends.restore_locals _
    | exact Appends.jmp_reg _ | exact Appends.leave | exact Appends.pop_ltos
    | exact Appends.pop_dtos | exact Appends.assert_frame_setup _ _
    | exact Appends.silent _ (fun _ => rfl)
    | exact Appends.enter (avoids_push _ _ _)
    | exact Appends.push _ (avoids_push _ _ _)
    | exact Appends.push_ltos (avoids_store _ _ _)
    | exact Appends.push_dtos (avoids_store _ _ _)
    | exact Appends.movptr_to _ _ _ (avoids_store _ _ _)
    | exact Appends.subptr_mem _ _ _ (avoids_store _ _ _)
    | exact Appends.membar (avoids_membar _ _ _)
    | exact Appends.movptr_fld _ _ _ (avoids_store_field _ _ _ _ (by decide))
    | exact Appends.movl_fld _ _ _ (avoids_store_field _ _ _ _ (by decide))
    | exact Appends.movbool _ _ _ (avoids_store_field _ _ _ _ (by decide))
    | exact Appends.call _ _ _ (avoids_call _ _ _ _ (by decide))
    | exact Appends.call_VM _ _ _ (avoids_call _ _ _ _ (by decide))
    | exact Appends.vm_routine _ _ _ (avoids_call _ _ _ _ (by decide))
    | exact Appends.load_mirror _ _ _ _ (avoids_call _ _ _ _ (by decide))
    | exact fixed_frame_unmarked _ _ _
    | apply Appends.bind | apply Appends.ite | intro _)

theorem native_entry_prepare_unmarked (cfg : Config) (env : Env) :
    Appends unmarked (native_entry_prepare cfg env) := by
  unfold native_entry_prepare native_entry_param_area
  repeat' (with_reducible first
    | exact Appends.pure _ | exact Appends.get | exact Appends.exit _ | exact Appends.stop _
    | exact Appends.mov _ _ | exact Appends.movl _ _ | exact Appends.load_unsigned_short _ _
    | exact Appends.pop _ | exact Appends.addptr _ _ | exact Appends.subptr _ _
    | exact Appends.shlptr _ _ | exact Appends.shrptr _ _ | exact Appends.shll _ _
    | exact Appends.subl _ _ | exact Appends.orl _ _ | exact Appends.andptr _ _
    | exact Appends.get_method _ _ | exact Appends.restore_bcp _ | exact Appends.restore_locals _
    | exact Appends.jmp_reg _ | exact Appends.leave | exact Appends.pop_ltos
    | exact Appends.pop_dtos | exact Appends.assert_frame_setup _ _
    | exact Appends.silent _ (fun _ => rfl)
    | exact Appends.enter (avoids_push _ _ _)
    | exact Appends.push _ (avoids_push _ _ _)
    | exact Appends.push_ltos (avoids_store _ _ _)
    | exact Appends.push_dtos (avoids_store _ _ _)
    | exact Appends.movptr_to _ _ _ (avoids_store _ _ _)
    | exact Appends.subptr_mem _ _ _ (avoids_store _ _ _)
    | exact Appends.membar (avoids_membar _ _ _)
    | exact Appends.movptr_fld _ _ _ (avoids_store_field _ _ _ _ (by decide))
    | exact Appends.movl_fld _ _ _ (avoids_store_field _ _ _ _ (by decide))
    | exact Appends.movbool _ _ _ (avoids_store_field _ _ _ _ (by decide))
    | exact Appends.call _ _ _ (avoids_call _ _ _ _ (by decide))
    | exact Appends.call_VM _ _ _ (avoids_call _ _ _ _ (by decide))
    | exact Appends.vm_routine _ _ _ (avoids_call _ _ _ _ (by decide))
    | exact Appends.load_mirror _ _ _ _ (avoids_call _ _ _ _ (by decide))
    | apply Appends.bind | apply Appends.ite | intro _)

theorem native_entry_assert_unmarked (cfg : Config) :
    Appends unmarked (native_entry_assert_thread_state cfg) := by
  unfold native_entry_assert_thread_state
  repeat' (with_reducible first
    | exact Appends.pure _ | exact Appends.get | exact Appends.exit _ | exact Appends.stop _
    | exact Appends.mov _ _ | exact Appends.movl _ _ | exact Appends.load_unsigned_short _ _
    | exact Appends.pop _ | exact Appends.addptr _ _ | exact Appends.subptr _ _
    | exact Appends.shlptr _ _ | exact Appends.shrptr _ _ | exact Appends.shll _ _
    | exact Appends.subl _ _ | exact Appends.orl _ _ | exact Appends.andptr _ _
    | exact Appends.get_method _ _ | exact Appends.restore_bcp _ | exact Appends.restore_locals _
    | exact Appends.jmp_reg _ | exact Appends.leave | exact Appends.pop_ltos
    | exact Appends.pop_dtos | exact Appends.assert_frame_setup _ _
    | exact Appends.silent _ (fun _ => rfl)
    | exact Appends.enter (avoids_push _ _ _)
    | exact Appends.push _ (avoids_push _ _ _)
    | exact Appends.push_ltos (avoids_store _ _ _)
    | exact Appends.push_dtos (avoids_store _ _ _)
    | exact Appends.movptr_to _ _ _ (avoids_store _ _ _)
    | exact Appends.subptr_mem _ _ _ (avoids_store _ _ _)
    | exact Appends.membar (avoids_membar _ _ _)
    | exact Appends.movptr_fld _ _ _ (avoids_store_field _ _ _ _ (by decide))
    | exact Appends.movl_fld _ _ _ (avoids_store_field _ _ _ _ (by decide))
    | exact Appends.movbool _ _ _ (avoids_store_field _ _ _ _ (by decide))
    | exact Appends.call _ _ _ (avoids_call _ _ _ _ (by decide))
    | exact Appends.call_VM _ _ _ (avoids_call _ _ _ _ (by decide))
    | exact Appends.vm_routine _ _ _ (avoids_call _ _ _ _ (by decide))
    | exact Appends.load_mirror _ _ _ _ (avoids_call _ _ _ _ (by decide))
    | apply Appends.bind | apply Appends.ite | intro _)

theorem native_entry_unlink_unmarked (cfg : Config) (env : Env) :
    Appends unmarked (native_entry_unlink cfg env) := by
  unfold native_entry_unlink native_entry_oop_result
  repeat' (with_reducible first
    | exact Appends.pure _ | exact Appends.get | exact Appends.exit _ | exact Appends.stop _
    | exact Appends.mov _ _ | exact Appends.movl _ _ | exact Appends.load_unsigned_short _ _
    | exact Appends.pop _ | exact Appends.addptr _ _ | exact Appends.subptr _ _
    | exact Appends.shlptr _ _ | exact Appends.shrptr _ _ | exact Appends.shll _ _
    | exact Appends.subl _ _ | exact Appends.orl _ _ | exact Appends.andptr _ _
    | exact Appends.get_method _ _ | exact Appends.restore_bcp _ | exact Appends.restore_locals _
    | exact Appends.jmp_reg _ | exact Appends.leave | exact Appends.pop_ltos
    | exact Appends.pop_dtos | exact Appends.assert_frame_setup _ _
    | exact Appends.silent _ (fun _ => rfl)
    | exact Appends.enter (avoids_push _ _ _)
    | exact Appends.push _ (avoids_push _ _ _)
    | exact Appends.push_ltos (avoids_store _ _ _)
    | exact Appends.push_dtos (avoids_store _ _ _)
    | exact Appends.movptr_to _ _ _ (avoids_store _ _ _)
    | exact Appends.subptr_mem _ _ _ (avoids_store _ _ _)
    | exact Appends.membar (avoids_membar _ _ _)
    | exact Appends.movptr_fld _ _ _ (avoids_store_field _ _ _ _ (by decide))
    | exact Appends.movl_fld _ _ _ (avoids_store_field _ _ _ _ (by decide))
    | exact Appends.movbool _ _ _ (avoids_store_field _ _ _ _ (by decide))
    | exact Appends.call _ _ _ (avoids_call _ _ _ _ (by decide))
    | exact Appends.call_VM _ _ _ (avoids_call _ _ _ _ (by decide))
    | exact Appends.vm_routine _ _ _ (avoids_call _ _ _ _ (by decide))
    | exact Appends.load_mirror _ _ _ _ (avoids_call _ _ _ _ (by decide))
    | apply Appends.bind | apply Appends.ite | intro _)

theorem native_entry_finish_unmarked (cfg : Config) (env : Env) :
    Appends unmarked (native_entry_finish cfg env) := by
  unfold native_entry_finish native_entry_pending_exception native_entry_unlock native_entry_return
  repeat' (with_reducible first
    | exact Appends.pure _ | exact Appends.get | exact Appends.exit _ | exact Appends.stop _
    | exact Appends.mov _ _ | exact Appends.movl _ _ | exact Appends.load_unsigned_short _ _
    | exact Appends.pop _ | exact Appends.addptr _ _ | exact Appends.subptr _ _
    | exact Appends.shlptr _ _ | exact Appends.shrptr _ _ | exact Appends.shll _ _
    | exact Appends.subl _ _ | exact Appends.orl _ _ | exact Appends.andptr _ _
    | exact Appends.get_method _ _ | exact Appends.restore_bcp _ | exact Appends.restore_locals _
    | exact Appends.jmp_reg _ | exact Appends.leave | exact Appends.pop_ltos
    | exact Appends.pop_dtos | exact Appends.assert_frame_setup _ _
    | exact Appends.silent _ (fun _ => rfl)
    | exact Appends.enter (avoids_push _ _ _)
    | exact Appends.push _ (avoids_push _ _ _)
    | exact Appends.push_ltos (avoids_store _ _ _)
    | exact Appends.push_dtos (avoids_store _ _ _)
    | exact Appends.movptr_to _ _ _ (avoids_store _ _ _)
    | exact Appends.subptr_mem _ _ _ (avoids_store _ _ _)
    | exact Appends.membar (avoids_membar _ _ _)
    | exact Appends.movptr_fld _ _ _ (avoids_store_field _ _ _ _ (by decide))
    | exact Appends.movl_fld _ _ _ (avoids_store_field _ _ _ _ (by decide))
    | exact Appends.movbool _ _ _ (avoids_store_field _ _ _ _ (by decide))
    | exact Appends.call _ _ _ (avoids_call _ _ _ _ (by decide))
    | exact Appends.call_VM _ _ _ (avoids_call _ _ _ _ (by decide))
    | exact Appends.vm_routine _ _ _ (avoids_call _ _ _ _ (by decide))
    | exact Appends.load_mirror _ _ _ _ (avoids_call _ _ _ _ (by decide))
    | apply Appends.bind | apply Appends.ite | intro _)

theorem stack_overflow_check_unmarked (cfg : Config) :
    Appends unmarked (generate_stack_overflow_check cfg) := by
  unfold generate_stack_overflow_check
  repeat' (with_reducible first
    | exact Appends.pure _ | exact Appends.get | exact Appends.exit _ | exact Appends.stop _
    | exact Appends.mov _ _ | exact Appends.movl _ _ | exact Appends.load_unsigned_short _ _
    | exact Appends.pop _ | exact Appends.addptr _ _ | exact Appends.subptr _ _
    | exact Appends.shlptr _ _ | exact Appends.shrptr _ _ | exact Appends.shll _ _
    | exact Appends.subl _ _ | exact Appends.orl _ _ | exact Appends.andptr _ _
    | exact Appends.get_method _ _ | exact Appends.restore_bcp _ | exact Appends.restore_locals _
    | exact Appends.jmp_reg _ | exact Appends.leave | exact Appends.pop_ltos
    | exact Appends.pop_dtos | exact Appends.assert_frame_setup _ _
    | exact Appends.silent _ (fun _ => rfl)
    | exact Appends.enter (avoids_push _ _ _)
    | exact Appends.push _ (avoids_push _ _ _)
    | exact Appends.push_ltos (avoids_store _ _ _)
    | exact Appends.push_dtos (avoids_store _ _ _)
    | exact Appends.movptr_to _ _ _ (avoids_store _ _ _)
    | exact Appends.subptr_mem _ _ _ (avoids_store _ _ _)
    | exact Appends.membar (avoids_membar _ _ _)
    | exact Appends.movptr_fld _ _ _ (avoids_store_field _ _ _ _ (by decide))
    | exact Appends.movl_fld _ _ _ (avoids_store_field _ _ _ _ (by decide))
    | exact Appends.movbool _ _ _ (avoids_store_field _ _ _ _ (by decide))
    | exact Appends.call _ _ _ (avoids_call _ _ _ _ (by decide))
    | exact Appends.call_VM _ _ _ (avoids_call _ _ _ _ (by decide))
    | exact Appends.vm_routine _ _ _ (avoids_call _ _ _ _ (by decide))
    | exact Appends.load_mirror _ _ _ _ (avoids_call _ _ _ _ (by decide))
    | apply Appends.bind | apply Appends.ite | intro _)

theorem normal_entry_frame_unmarked (cfg : Config) (env : Env) :
    Appends unmarked (normal_entry_frame cfg env) := by
  unfold normal_entry_frame normal_entry_sizes normal_entry_allocate normal_entry_locals_base
    normal_entry_locals
  repeat' (with_reducible first
    | exact Appends.pure _ | exact Appends.get | exact Appends.exit _ | exact Appends.stop _
    | exact Appends.mov _ _ | exact Appends.movl _ _ | exact Appends.load_unsigned_short _ _
    | exact Appends.pop _ | exact Appends.addptr _ _ | exact Appends.subptr _ _
    | exact Appends.shlptr _ _ | exact Appends.shrptr _ _ | exact Appends.shll _ _
    | exact Appends.subl _ _ | exact Appends.orl _ _ | exact Appends.andptr _ _
    | exact Appends.get_method _ _ | exact Appends.restore_bcp _ | exact Appends.restore_locals _
    | exact Appends.jmp_reg _ | exact Appends.leave | exact Appends.pop_ltos
    | exact Appends.pop_dtos | exact Appends.assert_frame_setup _ _
    | exact Appends.silent _ (fun _ => rfl)
    | exact Appends.enter (avoids_push _ _ _)
    | exact Appends.push _ (avoids_push _ _ _)
    | exact Appends.push_ltos (avoids_store _ _ _)
    | exact Appends.push_dtos (avoids_store _ _ _)
    | exact Appends.movptr_to _ _ _ (avoids_store _ _ _)
    | exact Appends.subptr_mem _ _ _ (avoids_store _ _ _)
    | exact Appends.membar (avoids_membar _ _ _)
    | exact Appends.movptr_fld _ _ _ (avoids_store_field _ _ _ _ (by decide))
    | exact Appends.movl_fld _ _ _ (avoids_store_field _ _ _ _ (by decide))
    | exact Appends.movbool _ _ _ (avoids_store_field _ _ _ _ (by decide))
    | exact Appends.call _ _ _ (avoids_call _ _ _ _ (by decide))
    | exact Appends.call_VM _ _ _ (avoids_call _ _ _ _ (by decide))
    | exact Appends.vm_routine _ _ _ (avoids_call _ _ _ _ (by decide))
    | exact Appends.load_mirror _ _ _ _ (avoids_call _ _ _ _ (by decide))
    | exact fixed_frame_unmarked _ _ _
    | exact stack_overflow_check_unmarked _
    | exact locals_loop_appends (avoids_push _ _ _) _
    | apply Appends.bind | apply Appends.ite | intro _)

theorem normal_entry_start_unmarked (cfg : Config) (env : Env) :
    Appends unmarked (normal_entry_start cfg env) := by
  unfold normal_entry_start
  repeat' (with_reducible first
    | exact Appends.pure _ | exact Appends.get | exact Appends.exit _ | exact Appends.stop _
    | exact Appends.mov _ _ | exact Appends.movl _ _ | exact Appends.load_unsigned_short _ _
    | exact Appends.pop _ | exact Appends.addptr _ _ | exact Appends.subptr _ _
    | exact Appends.shlptr _ _ | exact Appends.shrptr _ _ | exact Appends.shll _ _
    | exact Appends.subl _ _ | exact Appends.orl _ _ | exact Appends.andptr _ _
    | exact Appends.get_method _ _ | exact Appends.restore_bcp _ | exact Appends.restore_locals _
    | exact Appends.jmp_reg _ | exact Appends.leave | exact Appends.pop_ltos
    | exact Appends.pop_dtos | exact Appends.assert_frame_setup _ _
    | exact Appends.silent _ (fun _ => rfl)
    | exact Appends.enter (avoids_push _ _ _)
    | exact Appends.push _ (avoids_push _ _ _)
    | exact Appends.push_ltos (avoids_store _ _ _)
    | exact Appends.push_dtos (avoids_store _ _ _)
    | exact Appends.movptr_to _ _ _ (avoids_store _ _ _)
    | exact Appends.subptr_mem _ _ _ (avoids_store _ _ _)
    | exact Appends.membar (avoids_membar _ _ _)
    | exact Appends.movptr_fld _ _ _ (avoids_store_field _ _ _ _ (by decide))
    | exact Appends.movl_fld _ _ _ (avoids_store_field _ _ _ _ (by decide))
    | exact Appends.movbool _ _ _ (avoids_store_field _ _ _ _ (by decide))
    | exact Appends.call _ _ _ (avoids_call _ _ _ _ (by decide))
    | exact Appends.call_VM _ _ _ (avoids_call _ _ _ _ (by decide))
    | exact Appends.vm_routine _ _ _ (avoids_call _ _ _ _ (by decide))
    | exact Appends.load_mirror _ _ _ _ (avoids_call _ _ _ _ (by decide))
    | apply Appends.bind | apply Appends.ite | intro _)

theorem counter_incr_unmarked (cfg : Config) (env : Env) :
    Appends unmarked (generate_counter_incr cfg env) := by
  unfold generate_counter_incr increment_mask_and_jump
  repeat' (with_reducible first
    | exact Appends.pure _ | exact Appends.get | exact Appends.exit _ | exact Appends.stop _
    | exact Appends.mov _ _ | exact Appends.movl _ _ | exact Appends.load_unsigned_short _ _
    | exact Appends.pop _ | exact Appends.addptr _ _ | exact Appends.subptr _ _
    | exact Appends.shlptr _ _ | exact Appends.shrptr _ _ | exact Appends.shll _ _
    | exact Appends.subl _ _ | exact Appends.orl _ _ | exact Appends.andptr _ _
    | exact Appends.get_method _ _ | exact Appends.restore_bcp _ | exact Appends.restore_locals _
    | exact Appends.jmp_reg _ | exact Appends.leave | exact Appends.pop_ltos
    | exact Appends.pop_dtos | exact Appends.assert_frame_setup _ _
    | exact Appends.silent _ (fun _ => rfl)
    | exact Appends.enter (avoids_push _ _ _)
    | exact Appends.push _ (avoids_push _ _ _)
    | exact Appends.push_ltos (avoids_store _ _ _)
    | exact Appends.push_dtos (avoids_store _ _ _)
    | exact Appends.movptr_to _ _ _ (avoids_store _ _ _)
    | exact Appends.subptr_mem _ _ _ (avoids_store _ _ _)
    | exact Appends.membar (avoids_membar _ _ _)
    | exact Appends.movptr_fld _ _ _ (avoids_store_field _ _ _ _ (by decide))
    | exact Appends.movl_fld _ _ _ (avoids_store_field _ _ _ _ (by decide))
    | exact Appends.movbool _ _ _ (avoids_store_field _ _ _ _ (by decide))
    | exact Appends.call _ _ _ (avoids_call _ _ _ _ (by decide))
    | exact Appends.call_VM _ _ _ (avoids_call _ _ _ _ (by decide))
    | exact Appends.vm_routine _ _ _ (avoids_call _ _ _ _ (by decide))
    | exact Appends.load_mirror _ _ _ _ (avoids_call _ _ _ _ (by decide))
    | apply Appends.bind | apply Appends.ite | intro _)

theorem counter_overflow_unmarked (cfg : Config) (env : Env) :
    Appends unmarked (generate_counter_overflow cfg env) := by
  unfold generate_counter_overflow
  repeat' (with_reducible first
    | exact Appends.pure _ | exact Appends.get | exact Appends.exit _ | exact Appends.stop _
    | exact Appends.mov _ _ | exact Appends.movl _ _ | exact Appends.load_unsigned_short _ _
    | exact Appends.pop _ | exact Appends.addptr _ _ | exact Appends.subptr _ _
    | exact Appends.shlptr _ _ | exact Appends.shrptr _ _ | exact Appends.shll _ _
    | exact Appends.subl _ _ | exact Appends.orl _ _ | exact Appends.andptr _ _
    | exact Appends.get_method _ _ | exact Appends.restore_bcp _ | exact Appends.restore_locals _
    | exact Appends.jmp_reg _ | exact Appends.leave | exact Appends.pop_ltos
    | exact Appends.pop_dtos | exact Appends.assert_frame_setup _ _
    | exact Appends.silent _ (fun _ => rfl)
    | exact Appends.enter (avoids_push _ _ _)
    | exact Appends.push _ (avoids_push _ _ _)
    | exact Appends.push_ltos (avoids_store _ _ _)
    | exact Appends.push_dtos (avoids_store _ _ _)
    | exact Appends.movptr_to _ _ _ (avoids_store _ _ _)
    | exact Appends.subptr_mem _ _ _ (avoids_store _ _ _)
    | exact Appends.membar (avoids_membar _ _ _)
    | exact Appends.movptr_fld _ _ _ (avoids_store_field _ _ _ _ (by decide))
    | exact Appends.movl_fld _ _ _ (avoids_store_field _ _ _ _ (by decide))
    | exact Appends.movbool _ _ _ (avoids_store_field _ _ _ _ (by decide))
    | exact Appends.call _ _ _ (avoids_call _ _ _ _ (by decide))
    | exact Appends.call_VM _ _ _ (avoids_call _ _ _ _ (by decide))
    | exact Appends.vm_routine _ _ _ (avoids_call _ _ _ _ (by decide))
    | exact Appends.load_mirror _ _ _ _ (avoids_call _ _ _ _ (by decide))
    | apply Appends.bind | apply Appends.ite | intro _)

theorem bang_no_bridge (cfg : Config) (b : Bool) :
    Appends no_bridge (bang_stack_shadow_pages cfg b) := by
  unfold bang_stack_shadow_pages
  repeat' (with_reducible first
    | exact Appends.pure _ | exact Appends.get | exact Appends.exit _ | exact Appends.stop _
    | exact Appends.mov _ _ | exact Appends.movl _ _ | exact Appends.load_unsigned_short _ _
    | exact Appends.pop _ | exact Appends.addptr _ _ | exact Appends.subptr _ _
    | exact Appends.shlptr _ _ | exact Appends.shrptr _ _ | exact Appends.shll _ _
    | exact Appends.subl _ _ | exact Appends.orl _ _ | exact Appends.andptr _ _
    | exact Appends.get_method _ _ | exact Appends.restore_bcp _ | exact Appends.restore_locals _
    | exact Appends.jmp_reg _ | exact Appends.leave | exact Appends.pop_ltos
    | exact Appends.pop_dtos | exact Appends.assert_frame_setup _ _
    | exact Appends.silent _ (fun _ => rfl)
    | exact Appends.enter (avoids_push _ _ _)
    | exact Appends.push _ (avoids_push _ _ _)
    | exact Appends.push_ltos (avoids_store _ _ _)
    | exact Appends.push_dtos (avoids_store _ _ _)
    | exact Appends.movptr_to _ _ _ (avoids_store _ _ _)
    | exact Appends.subptr_mem _ _ _ (avoids_store _ _ _)
    | exact Appends.membar (avoids_membar _ _ _)
    | exact Appends.movptr_fld _ _ _ (avoids_store_field _ _ _ _ (by decide))
    | exact Appends.movl_fld _ _ _ (avoids_store_field _ _ _ _ (by decide))
    | exact Appends.movbool _ _ _ (avoids_store_field _ _ _ _ (by decide))
    | exact Appends.call _ _ _ (avoids_call _ _ _ _ (by decide))
    | exact Appends.call_VM _ _ _ (avoids_call _ _ _ _ (by decide))
    | exact Appends.vm_routine _ _ _ (avoids_call _ _ _ _ (by decide))
    | exact Appends.load_mirror _ _ _ _ (avoids_call _ _ _ _ (by decide))
    | exact bang_pages_appends _ (avoids_bang _ _) _ _
    | apply Appends.bind | apply Appends.ite | intro _)

theorem lock_method_no_bridge (cfg : Config) (env : Env) :
    Appends no_bridge (lock_method cfg env) := by
  unfold lock_method
  repeat' (with_reducible first
    | exact Appends.pure _ | exact Appends.get | exact Appends.exit _ | exact Appends.stop _
    | exact Appends.mov _ _ | exact Appends.movl _ _ | exact Appends.load_unsigned_short _ _
    | exact Appends.pop _ | exact Appends.addptr _ _ | exact Appends.subptr _ _
    | exact Appends.shlptr _ _ | exact Appends.shrptr _ _ | exact Appends.shll _ _
    | exact Appends.subl _ _ | exact Appends.orl _ _ | exact Appends.andptr _ _
    | exact Appends.get_method _ _ | exact Appends.restore_bcp _ | exact Appends.restore_locals _
    | exact Appends.jmp_reg _ | exact Appends.leave | exact Appends.pop_ltos
    | exact Appends.pop_dtos | exact Appends.assert_frame_setup _ _
    | exact Appends.silent _ (fun _ => rfl)
    | exact Appends.enter (avoids_push _ _ _)
    | exact Appends.push _ (avoids_push _ _ _)
    | exact Appends.push_ltos (avoids_store _ _ _)
    | exact Appends.push_dtos (avoids_store _ _ _)
    | exact Appends.movptr_to _ _ _ (avoids_store _ _ _)
    | exact Appends.subptr_mem _ _ _ (avoids_store _ _ _)
    | exact Appends.membar (avoids_membar _ _ _)
    | exact Appends.movptr_fld _ _ _ (avoids_store_field _ _ _ _ (by decide))
    | exact Appends.movl_fld _ _ _ (avoids_store_field _ _ _ _ (by decide))
    | exact Appends.movbool _ _ _ (avoids_store_field _ _ _ _ (by decide))
    | exact Appends.call _ _ _ (avoids_call _ _ _ _ (by decide))
    | exact Appends.call_VM _ _ _ (avoids_call _ _ _ _ (by decide))
    | exact Appends.vm_routine _ _ _ (avoids_call _ _ _ _ (by decide))
    | exact Appends.load_mirror _ _ _ _ (avoids_call _ _ _ _ (by decide))
    | apply Appends.bind | apply Appends.ite | intro _)

theorem native_entry_transition_no_entry (cfg : Config) (env : Env) :
    Appends no_entry (native_entry_transition cfg env) := by
  unfold native_entry_transition
  repeat' (with_reducible first
    | exact Appends.pure _ | exact Appends.get | exact Appends.exit _ | exact Appends.stop _
    | exact Appends.mov _ _ | exact Appends.movl _ _ | exact Appends.load_unsigned_short _ _
    | exact Appends.pop _ | exact Appends.addptr _ _ | exact Appends.subptr _ _
    | exact Appends.shlptr _ _ | exact Appends.shrptr _ _ | exact Appends.shll _ _
    | exact Appends.subl _ _ | exact Appends.orl _ _ | exact Appends.andptr _ _
    | exact Appends.get_method _ _ | exact Appends.restore_bcp _ | exact Appends.restore_locals _
    | exact Appends.jmp_reg _ | exact Appends.leave | exact Appends.pop_ltos
    | exact Appends.pop_dtos | exact Appends.assert_frame_setup _ _
    | exact Appends.silent _ (fun _ => rfl)
    | exact Appends.enter (avoids_push _ _ _)
    | exact Appends.push _ (avoids_push _ _ _)
    | exact Appends.push_ltos (avoids_store _ _ _)
    | exact Appends.push_dtos (avoids_store _ _ _)
    | exact Appends.movptr_to _ _ _ (avoids_store _ _ _)
    | exact Appends.subptr_mem _ _ _ (avoids_store _ _ _)
    | exact Appends.membar (avoids_membar _ _ _)
    | exact Appends.movptr_fld _ _ _ (avoids_store_field _ _ _ _ (by decide))
    | exact Appends.movl_fld _ _ _ (avoids_store_field _ _ _ _ (by decide))
    | exact Appends.movbool _ _ _ (avoids_store_field _ _ _ _ (by decide))
    | exact Appends.call _ _ _ (avoids_call _ _ _ _ (by decide))
    | exact Appends.call_VM _ _ _ (avoids_call _ _ _ _ (by decide))
    | exact Appends.vm_routine _ _ _ (avoids_call _ _ _ _ (by decide))
    | exact Appends.load_mirror _ _ _ _ (avoids_call _ _ _ _ (by decide))
    | apply Appends.bind | apply Appends.ite | intro _)

/-! ## Native bridge: thread state sequence -/

theorem unmarked_no_bridge (e : Event) (h : unmarked e) : no_bridge e := by
  cases e with
  | call c args =>
    have h1 : (!([Callee.native_function, Callee.lock_object].contains c)) = true := h
    show (!([Callee.native_function].contains c)) = true
    by_cases hc : c = Callee.native_function
    · subst hc; exact absurd h1 (by decide)
    · simp [hc]
  | store_field f base v =>
    have h1 : (!([JavaThread_thread_state,
      JavaThread_do_not_unlock_if_synchronized].contains f)) = true := h
    show (!([JavaThread_thread_state].contains f)) = true
    by_cases hc : f = JavaThread_thread_state
    · subst hc; exact absurd h1 (by decide)
    · simp [hc]
  | push v => rfl
  | store a v => rfl
  | membar => rfl
  | bang a => rfl

theorem unmarked_no_entry (e : Event) (h : unmarked e) : no_entry e := by
  cases e with
  | call c args =>
    have h1 : (!([Callee.native_function, Callee.lock_object].contains c)) = true := h
    show (!([Callee.lock_object].contains c)) = true
    by_cases hc : c = Callee.lock_object
    · subst hc; exact absurd h1 (by decide)
    · simp [hc]
  | store_field f base v =>
    have h1 : (!([JavaThread_thread_state,
      JavaThread_do_not_unlock_if_synchronized].contains f)) = true := h
    show (!([JavaThread_do_not_unlock_if_synchronized].contains f)) = true
    by_cases hc : f = JavaThread_do_not_unlock_if_synchronized
    · subst hc; exact absurd h1 (by decide)
    · simp [hc]
  | push v => rfl
  | store a v => rfl
  | membar => rfl
  | bang a => exact h

theorem no_bridge_mark (e : Event) (h : no_bridge e) : bridge_mark e = none :=
  avoids_bridge _ _ _ (by decide) (by decide) e h

theorem no_entry_mark (e : Event) (h : no_entry e) : entry_mark e = none :=
  avoids_entry _ _ (by decide) (by decide) e h

theorem bridge_quiet_bind {α β : Type} {M : List BridgeMark} {x : Asm α} {f : α → Asm β}
    (hx : Appends no_bridge x) (hf : ∀ a, Shape bridge_mark M (f a)) :
    Shape bridge_mark M (x >>= f) :=
  Shape.bind_quiet (hx.mono no_bridge_mark) hf

theorem bridge_state_last (b : Register) (v : Nat) :
    Shape bridge_mark [BridgeMark.state (v % 2 ^ 32)]
      (movl_fld b JavaThread_thread_state (fun _ => v)) :=
  Shape.one _ fun s => ⟨Event.store_field JavaThread_thread_state (s.reg b) (v % 2 ^ 32), rfl, rfl⟩

theorem bridge_state_bind {β : Type} {M : List BridgeMark} (b : Register) (v : Nat)
    {f : Unit → Asm β} (hf : ∀ a, Shape bridge_mark M (f a)) :
    Shape bridge_mark (BridgeMark.state (v % 2 ^ 32) :: M)
      (movl_fld b JavaThread_thread_state (fun _ => v) >>= f) :=
  Shape.shape_bind (bridge_state_last b v) hf

theorem bridge_native_bind {β : Type} {M : List BridgeMark} (env : Env)
    (args : List (Machine → Nat)) {f : Unit → Asm β} (hf : ∀ a, Shape bridge_mark M (f a)) :
    Shape bridge_mark (BridgeMark.native_call :: M)
      (call env Callee.native_function args >>= f) :=
  Shape.shape_bind (M := [BridgeMark.native_call])
    (Shape.one _ fun s => ⟨Event.call Callee.native_function
      (List.map (fun (a : Machine → Nat) => a s) args), rfl, rfl⟩) hf

theorem native_entry_transition_shape (cfg : Config) (env : Env) :
    Shape bridge_mark (bridge_sequence cfg) (native_entry_transition cfg env) := by
  unfold native_entry_transition bridge_sequence
  repeat' (with_reducible first
    | exact bridge_state_last _ _
    | apply bridge_state_bind
    | apply bridge_native_bind
    | exact Appends.pure _ | exact Appends.get
    | exact Appends.mov _ _ | exact Appends.subptr _ _ | exact Appends.andptr _ _
    | exact Appends.push_ltos (avoids_store _ _ _)
    | exact Appends.push_dtos (avoids_store _ _ _)
    | exact Appends.membar (avoids_membar _ _ _)
    | exact Appends.call _ _ _ (avoids_call _ _ _ _ (by decide))
    | apply bridge_quiet_bind
    | apply Appends.bind | apply Appends.ite | intro _)

theorem native_entry_transition_falls (cfg : Config) (env : Env) :
    Falls (native_entry_transition cfg env) := by
  unfold native_entry_transition push_dtos push_ltos
  repeat' (first
    | exact Falls.step _ | exact Falls.falls_pure _ | exact Falls.falls_get
    | apply Falls.falls_bind | apply Falls.falls_ite | intro _)

theorem AllOrLeave.of_shape_falls {α μ : Type} {m : Event → Option μ} {M : List μ}
    {x : Asm α} (hs : Shape m M x) (hf : Falls x) : AllOrLeave m M x := by
  intro s
  obtain ⟨evs, h1, _, h3⟩ := hs s
  exact ⟨evs, h1, Or.inl ⟨hf s, h3 (hf s)⟩⟩

theorem AllOrLeave.all_quiet_bind {α β μ : Type} {m : Event → Option μ} {M : List μ}
    {x : Asm α} {f : α → Asm β} (hx : Appends (fun e => m e = none) x)
    (hf : ∀ a, AllOrLeave m M (f a)) : AllOrLeave m M (x >>= f) := by
  intro s
  obtain ⟨e1, h1, q1⟩ := hx s
  have m1 := filterMap_none m e1 q1
  rcases bind_cases x f s with ⟨e, s1, hxs, hr⟩ | ⟨a, s1, hxs, hr⟩
  · rw [hr]
    rw [hxs] at h1
    exact ⟨e1, h1, Or.inr ⟨by simp, m1⟩⟩
  · rw [hr]
    rw [hxs] at h1
    simp only [state_ok] at h1
    obtain ⟨e2, h2, c2⟩ := hf a s1
    refine ⟨e1 ++ e2, by rw [h2, h1, List.append_assoc], ?_⟩
    rw [List.filterMap_append, m1, List.nil_append]
    exact c2

theorem NoneOrAll.none_quiet_bind {α β μ : Type} {m : Event → Option μ} {M : List μ}
    {x : Asm α} {f : α → Asm β} (hx : Appends (fun e => m e = none) x)
    (hf : ∀ a, NoneOrAll m M (f a)) : NoneOrAll m M (x >>= f) := by
  intro s
  obtain ⟨e1, h1, q1⟩ := hx s
  have m1 := filterMap_none m e1 q1
  rcases bind_cases x f s with ⟨e, s1, hxs, hr⟩ | ⟨a, s1, hxs, hr⟩
  · rw [hr]
    rw [hxs] at h1
    exact ⟨e1, h1, Or.inl m1⟩
  · rw [hr]
    rw [hxs] at h1
    simp only [state_ok] at h1
    obtain ⟨e2, h2, c2⟩ := hf a s1
    refine ⟨e1 ++ e2, by rw [h2, h1, List.append_assoc], ?_⟩
    rw [List.filterMap_append, m1, List.nil_append]
    exact c2

theorem NoneOrAll.none_then_quiet {α β μ : Type} {m : Event → Option μ} {M : List μ}
    {x : Asm α} {f : α → Asm β} (hx : AllOrLeave m M x)
    (hf : ∀ a, Appends (fun e => m e = none) (f a)) : NoneOrAll m M (x >>= f) := by
  intro s
  obtain ⟨e1, h1, c1⟩ := hx s
  rcases bind_cases x f s with ⟨e, s1, hxs, hr⟩ | ⟨a, s1, hxs, hr⟩
  · rw [hr]
    rw [hxs] at h1 c1
    refine ⟨e1, h1, ?_⟩
    rcases c1 with ⟨h, _⟩ | ⟨_, h⟩
    · simp at h
    · exact Or.inl h
  · rw [hr]
    rw [hxs] at h1 c1
    simp only [state_ok] at h1
    obtain ⟨e2, h2, q2⟩ := hf a s1
    have m2 := filterMap_none m e2 q2
    refine ⟨e1 ++ e2, by rw [h2, h1, List.append_assoc], ?_⟩
    rw [List.filterMap_append, m2, List.append_nil]
    rcases c1 with ⟨_, h⟩ | ⟨h, _⟩
    · exact Or.inr h
    · simp at h

theorem native_entry_count_bang_lock_no_bridge (cfg : Config) (env : Env) (b : Bool) :
    Appends no_bridge (native_entry_count_bang_lock cfg env b) := by
  unfold native_entry_count_bang_lock
  repeat' (with_reducible first
    | exact Appends.pure _ | exact Appends.get | exact Appends.stop _
    | exact Appends.load_unsigned_short _ _
    | exact (counter_incr_unmarked _ _).mono unmarked_no_bridge
    | exact (counter_overflow_unmarked _ _).mono unmarked_no_bridge
    | exact bang_no_bridge _ _
    | exact lock_method_no_bridge _ _
    | exact Appends.movbool _ _ _ (avoids_store_field _ _ _ _ (by decide))
    | apply Appends.bind | apply Appends.ite | intro _)

theorem native_entry_call_all_or_leave (cfg : Config) (env : Env) :
    AllOrLeave bridge_mark (bridge_sequence cfg) (native_entry_call cfg env) :=
  AllOrLeave.all_quiet_bind
    ((native_entry_assert_unmarked cfg).mono fun e h => no_bridge_mark e (unmarked_no_bridge e h))
    fun _ => AllOrLeave.of_shape_falls (native_entry_transition_shape cfg env)
      (native_entry_transition_falls cfg env)

theorem native_entry_bridge_marks (cfg : Config) (env : Env) (synchronized : Bool) :
    NoneOrAll bridge_mark (bridge_sequence cfg) (generate_native_entry cfg env synchronized) :=
  NoneOrAll.none_quiet_bind
    ((native_entry_frame_unmarked cfg env).mono
      fun e h => no_bridge_mark e (unmarked_no_bridge e h)) fun _ =>
  NoneOrAll.none_quiet_bind
    ((native_entry_count_bang_lock_no_bridge cfg env synchronized).mono no_bridge_mark) fun _ =>
  NoneOrAll.none_quiet_bind
    ((native_entry_prepare_unmarked cfg env).mono
      fun e h => no_bridge_mark e (unmarked_no_bridge e h)) fun _ =>
  NoneOrAll.none_then_quiet (native_entry_call_all_or_leave cfg env) fun _ =>
    Appends.bind
      ((native_entry_unlink_unmarked cfg env).mono
        fun e h => no_bridge_mark e (unmarked_no_bridge e h)) fun _ =>
      (native_entry_finish_unmarked cfg env).mono
        fun e h => no_bridge_mark e (unmarked_no_bridge e h)

/-- C2: in every run of the native entry the bridge marks (stores to the
thread state and the call of the native function) are either absent, when
control left before the native call, or exactly `_thread_in_native`, the
native call, `_thread_in_native_trans`, `_thread_in_Java`, in that order,
whatever the safepoint poll, the suspend flags and the pending exception
are; and a debug build refuses to start the sequence from any thread state
other than `_thread_in_Java`. -/
theorem native_bridge_state_sequence (cfg : Config) (env : Env) (synchronized : Bool)
    (s : Machine) :
    (∃ evs, (generate_native_entry cfg env synchronized s).state.trace = s.trace ++ evs
      ∧ (bridge_marks evs = [] ∨ bridge_marks evs = bridge_sequence cfg))
    ∧ (cfg.ASSERT = true ∧ s.fld JavaThread_thread_state (s.reg r15_thread) % 2 ^ 32
          ≠ cfg._thread_in_Java % 2 ^ 32 →
        (native_entry_call cfg env s).exit?
            = some (Exit.stop "Wrong thread state in native stub")
        ∧ (native_entry_call cfg env s).state.trace = s.trace) := by
  refine ⟨native_entry_bridge_marks cfg env synchronized s, ?_⟩
  rintro ⟨hA, hne⟩
  simp only [Nat.reducePow] at hne
  simp [native_entry_call, native_entry_assert_thread_state, movl, stop, hA, hne]

/-! ## Method entries: flag, banging and lock -/

theorem UpTo.run_then {α β μ : Type} {m : Event → Option μ} {u : μ} {post : List μ}
    {x : Asm α} {f : α → Asm β}
    (hx : ∀ s, ∃ evs k, (x s).state.trace = s.trace ++ evs
      ∧ evs.filterMap m = List.replicate k u)
    (hf : ∀ a, Shape m post (f a)) : UpTo m [] u post (x >>= f) := by
  intro s
  obtain ⟨e1, k, h1, m1⟩ := hx s
  rcases bind_cases x f s with ⟨e, s1, hxs, hr⟩ | ⟨a, s1, hxs, hr⟩
  · rw [hr]
    rw [hxs] at h1
    refine ⟨e1, k, h1, ?_⟩
    rw [m1, List.nil_append]
    exact List.prefix_append _ _
  · rw [hr]
    rw [hxs] at h1
    simp only [state_ok] at h1
    obtain ⟨e2, h2, p2, _⟩ := hf a s1
    refine ⟨e1 ++ e2, k, by rw [h2, h1, List.append_assoc], ?_⟩
    rw [List.filterMap_append, m1, List.nil_append]
    exact (List.prefix_append_right_inj _).mpr p2

theorem UpTo.upto_quiet_bind {α β μ : Type} {m : Event → Option μ} {pre post : List μ} {u : μ}
    {x : Asm α} {f : α → Asm β} (hx : Appends (fun e => m e = none) x)
    (hf : ∀ a, UpTo m pre u post (f a)) : UpTo m pre u post (x >>= f) := by
  intro s
  obtain ⟨e1, h1, q1⟩ := hx s
  have m1 := filterMap_none m e1 q1
  rcases bind_cases x f s with ⟨e, s1, hxs, hr⟩ | ⟨a, s1, hxs, hr⟩
  · rw [hr]
    rw [hxs] at h1
    exact ⟨e1, 0, h1, by rw [m1]; exact List.nil_prefix⟩
  · rw [hr]
    rw [hxs] at h1
    simp only [state_ok] at h1
    obtain ⟨e2, k, h2, p2⟩ := hf a s1
    refine ⟨e1 ++ e2, k, by rw [h2, h1, List.append_assoc], ?_⟩
    rw [List.filterMap_append, m1, List.nil_append]
    exact p2

theorem UpTo.mark_bind {α β μ : Type} {m : Event → Option μ} {pre post : List μ} {u v : μ}
    {x : Asm α} {f : α → Asm β} (hx : Shape m [v] x)
    (hf : ∀ a, UpTo m pre u post (f a)) : UpTo m (v :: pre) u post (x >>= f) := by
  intro s
  obtain ⟨e1, h1, p1, c1⟩ := hx s
  rcases bind_cases x f s with ⟨e, s1, hxs, hr⟩ | ⟨a, s1, hxs, hr⟩
  · rw [hr]
    rw [hxs] at h1
    exact ⟨e1, 0, h1, p1.trans (List.prefix_append [v] _)⟩
  · rw [hr]
    rw [hxs] at h1 c1
    simp only [state_ok] at h1
    obtain ⟨e2, k, h2, p2⟩ := hf a s1
    refine ⟨e1 ++ e2, k, by rw [h2, h1, List.append_assoc], ?_⟩
    rw [List.filterMap_append, c1 rfl]
    exact (List.prefix_append_right_inj [v]).mpr p2

theorem UpTo.upto_then_quiet {α β μ : Type} {m : Event → Option μ} {pre post : List μ} {u : μ}
    {x : Asm α} {f : α → Asm β} (hx : UpTo m pre u post x)
    (hf : ∀ a, Appends (fun e => m e = none) (f a)) : UpTo m pre u post (x >>= f) := by
  intro s
  obtain ⟨e1, k, h1, p1⟩ := hx s
  rcases bind_cases x f s with ⟨e, s1, hxs, hr⟩ | ⟨a, s1, hxs, hr⟩
  · rw [hr]
    rw [hxs] at h1
    exact ⟨e1, k, h1, p1⟩
  · rw [hr]
    rw [hxs] at h1
    simp only [state_ok] at h1
    obtain ⟨e2, h2, q2⟩ := hf a s1
    have m2 := filterMap_none m e2 q2
    refine ⟨e1 ++ e2, k, by rw [h2, h1, List.append_assoc], ?_⟩
    rw [List.filterMap_append, m2, List.append_nil]
    exact p1

theorem unmarked_or_bang_no_bridge (e : Event) (h : unmarked_or_bang e) : no_bridge e := by
  cases e with
  | call c args =>
    have h1 : (!([Callee.native_function, Callee.lock_object].contains c)) = true := h
    show (!([Callee.native_function].contains c)) = true
    by_cases hc : c = Callee.native_function
    · subst hc; exact absurd h1 (by decide)
    · simp [hc]
  | store_field f base v =>
    have h1 : (!([JavaThread_thread_state,
      JavaThread_do_not_unlock_if_synchronized].contains f)) = true := h
    show (!([JavaThread_thread_state].contains f)) = true
    by_cases hc : f = JavaThread_thread_state
    · subst hc; exact absurd h1 (by decide)
    · simp [hc]
  | push v => rfl
  | store a v => rfl
  | membar => rfl
  | bang a => rfl

theorem unmarked_or_bang_entry (e : Event) (h : unmarked_or_bang e) :
    entry_mark e = none ∨ entry_mark e = some EntryMark.bang := by
  cases e with
  | call c args =>
    left
    have h1 : (!([Callee.native_function, Callee.lock_object].contains c)) = true := h
    by_cases hc : c = Callee.lock_object
    · subst hc; exact absurd h1 (by decide)
    · unfold entry_mark
      split <;> simp_all
  | store_field f base v =>
    left
    have h1 : (!([JavaThread_thread_state,
      JavaThread_do_not_unlock_if_synchronized].contains f)) = true := h
    by_cases hc : f = JavaThread_do_not_unlock_if_synchronized
    · subst hc; exact absurd h1 (by decide)
    · unfold entry_mark
      split <;> simp_all
  | push v => exact Or.inl rfl
  | store a v => exact Or.inl rfl
  | membar => exact Or.inl rfl
  | bang a => exact Or.inr rfl

theorem filterMap_replicate (evs : List Event)
    (h : ∀ e ∈ evs, entry_mark e = none ∨ entry_mark e = some EntryMark.bang) :
    ∃ k, evs.filterMap entry_mark = List.replicate k EntryMark.bang := by
  induction evs with
  | nil => exact ⟨0, rfl⟩
  | cons e es ih =>
    obtain ⟨k, hk⟩ := ih fun e' he' => h e' (List.mem_cons_of_mem _ he')
    rcases h e (List.mem_cons_self _ _) with h0 | h1
    · exact ⟨k, by rw [List.filterMap_cons, h0]; exact hk⟩
    · exact ⟨k + 1, by rw [List.filterMap_cons, h1, hk]; rfl⟩

theorem bang_unmarked_or_bang (cfg : Config) (b : Bool) :
    Appends unmarked_or_bang (bang_stack_shadow_pages cfg b) := by
  unfold bang_stack_shadow_pages
  repeat' (with_reducible first
    | exact Appends.pure _ | exact Appends.get | exact Appends.stop _
    | exact bang_pages_appends _ (avoids_bang _ _) _ _
    | exact Appends.movptr_fld _ _ _ (avoids_store_field _ _ _ _ (by decide))
    | apply Appends.bind | apply Appends.ite | intro _)

theorem bang_entry_marks (cfg : Config) (b : Bool) (s : Machine) :
    ∃ evs k, (bang_stack_shadow_pages cfg b s).state.trace = s.trace ++ evs
      ∧ evs.filterMap entry_mark = List.replicate k EntryMark.bang := by
  obtain ⟨evs, h1, h2⟩ := bang_unmarked_or_bang cfg b s
  obtain ⟨k, hk⟩ := filterMap_replicate evs fun e he => unmarked_or_bang_entry e (h2 e he)
  exact ⟨evs, k, h1, hk⟩

theorem entry_quiet_bind {α β : Type} {M : List EntryMark} {x : Asm α} {f : α → Asm β}
    (hx : Appends no_entry x) (hf : ∀ a, Shape entry_mark M (f a)) :
    Shape entry_mark M (x >>= f) :=
  Shape.bind_quiet (hx.mono no_entry_mark) hf

theorem entry_lock_last (env : Env) (args : List (Machine → Nat)) :
    Shape entry_mark [EntryMark.lock] (vm_routine env Callee.lock_object args) := by
  apply Shape.shape_then_quiet
  · exact Shape.one _ fun s => ⟨Event.call Callee.lock_object
      (List.map (fun (a : Machine → Nat) => a s) args), rfl, rfl⟩
  · intro _
    exact Appends.bind Appends.get fun _ => Appends.ite (Appends.exit _) (Appends.pure _)

theorem lock_method_shape (cfg : Config) (env : Env) :
    Shape entry_mark [EntryMark.lock] (lock_method cfg env) := by
  unfold lock_method
  repeat' (with_reducible first
    | exact entry_lock_last _ _
    | exact Appends.pure _ | exact Appends.get | exact Appends.stop _
    | exact Appends.mov _ _ | exact Appends.load_unsigned_short _ _
    | exact Appends.subptr _ _
    | exact Appends.movptr_to _ _ _ (avoids_store _ _ _)
    | exact Appends.subptr_mem _ _ _ (avoids_store _ _ _)
    | exact Appends.load_mirror _ _ _ _ (avoids_call _ _ _ _ (by decide))
    | apply entry_quiet_bind
    | apply Appends.bind | apply Appends.ite | intro _)

theorem flag_store_shape (b : Register) (v : Bool) :
    Shape entry_mark [EntryMark.flag (if v then 1 else 0)]
      (movbool b JavaThread_do_not_unlock_if_synchronized v) :=
  Shape.one _ fun s => ⟨Event.store_field JavaThread_do_not_unlock_if_synchronized (s.reg b)
    (if v then 1 else 0), rfl, rfl⟩

theorem native_entry_count_bang_lock_marks (cfg : Config) (env : Env) :
    UpTo entry_mark [EntryMark.flag 1] EntryMark.bang [EntryMark.flag 0, EntryMark.lock]
      (native_entry_count_bang_lock cfg env true) := by
  unfold native_entry_count_bang_lock
  refine UpTo.mark_bind (flag_store_shape _ true) fun _ => ?_
  refine UpTo.upto_quiet_bind ?_ fun _ => ?_
  · exact Appends.ite ((counter_incr_unmarked cfg env).mono
      fun e h => no_entry_mark e (unmarked_no_entry e h)) (Appends.pure _)
  refine UpTo.upto_quiet_bind ?_ fun _ => ?_
  · exact Appends.ite ((counter_overflow_unmarked cfg env).mono
      fun e h => no_entry_mark e (unmarked_no_entry e h)) (Appends.pure _)
  refine UpTo.run_then (bang_entry_marks cfg true) fun _ => ?_
  refine Shape.shape_bind (M := [EntryMark.flag 0]) (flag_store_shape _ false) fun _ => ?_
  rw [if_pos rfl]
  exact lock_method_shape cfg env

theorem normal_entry_count_bang_lock_marks (cfg : Config) (env : Env) :
    UpTo entry_mark [EntryMark.flag 1] EntryMark.bang [EntryMark.flag 0, EntryMark.lock]
      (normal_entry_count_bang_lock cfg env true) := by
  unfold normal_entry_count_bang_lock
  refine UpTo.mark_bind (flag_store_shape _ true) fun _ => ?_
  refine UpTo.upto_quiet_bind (Appends.call _ _ _ fun _ => rfl) fun _ => ?_
  refine UpTo.upto_quiet_bind ?_ fun _ => ?_
  · exact Appends.ite ((counter_incr_unmarked cfg env).mono
      fun e h => no_entry_mark e (unmarked_no_entry e h)) (Appends.pure _)
  refine UpTo.upto_quiet_bind ?_ fun _ => ?_
  · exact Appends.ite ((counter_overflow_unmarked cfg env).mono
      fun e h => no_entry_mark e (unmarked_no_entry e h)) (Appends.pure _)
  refine UpTo.run_then (bang_entry_marks cfg false) fun _ => ?_
  refine Shape.shape_bind (M := [EntryMark.flag 0]) (flag_store_shape _ false) fun _ => ?_
  rw [if_pos rfl]
  exact lock_method_shape cfg env

theorem native_entry_marks (cfg : Config) (env : Env) (s : Machine) :
    ∃ evs k, (generate_native_entry cfg env true s).state.trace = s.trace ++ evs
      ∧ entry_marks evs <+: entry_sequence k := by
  have hq : ∀ e, unmarked e → entry_mark e = none :=
    fun e h => no_entry_mark e (unmarked_no_entry e h)
  have h : UpTo entry_mark [EntryMark.flag 1] EntryMark.bang
      [EntryMark.flag 0, EntryMark.lock] (generate_native_entry cfg env true) := by
    unfold generate_native_entry native_entry_call
    refine UpTo.upto_quiet_bind ((native_entry_frame_unmarked cfg env).mono hq) fun _ => ?_
    refine UpTo.upto_then_quiet (native_entry_count_bang_lock_marks cfg env) fun _ => ?_
    refine Appends.bind ((native_entry_prepare_unmarked cfg env).mono hq) fun _ => ?_
    refine Appends.bind ?_ fun _ => ?_
    · exact Appends.bind ((native_entry_assert_unmarked cfg).mono hq) fun _ =>
        (native_entry_transition_no_entry cfg env).mono no_entry_mark
    refine Appends.bind ((native_entry_unlink_unmarked cfg env).mono hq) fun _ => ?_
    exact (native_entry_finish_unmarked cfg env).mono hq
  exact h s

theorem normal_entry_marks (cfg : Config) (env : Env) (s : Machine) :
    ∃ evs k, (generate_normal_entry cfg env true s).state.trace = s.trace ++ evs
      ∧ entry_marks evs <+: entry_sequence k := by
  have hq : ∀ e, unmarked e → entry_mark e = none :=
    fun e h => no_entry_mark e (unmarked_no_entry e h)
  have h : UpTo entry_mark [EntryMark.flag 1] EntryMark.bang
      [EntryMark.flag 0, EntryMark.lock] (generate_normal_entry cfg env true) := by
    unfold generate_normal_entry
    refine UpTo.upto_quiet_bind ((normal_entry_frame_unmarked cfg env).mono hq) fun _ => ?_
    refine UpTo.upto_then_quiet (normal_entry_count_bang_lock_marks cfg env) fun _ => ?_
    exact (normal_entry_start_unmarked cfg env).mono hq
  exact h s

/-- C2, witness: in a debug build a thread in state `_thread_in_native` (4)
is stopped before the first store. -/
theorem native_bridge_state_sequence_witness :
    (native_entry_call linux_x86_64_debug idle_env
        ((entry_state 0 0x120).store_field JavaThread_thread_state 0x500 4)).exit?
      = some (Exit.stop "Wrong thread state in native stub")
    ∧ (native_entry_call linux_x86_64_debug idle_env
        ((entry_state 0 0x120).store_field JavaThread_thread_state 0x500 4)).state.trace
      = ((entry_state 0 0x120).store_field JavaThread_thread_state 0x500 4).trace :=
  (native_bridge_state_sequence linux_x86_64_debug idle_env true
    ((entry_state 0 0x120).store_field JavaThread_thread_state 0x500 4)).2
    ⟨by decide, by decide⟩

theorem entry_sequence_without_flags (k : Nat) :
    (entry_sequence k).filter (fun m => !m.is_flag)
      = List.replicate k EntryMark.bang ++ [EntryMark.lock] := by
  have h : (List.replicate k EntryMark.bang).filter (fun m => !m.is_flag)
      = List.replicate k EntryMark.bang := by
    apply List.filter_eq_self.mpr
    intro a ha
    rw [List.eq_of_mem_replicate ha]
    rfl
  simp only [entry_sequence, List.filter_append, h]
  rfl

/-- In every run of a synchronized native or interpreted entry all shadow
page touches of `bang_stack_shadow_pages` come before the call of
`lock_object`: the banging is executed before `lock_method`, not after it. -/
theorem shadow_pages_banged_before_lock (cfg : Config) (env : Env) (s : Machine) :
    (∃ evs k, (generate_native_entry cfg env true s).state.trace = s.trace ++ evs
      ∧ (entry_marks evs).filter (fun m => !m.is_flag)
          <+: List.replicate k EntryMark.bang ++ [EntryMark.lock])
    ∧ (∃ evs k, (generate_normal_entry cfg env true s).state.trace = s.trace ++ evs
      ∧ (entry_marks evs).filter (fun m => !m.is_flag)
          <+: List.replicate k EntryMark.bang ++ [EntryMark.lock]) := by
  constructor
  · obtain ⟨evs, k, h1, h2⟩ := native_entry_marks cfg env s
    exact ⟨evs, k, h1, entry_sequence_without_flags k ▸ h2.filter _⟩
  · obtain ⟨evs, k, h1, h2⟩ := normal_entry_marks cfg env s
    exact ⟨evs, k, h1, entry_sequence_without_flags k ▸ h2.filter _⟩

set_option maxRecDepth 100000 in
/-- C9: the code at the failing input, a synchronized interpreted method
and a synchronized native method entered at stack pointer `0x100000`.  The
comment at lines 668-669 says that the banging is done after locking the
receiver.  In both entries the 20 shadow pages are touched first, between
the two stores to `do_not_unlock_if_synchronized`, and `lock_object` is
called only afterwards. -/
theorem shadow_pages_banged_while_unlocked :
    entry_marks (generate_normal_entry linux_x86_64 idle_env true
        (entry_state 0 0x20)).state.trace = entry_sequence 20
    ∧ entry_marks (generate_native_entry linux_x86_64 idle_env true
        (entry_state 0 0x120)).state.trace = entry_sequence 20 := by
  decide

/-! ## Native entry: unlocking, pending exception and return -/

theorem c_rarg1_ne_r11 (cfg : Config) : c_rarg1 cfg ≠ r11 := by
  unfold c_rarg1; split <;> decide

theorem native_entry_unlock_not_synchronized (cfg : Config) (env : Env) (s : Machine)
    (h : is_synchronized cfg s = false) :
    (native_entry_unlock cfg env s).exit? = none
    ∧ (native_entry_unlock cfg env s).state.trace = s.trace := by
  simp only [is_synchronized, bne_eq_false_iff_eq, Nat.reducePow] at h
  simp [native_entry_unlock, load_unsigned_short, testl_zero, h]

theorem native_entry_unlock_locked (cfg : Config) (env : Env) (s : Machine)
    (h : is_synchronized cfg s = true)
    (hobj : s.mem (ea (first_monitor cfg s) cfg.BasicObjectLock_obj_offset) ≠ 0) :
    (native_entry_unlock cfg env s).state.trace
      = s.trace ++ [Event.call Callee.unlock_object [first_monitor cfg s]]
    ∧ ((native_entry_unlock cfg env s).exit? = none
        ∨ (native_entry_unlock cfg env s).exit? = some Exit.forward_exception)
    ∧ ((∀ m, env.branch Callee.unlock_object m = false) →
        (native_entry_unlock cfg env s).exit? = none) := by
  simp only [is_synchronized, bne_iff_ne, ne_eq, Nat.reducePow] at h
  have hr := c_rarg1_ne_r11 cfg
  simp only [first_monitor] at hobj ⊢
  simp only [native_entry_unlock, load_unsigned_short, testl_zero, mov, vm_routine, call,
    run_bind, run_step, run_get, run_ite, run_exit, run_pure]
  simp [h, hr, hobj]
  refine ⟨?_, ?_, ?_⟩
  · split_ifs <;> simp
  · split_ifs <;> simp
  · intro hb
    simp [hb]

theorem native_entry_unlock_unlocked (cfg : Config) (env : Env) (s : Machine)
    (h : is_synchronized cfg s = true)
    (hobj : s.mem (ea (first_monitor cfg s) cfg.BasicObjectLock_obj_offset) = 0) :
    (native_entry_unlock cfg env s).state.trace
      = s.trace ++ [Event.call Callee.throw_illegal_monitor_state_exception []]
    ∧ ((native_entry_unlock cfg env s).exit? = some Exit.should_not_reach_here
        ∨ (native_entry_unlock cfg env s).exit? = some Exit.forward_exception) := by
  simp only [is_synchronized, bne_iff_ne, ne_eq, Nat.reducePow] at h
  have hr := c_rarg1_ne_r11 cfg
  simp only [first_monitor] at hobj ⊢
  simp only [native_entry_unlock, load_unsigned_short, testl_zero, mov, call_VM, call,
    run_bind, run_step, run_get, run_ite, run_exit, run_pure]
  simp [h, hr, hobj]
  constructor
  · split_ifs <;> simp
  · split_ifs <;> simp

/-- C6: at the unlock step of the native entry, a method with
`JVM_ACC_SYNCHRONIZED` whose first monitor record holds an object gets exactly
one `unlock_object` call, on that record, and no illegal-monitor-state
throw; with a null object slot it gets the
`throw_illegal_monitor_state_exception` call, does not fall through, and
`unlock_object` is not called; a method without the flag gets neither call.
At entry `lock_method` calls `lock_object` at most once, and exactly once
when it falls through. -/
theorem native_unlock_matches_lock (cfg : Config) (env : Env) (s : Machine) :
    (is_synchronized cfg s = true
      ∧ s.mem (ea (first_monitor cfg s) cfg.BasicObjectLock_obj_offset) ≠ 0 →
        (native_entry_unlock cfg env s).state.trace
          = s.trace ++ [Event.call Callee.unlock_object [first_monitor cfg s]])
    ∧ (is_synchronized cfg s = true
      ∧ s.mem (ea (first_monitor cfg s) cfg.BasicObjectLock_obj_offset) = 0 →
        (native_entry_unlock cfg env s).state.trace
          = s.trace ++ [Event.call Callee.throw_illegal_monitor_state_exception []]
        ∧ (native_entry_unlock cfg env s).exit? ≠ none)
    ∧ (is_synchronized cfg s = false →
        (native_entry_unlock cfg env s).state.trace = s.trace)
    ∧ (∃ evs, (lock_method cfg env s).state.trace = s.trace ++ evs
        ∧ entry_marks evs <+: [EntryMark.lock]
        ∧ ((lock_method cfg env s).exit? = none → entry_marks evs = [EntryMark.lock])) := by
  refine ⟨?_, ?_, ?_, lock_method_shape cfg env s⟩
  · rintro ⟨h1, h2⟩
    exact (native_entry_unlock_locked cfg env s h1 h2).1
  · rintro ⟨h1, h2⟩
    obtain ⟨a, b⟩ := native_entry_unlock_unlocked cfg env s h1 h2
    refine ⟨a, ?_⟩
    rcases b with b | b <;> rw [b] <;> simp
  · intro h
    exact (native_entry_unlock_not_synchronized cfg env s h).2

/-- C6, witness: a synchronized method (access flags `0x20`) whose first
monitor record, at `0x100000`, has the object `0x4242` in its slot. -/
theorem native_unlock_matches_lock_witness :
    (native_entry_unlock linux_x86_64 idle_env
        (((entry_state 0 0x20).set rbp 0x100058).store 0x100008 0x4242)).state.trace
      = (((entry_state 0 0x20).set rbp 0x100058).store 0x100008 0x4242).trace
        ++ [Event.call Callee.unlock_object
            [first_monitor linux_x86_64
              (((entry_state 0 0x20).set rbp 0x100058).store 0x100008 0x4242)]] :=
  (native_unlock_matches_lock linux_x86_64 idle_env
    (((entry_state 0 0x20).set rbp 0x100058).store 0x100008 0x4242)).1
    ⟨by decide, by decide⟩

theorem native_entry_pending (cfg : Config) (env : Env) (s : Machine)
    (h : s.fld Thread_pending_exception (s.reg r15_thread) ≠ 0) :
    (native_entry_finish cfg env s).state.trace
      = s.trace ++ [Event.call Callee.throw_pending_exception []]
    ∧ ((native_entry_finish cfg env s).exit? = some Exit.forward_exception
      ∨ (native_entry_finish cfg env s).exit? = some Exit.should_not_reach_here) := by
  simp only [native_entry_finish, native_entry_pending_exception, call_VM, call,
    run_bind, run_step, run_get, run_ite, run_exit, run_pure]
  simp [h]
  constructor
  · split_ifs <;> simp
  · split_ifs <;> simp

theorem native_entry_return_calls (cfg : Config) (env : Env) (s : Machine)
    (hn : ∀ m, env.branch Callee.notify_method_exit m = false) :
    (∃ evs, (native_entry_return cfg env s).state.trace = s.trace ++ evs
      ∧ calls evs = [Callee.notify_method_exit, Callee.result_handler])
    ∧ ∃ a, (native_entry_return cfg env s).exit? = some (Exit.jmp a) := by
  simp only [native_entry_return, vm_routine, call, pop_ltos, pop_dtos, mov, addptr, leave, pop,
    jmp_reg, run_bind, run_step, run_get, run_ite, run_exit, run_pure]
  simp [hn, calls]

theorem native_entry_no_pending (cfg : Config) (env : Env) (s : Machine)
    (h : s.fld Thread_pending_exception (s.reg r15_thread) = 0) :
    native_entry_finish cfg env s
      = (native_entry_unlock cfg env >>= fun _ => native_entry_return cfg env) s := by
  simp only [native_entry_finish, native_entry_pending_exception,
    run_bind, run_get, run_ite, run_pure]
  simp [h]

theorem calls_append (a b : List Event) : calls (a ++ b) = calls a ++ calls b := by
  simp [calls, List.filterMap_append]

/-- C7 (as amended): with a pending exception after the native call the
native entry calls `throw_pending_exception` and nothing else: the result
handler and `notify_method_exit` are not called and the run ends in the
exception forwarding of `call_VM` (or at `should_not_reach_here`), never at
the return jump.  Without a pending exception, if the method is not
synchronized or its first monitor record still holds an object, and the
`unlock_object` and `notify_method_exit` macros return, the result handler is
called exactly once, after `notify_method_exit`, and the run ends in the
jump to the return address. -/
theorem native_pending_exception_skips_result_handler (cfg : Config) (env : Env)
    (s : Machine) :
    (s.fld Thread_pending_exception (s.reg r15_thread) ≠ 0 →
      (native_entry_finish cfg env s).state.trace
        = s.trace ++ [Event.call Callee.throw_pending_exception []]
      ∧ ((native_entry_finish cfg env s).exit? = some Exit.forward_exception
        ∨ (native_entry_finish cfg env s).exit? = some Exit.should_not_reach_here))
    ∧ (s.fld Thread_pending_exception (s.reg r15_thread) = 0
        ∧ (is_synchronized cfg s = false
          ∨ s.mem (ea (first_monitor cfg s) cfg.BasicObjectLock_obj_offset) ≠ 0)
        ∧ (∀ m, env.branch Callee.unlock_object m = false)
        ∧ (∀ m, env.branch Callee.notify_method_exit m = false) →
      (∃ evs, (native_entry_finish cfg env s).state.trace = s.trace ++ evs
        ∧ calls evs = (if is_synchronized cfg s then [Callee.unlock_object] else [])
            ++ [Callee.notify_method_exit, Callee.result_handler])
      ∧ ∃ a, (native_entry_finish cfg env s).exit? = some (Exit.jmp a)) := by
  refine ⟨native_entry_pending cfg env s, ?_⟩
  rintro ⟨hp, hm, hu, hn⟩
  rw [native_entry_no_pending cfg env s hp]
  have key : ∃ e1, (native_entry_unlock cfg env s).state.trace = s.trace ++ e1
      ∧ calls e1 = (if is_synchronized cfg s then [Callee.unlock_object] else [])
      ∧ (native_entry_unlock cfg env s).exit? = none := by
    by_cases hs : is_synchronized cfg s = true
    · have hobj : s.mem (ea (first_monitor cfg s) cfg.BasicObjectLock_obj_offset) ≠ 0 := by
        rcases hm with hm | hm
        · rw [hs] at hm; exact absurd hm (by decide)
        · exact hm
      obtain ⟨a, _, c⟩ := native_entry_unlock_locked cfg env s hs hobj
      exact ⟨_, a, by simp [hs, calls], c hu⟩
    · have hs' : is_synchronized cfg s = false := by simpa using hs
      obtain ⟨a, b⟩ := native_entry_unlock_not_synchronized cfg env s hs'
      exact ⟨[], by simpa using b, by simp [hs', calls], a⟩
  obtain ⟨e1, t1, c1, x1⟩ := key
  rcases bind_cases (native_entry_unlock cfg env) (fun _ => native_entry_return cfg env) s
    with ⟨e, s1, hxs, _⟩ | ⟨u, s1, hxs, hr⟩
  · rw [hxs] at x1; simp at x1
  · rw [hr]
    rw [hxs] at t1
    simp only [state_ok] at t1
    obtain ⟨⟨e2, t2, c2⟩, a, ha⟩ := native_entry_return_calls cfg env s1 hn
    exact ⟨⟨e1 ++ e2, by rw [t2, t1, List.append_assoc], by rw [calls_append, c1, c2]⟩, a, ha⟩

/-- C7, witness: a pending exception `0x77`. -/
theorem native_pending_exception_skips_result_handler_witness :
    (native_entry_finish linux_x86_64 idle_env
        ((entry_state 0 0x120).store_field Thread_pending_exception 0x500 0x77)).state.trace
      = ((entry_state 0 0x120).store_field Thread_pending_exception 0x500 0x77).trace
        ++ [Event.call Callee.throw_pending_exception []]
    ∧ ((native_entry_finish linux_x86_64 idle_env
          ((entry_state 0 0x120).store_field Thread_pending_exception 0x500 0x77)).exit?
        = some Exit.forward_exception
      ∨ (native_entry_finish linux_x86_64 idle_env
          ((entry_state 0 0x120).store_field Thread_pending_exception 0x500 0x77)).exit?
        = some Exit.should_not_reach_here) :=
  (native_pending_exception_skips_result_handler linux_x86_64 idle_env
    ((entry_state 0 0x120).store_field Thread_pending_exception 0x500 0x77)).1 (by decide)

/-- C7, counterexample to the claim as stated: no exception is pending, the
method is synchronized (access flags `0x120`) and the object slot of its
first monitor record is null.  The run calls
`throw_illegal_monitor_state_exception` and the result handler is never
called. -/
theorem native_result_handler_skipped_without_exception :
    (entry_state 0 0x120).fld Thread_pending_exception ((entry_state 0 0x120).reg r15_thread) = 0
    ∧ calls (native_entry_finish linux_x86_64 idle_env (entry_state 0 0x120)).state.trace
      = [Callee.throw_illegal_monitor_state_exception]
    ∧ (native_entry_finish linux_x86_64 idle_env (entry_state 0 0x120)).exit?
      = some Exit.should_not_reach_here := by
  decide

/-! ## PopFrame with a deoptimized caller -/

theorem popframe_entry_check_run (cfg : Config) (env : Env) (s : Machine) :
    (popframe_entry_check cfg env s).exit? = none
    ∧ ∃ evs, (popframe_entry_check cfg env s).state.trace = s.trace ++ evs
      ∧ calls evs = [Callee.empty_expression_stack, Callee.interpreter_contains] := by
  simp only [popframe_entry_check, call, movl, orl, movl_fld, mov,
    run_bind, run_step, run_get, run_ite, run_exit, run_pure]
  simp [calls]

theorem popframe_entry_finish_deoptimized (cfg : Config) (env : Env) (s : Machine)
    (h0 : s.reg rax % 2 ^ 32 = 0)
    (hret : ∀ m, env.branch (Callee.remove_activation false false false) m = false) :
    ∃ args b, (popframe_entry_finish cfg env s).state.trace
        = s.trace ++ [Event.call Callee.popframe_preserve_args args,
            Event.call (Callee.remove_activation false false false) [],
            Event.store_field JavaThread_popframe_condition b
              (cfg.popframe_force_deopt_reexecution_bit % 2 ^ 32)]
      ∧ (popframe_entry_finish cfg env s).exit?
        = some (Exit.jmp ((popframe_entry_finish cfg env s).state.reg rdx))
      ∧ (popframe_entry_finish cfg env s).state.fld JavaThread_popframe_condition b
        = cfg.popframe_force_deopt_reexecution_bit % 2 ^ 32 := by
  simp only [Nat.reducePow] at h0
  simp only [popframe_entry_finish, popframe_save_args, get_method, mov, load_unsigned_short, shll, restore_locals,
    subptr, addptr, call, vm_routine, movl_fld, jmp_reg,
    run_bind, run_step, run_get, run_ite, run_exit, run_pure]
  simp [h0, hret]
  refine ⟨_, _, ⟨rfl, rfl⟩, ?_⟩
  intro h
  exact absurd rfl h

theorem stack_limit_plus_frame_eq (cfg : Config) (s : Machine) (n : Nat) :
    (n * 8 + w64 (overhead_size cfg)
      + s.fld JavaThread_stack_overflow_limit (s.reg r15_thread)) % 2 ^ 64
    = stack_limit_plus_frame cfg s n := by
  unfold stack_limit_plus_frame w64 stackElementSize
  norm_num
  omega

theorem stack_overflow_check_skip (cfg : Config) (s : Machine)
    (h : s.reg rdx % 2 ^ 32 ≤ one_page_locals cfg) :
    generate_stack_overflow_check cfg s = Run.ok () s := by
  simp only [one_page_locals, Nat.reducePow] at h
  simp [generate_stack_overflow_check, h]

theorem stack_overflow_check_compare (cfg : Config) (s : Machine)
    (h : ¬ s.reg rdx % 2 ^ 32 ≤ one_page_locals cfg)
    (hL : cfg.ASSERT = true → s.fld JavaThread_stack_overflow_limit (s.reg r15_thread) ≠ 0) :
    (stack_limit_plus_frame cfg s (s.reg rdx) < s.reg rsp →
      (generate_stack_overflow_check cfg s).exit? = none)
    ∧ (s.reg rsp ≤ stack_limit_plus_frame cfg s (s.reg rdx) →
      (generate_stack_overflow_check cfg s).exit? = some Exit.throw_StackOverflowError_entry) := by
  have hsum := stack_limit_plus_frame_eq cfg s (s.reg rdx)
  simp only [one_page_locals, Nat.reducePow] at h hsum
  by_cases hA : cfg.ASSERT = true
  · constructor
    · intro h2
      simp [generate_stack_overflow_check, mov, shlptr, addptr, pop, push, stop,
        logStackElementSize, h, hA, hL hA, hsum, h2]
    · intro h2
      simp [generate_stack_overflow_check, mov, shlptr, addptr, pop, push, stop,
        logStackElementSize, h, hA, hL hA, hsum, Nat.not_lt.mpr h2]
  · constructor
    · intro h2
      simp [generate_stack_overflow_check, mov, shlptr, addptr, pop, push, stop,
        logStackElementSize, h, hA, hsum, h2]
    · intro h2
      simp [generate_stack_overflow_check, mov, shlptr, addptr, pop, push, stop,
        logStackElementSize, h, hA, hsum, Nat.not_lt.mpr h2]

theorem stack_overflow_check_limit_matters (cfg : Config) (s : Machine)
    (hn : s.reg rdx < 2 ^ 32) (h : one_page_locals cfg < s.reg rdx) (hsp : s.reg rsp < 2 ^ 64) :
    ∃ limit, (generate_stack_overflow_check cfg
      (s.store_field JavaThread_stack_overflow_limit (s.reg r15_thread) limit)).exit? ≠ none := by
  have hmod : s.reg rdx % 2 ^ 32 = s.reg rdx := Nat.mod_eq_of_lt hn
  refine ⟨w64 ((s.reg rsp : Int) - (s.reg rdx * stackElementSize + overhead_size cfg)), ?_⟩
  generalize hl : w64 ((s.reg rsp : Int) - (s.reg rdx * stackElementSize + overhead_size cfg))
    = limit
  have hbig : ¬ (s.store_field JavaThread_stack_overflow_limit (s.reg r15_thread) limit).reg rdx
      % 2 ^ 32 ≤ one_page_locals cfg := by
    rw [store_field_reg, hmod]
    omega
  by_cases hz : cfg.ASSERT = true ∧ limit = 0
  · have h1 := hbig
    simp only [one_page_locals, store_field_reg, Nat.reducePow] at h1
    simp [generate_stack_overflow_check, mov, shlptr, addptr, stop, h1, hz.1, hz.2]
  · have hL : cfg.ASSERT = true →
        (s.store_field JavaThread_stack_overflow_limit (s.reg r15_thread) limit).fld
          JavaThread_stack_overflow_limit
          ((s.store_field JavaThread_stack_overflow_limit (s.reg r15_thread) limit).reg r15_thread)
        ≠ 0 := by
      intro hA
      simp only [store_field_fld, store_field_reg, and_self, if_true]
      exact fun h0 => hz ⟨hA, h0⟩
    have hc := (stack_overflow_check_compare cfg _ hbig hL).2
    rw [hc]
    · simp
    · simp only [stack_limit_plus_frame, store_field_fld, store_field_reg, and_self, if_true]
      rw [← hl]
      unfold w64 stackElementSize
      norm_num at hsp ⊢
      omega

/-- C11: with `n` additional locals in `rdx`, the check of lines 425-471
passes with the machine untouched, whatever the stack limit is, when
`n <= (page_size - overhead_size) / stackElementSize` (unsigned 32 bit).  For
a larger `n` the outcome depends on the limit (some limit makes the check
fail): the check passes exactly when `rsp` is strictly above
`stack_overflow_limit + n*stackElementSize + overhead_size` (unsigned 64 bit)
and takes the fault path exactly when `rsp` is at or below that sum, equality
included. -/
theorem stack_overflow_check_threshold (cfg : Config) (s : Machine)
    (hn : s.reg rdx < 2 ^ 32) (hsp : s.reg rsp < 2 ^ 64)
    (hL : cfg.ASSERT = true → s.fld JavaThread_stack_overflow_limit (s.reg r15_thread) ≠ 0) :
    (s.reg rdx ≤ one_page_locals cfg →
      ∀ limit, generate_stack_overflow_check cfg
          (s.store_field JavaThread_stack_overflow_limit (s.reg r15_thread) limit)
        = Run.ok () (s.store_field JavaThread_stack_overflow_limit (s.reg r15_thread) limit))
    ∧ (one_page_locals cfg < s.reg rdx →
      (∃ limit, (generate_stack_overflow_check cfg
          (s.store_field JavaThread_stack_overflow_limit (s.reg r15_thread) limit)).exit? ≠ none)
      ∧ ((generate_stack_overflow_check cfg s).exit? = none
          ↔ stack_limit_plus_frame cfg s (s.reg rdx) < s.reg rsp)
      ∧ ((generate_stack_overflow_check cfg s).exit? = some Exit.throw_StackOverflowError_entry
          ↔ s.reg rsp ≤ stack_limit_plus_frame cfg s (s.reg rdx))
      ∧ (s.reg rsp = stack_limit_plus_frame cfg s (s.reg rdx) →
        (generate_stack_overflow_check cfg s).exit?
          = some Exit.throw_StackOverflowError_entry)) := by
  have hmod : s.reg rdx % 2 ^ 32 = s.reg rdx := Nat.mod_eq_of_lt hn
  constructor
  · intro h limit
    apply stack_overflow_check_skip
    rw [store_field_reg, hmod]
    exact h
  · intro h
    have hc := stack_overflow_check_compare cfg s (by rw [hmod]; omega) hL
    refine ⟨stack_overflow_check_limit_matters cfg s hn h hsp, ⟨fun hx => ?_, hc.1⟩,
      ⟨fun hx => ?_, hc.2⟩, fun he => hc.2 (le_of_eq he)⟩
    · by_contra hlt
      rw [hc.2 (Nat.not_lt.mp hlt)] at hx
      exact absurd hx (by simp)
    · by_contra hlt
      rw [hc.1 (Nat.lt_of_not_le hlt)] at hx
      exact absurd hx (by simp)

/-- C11, witness: 600 additional locals (above the one-page threshold of 502)
in a product build, with `rsp` at the stack limit. -/
theorem stack_overflow_check_threshold_witness :
    (generate_stack_overflow_check linux_x86_64 ((entry_state 0 0).set rdx 600)).exit?
        = some Exit.throw_StackOverflowError_entry
      ↔ ((entry_state 0 0).set rdx 600).reg rsp
          ≤ stack_limit_plus_frame linux_x86_64 ((entry_state 0 0).set rdx 600)
            (((entry_state 0 0).set rdx 600).reg rdx) :=
  ((stack_overflow_check_threshold linux_x86_64 ((entry_state 0 0).set rdx 600)
    (by decide) (by decide) (by decide)).2 (by decide)).2.2.1

/-! ## Stack overflow check: the fault path of the interpreted entry -/

theorem stack_overflow_check_fault_state (cfg : Config) (s : Machine)
    (h : (generate_stack_overflow_check cfg s).exit? = some Exit.throw_StackOverflowError_entry) :
    (generate_stack_overflow_check cfg s).state.reg rsp = ea (s.reg rbcp) (-(wordSize : Int))
    ∧ (generate_stack_overflow_check cfg s).state.mem (ea (s.reg rbcp) (-(wordSize : Int)))
        = s.mem (s.reg rsp)
    ∧ (generate_stack_overflow_check cfg s).state.reg rbp = s.reg rbp
    ∧ (generate_stack_overflow_check cfg s).state.trace
        = s.trace ++ [Event.push (s.mem (s.reg rsp))] := by
  by_cases h1 : s.reg rdx % 4294967296 ≤ w32 ((cfg.page_size - overhead_size cfg).tdiv 8)
  · simp [generate_stack_overflow_check, stackElementSize, h1] at h
  · by_cases h2 : (s.reg rdx * 8 + w64 (overhead_size cfg)
        + s.fld JavaThread_stack_overflow_limit (s.reg r15_thread)) % 18446744073709551616
          < s.reg rsp <;> by_cases hA : cfg.ASSERT = true
    · by_cases hz : s.fld JavaThread_stack_overflow_limit (s.reg r15_thread) = 0
      · simp [generate_stack_overflow_check, mov, shlptr, addptr, pop, push, stop,
          logStackElementSize, stackElementSize, h1, hA, hz] at h
      · simp [generate_stack_overflow_check, mov, shlptr, addptr, pop, push, stop,
          logStackElementSize, stackElementSize, h1, hA, hz, h2] at h
    · simp [generate_stack_overflow_check, mov, shlptr, addptr, pop, push, stop,
        logStackElementSize, stackElementSize, h1, hA, h2] at h
    · by_cases hz : s.fld JavaThread_stack_overflow_limit (s.reg r15_thread) = 0
      · simp [generate_stack_overflow_check, mov, shlptr, addptr, pop, push, stop,
          logStackElementSize, stackElementSize, h1, hA, hz] at h
      · simp [generate_stack_overflow_check, mov, shlptr, addptr, pop, push, stop,
          logStackElementSize, stackElementSize, h1, hA, hz, h2]
    · simp [generate_stack_overflow_check, mov, shlptr, addptr, pop, push, stop,
        logStackElementSize, stackElementSize, h1, hA, h2]

/-- C12: when the stack overflow check inside `generate_normal_entry` takes
its fault path, the entry leaves to the shared StackOverflowError stub with
`rsp = sender_sp - wordSize` (the sender sp is the value of `rbcp` at entry),
the word at `rsp` is the return address that was on top of the stack at
entry, `rbp` is unchanged, and that return address is the only word pushed:
neither a local slot nor a word of the fixed frame has been pushed. -/
theorem normal_entry_fault_path (cfg : Config) (env : Env) (synchronized : Bool) (s : Machine)
    (h : (generate_stack_overflow_check cfg (normal_entry_sizes s).state).exit?
      = some Exit.throw_StackOverflowError_entry) :
    (generate_normal_entry cfg env synchronized s).exit?
      = some Exit.throw_StackOverflowError_entry
    ∧ (generate_normal_entry cfg env synchronized s).state.reg rsp
      = ea (s.reg rbcp) (-(wordSize : Int))
    ∧ (generate_normal_entry cfg env synchronized s).state.mem
        ((generate_normal_entry cfg env synchronized s).state.reg rsp) = s.mem (s.reg rsp)
    ∧ (generate_normal_entry cfg env synchronized s).state.reg rbp = s.reg rbp
    ∧ (generate_normal_entry cfg env synchronized s).state.trace
      = s.trace ++ [Event.push (s.mem (s.reg rsp))] := by
  have hs := normal_entry_sizes_run s
  generalize hs4 : (((s.set rdx (s.fld Method_const (s.reg rbx))).set rcx
        (s.fld ConstMethod_size_of_parameters (s.fld Method_const (s.reg rbx)) % 2 ^ 16)).set rdx
        (s.fld ConstMethod_size_of_locals (s.fld Method_const (s.reg rbx)) % 2 ^ 16)).set rdx
        (additional_locals s) = s4 at hs
  rw [hs, state_ok] at h
  obtain ⟨f1, f2, f3, f4⟩ := stack_overflow_check_fault_state cfg s4 h
  have hframe : normal_entry_frame cfg env s
      = Run.leave Exit.throw_StackOverflowError_entry
          (generate_stack_overflow_check cfg s4).state := by
    simp only [normal_entry_frame, run_bind, hs]
    exact bind_of_exit h
  have hrun : generate_normal_entry cfg env synchronized s
      = Run.leave Exit.throw_StackOverflowError_entry
          (generate_stack_overflow_check cfg s4).state := by
    simp only [generate_normal_entry, run_bind, hframe]
  rw [hrun]
  simp only [state_leave]
  refine ⟨rfl, ?_, ?_, ?_, ?_⟩
  · rw [f1]; simp [← hs4]
  · rw [f1, f2]; simp [← hs4]
  · rw [f3]; simp [← hs4]
  · rw [f4]; simp [← hs4]

/-- C12, witness: 600 additional locals on a stack whose pointer sits at the
limit. -/
theorem normal_entry_fault_path_witness :
    (generate_normal_entry linux_x86_64 idle_env false (entry_state 600 0)).exit?
      = some Exit.throw_StackOverflowError_entry
    ∧ (generate_normal_entry linux_x86_64 idle_env false (entry_state 600 0)).state.reg rsp
      = ea ((entry_state 600 0).reg rbcp) (-(wordSize : Int))
    ∧ (generate_normal_entry linux_x86_64 idle_env false (entry_state 600 0)).state.mem
        ((generate_normal_entry linux_x86_64 idle_env false (entry_state 600 0)).state.reg rsp)
      = (entry_state 600 0).mem ((entry_state 600 0).reg rsp)
    ∧ (generate_normal_entry linux_x86_64 idle_env false (entry_state 600 0)).state.reg rbp
      = (entry_state 600 0).reg rbp
    ∧ (generate_normal_entry linux_x86_64 idle_env false (entry_state 600 0)).state.trace
      = (entry_state 600 0).trace
        ++ [Event.push ((entry_state 600 0).mem ((entry_state 600 0).reg rsp))] :=
  normal_entry_fault_path linux_x86_64 idle_env false (entry_state 600 0) (by decide)

/-! ## Invocation counter: which counter, and where control continues -/

theorem increment_mask_and_jump_run (cfg : Config) (base : Register) (counter mask : Field)
    (s : Machine) (hb : base ≠ rcx) :
    (increment_mask_and_jump cfg base counter mask rcx s).state.trace
      = s.trace ++ [Event.store_field counter (s.reg base)
          (incremented cfg (s.fld counter (s.reg base)))]
    ∧ (increment_mask_and_jump cfg base counter mask rcx s).val?
      = some (overflows cfg (s.fld counter (s.reg base))
          (if mask = counter then incremented cfg (s.fld counter (s.reg base))
            else s.fld mask (s.reg base))) := by
  by_cases hm : mask = counter <;>
    simp [increment_mask_and_jump, movl, movl_fld, Run.val?, incremented, overflows, hb, hm]

/-- C16: whatever `InterpreterRuntime::frequency_counter_overflow` returns,
the code of `generate_counter_overflow` calls it with 0 as the branch bcp
and emits nothing else; it leaves only by forwarding a pending exception
(inside `call_VM`), never through a jump to an address; and when the call
leaves no exception pending it falls through to `do_continue` with `rbx`
reloaded from the frame's method slot. -/
theorem counter_overflow_continues (cfg : Config) (env : Env) (s : Machine) :
    (generate_counter_overflow cfg env s).state.trace
      = s.trace ++ [Event.call Callee.frequency_counter_overflow [0]]
    ∧ ((generate_counter_overflow cfg env s).exit? = none
      ∨ (generate_counter_overflow cfg env s).exit? = some Exit.forward_exception)
    ∧ (∀ a, (generate_counter_overflow cfg env s).exit? ≠ some (Exit.jmp a))
    ∧ ((after_frequency_counter_overflow cfg env s).fld Thread_pending_exception
          ((after_frequency_counter_overflow cfg env s).reg r15_thread) = 0 →
      (generate_counter_overflow cfg env s).exit? = none
      ∧ (generate_counter_overflow cfg env s).state.reg rbx
        = (after_frequency_counter_overflow cfg env s).mem
            (ea ((after_frequency_counter_overflow cfg env s).reg rbp)
              (cfg.interpreter_frame_method_offset * wordSize))
      ∧ (generate_counter_overflow cfg env s).state.mem
        = (after_frequency_counter_overflow cfg env s).mem
      ∧ ∀ r, r ≠ rbx → (generate_counter_overflow cfg env s).state.reg r
        = (after_frequency_counter_overflow cfg env s).reg r) := by
  by_cases hp : (after_frequency_counter_overflow cfg env s).fld Thread_pending_exception
      ((after_frequency_counter_overflow cfg env s).reg r15_thread) = 0
  · simp only [after_frequency_counter_overflow, call_fld, call_reg] at hp
    simp only [after_frequency_counter_overflow]
    simp [generate_counter_overflow, call_VM, call, movl, mov, hp]
    intro r hr
    simp [hr]
  · simp only [after_frequency_counter_overflow, call_fld, call_reg] at hp
    simp only [after_frequency_counter_overflow]
    simp [generate_counter_overflow, call_VM, call, movl, mov, hp]

/-- C16, witness: a call that leaves no exception pending. -/
theorem counter_overflow_continues_witness :
    (generate_counter_overflow linux_x86_64 idle_env (entry_state 0 0)).exit? = none
    ∧ (generate_counter_overflow linux_x86_64 idle_env (entry_state 0 0)).state.reg rbx
      = (after_frequency_counter_overflow linux_x86_64 idle_env (entry_state 0 0)).mem
          (ea ((after_frequency_counter_overflow linux_x86_64 idle_env (entry_state 0 0)).reg rbp)
            (linux_x86_64.interpreter_frame_method_offset * wordSize))
    ∧ (generate_counter_overflow linux_x86_64 idle_env (entry_state 0 0)).state.mem
      = (after_frequency_counter_overflow linux_x86_64 idle_env (entry_state 0 0)).mem
    ∧ ∀ r, r ≠ rbx → (generate_counter_overflow linux_x86_64 idle_env (entry_state 0 0)).state.reg r
      = (after_frequency_counter_overflow linux_x86_64 idle_env (entry_state 0 0)).reg r :=
  (counter_overflow_continues linux_x86_64 idle_env (entry_state 0 0)).2.2.2 (by decide)

theorem counter_incr_without_mdo (cfg : Config) (env : Env) (s : Machine)
    (hno : ¬ (cfg.ProfileInterpreter = true ∧ s.fld Method_method_data (s.reg rbx) ≠ 0)) :
    generate_counter_incr cfg env s
      = if env.branch Callee.get_method_counters (after_get_method_counters cfg env s) = true
        then Run.ok false (after_get_method_counters cfg env s)
        else increment_mask_and_jump cfg rax MethodCounters_invocation_counter
          MethodCounters_invoke_mask rcx (after_get_method_counters cfg env s) := by
  by_cases hP : cfg.ProfileInterpreter = true
  · have hm : s.fld Method_method_data (s.reg rbx) = 0 := by
      by_contra hm
      exact hno ⟨hP, hm⟩
    simp [generate_counter_incr, after_get_method_counters, mov, call, hP, hm]
  · simp [generate_counter_incr, after_get_method_counters, mov, call, hP]

theorem after_get_method_counters_trace (cfg : Config) (env : Env) (s : Machine) :
    (after_get_method_counters cfg env s).trace
      = s.trace ++ [Event.call Callee.get_method_counters [s.reg rbx]] := by
  by_cases hP : cfg.ProfileInterpreter = true <;> simp [after_get_method_counters, hP]

/-- C17: one run of `generate_counter_incr` writes at most one counter.  With
`ProfileInterpreter` on and a non-null `MethodData*` it is the `MethodData`
invocation counter, tested against the `MethodData` invoke mask, and
`get_method_counters` is not called.  Otherwise `get_method_counters` is
called; when it takes its skip label nothing is written and no overflow is
reported, and when it does not, the `MethodCounters` invocation counter is
written and tested against the `MethodCounters` invoke mask. -/
theorem counter_incr_selects_counter (cfg : Config) (env : Env) (s : Machine) :
    (cfg.ProfileInterpreter = true ∧ s.fld Method_method_data (s.reg rbx) ≠ 0 →
      (generate_counter_incr cfg env s).state.trace
        = s.trace ++ [Event.store_field MethodData_invocation_counter
            (s.fld Method_method_data (s.reg rbx))
            (incremented cfg (s.fld MethodData_invocation_counter
              (s.fld Method_method_data (s.reg rbx))))]
      ∧ (generate_counter_incr cfg env s).val?
        = some (overflows cfg
            (s.fld MethodData_invocation_counter (s.fld Method_method_data (s.reg rbx)))
            (s.fld MethodData_invoke_mask (s.fld Method_method_data (s.reg rbx)))))
    ∧ (¬ (cfg.ProfileInterpreter = true ∧ s.fld Method_method_data (s.reg rbx) ≠ 0) →
      (env.branch Callee.get_method_counters (after_get_method_counters cfg env s) = true →
        (generate_counter_incr cfg env s).state.trace
          = s.trace ++ [Event.call Callee.get_method_counters [s.reg rbx]]
        ∧ (generate_counter_incr cfg env s).val? = some false)
      ∧ (env.branch Callee.get_method_counters (after_get_method_counters cfg env s) = false →
        (generate_counter_incr cfg env s).state.trace
          = s.trace ++ [Event.call Callee.get_method_counters [s.reg rbx],
              Event.store_field MethodCounters_invocation_counter
                ((after_get_method_counters cfg env s).reg rax)
                (incremented cfg ((after_get_method_counters cfg env s).fld
                  MethodCounters_invocation_counter
                  ((after_get_method_counters cfg env s).reg rax)))]
        ∧ (generate_counter_incr cfg env s).val?
          = some (overflows cfg
              ((after_get_method_counters cfg env s).fld MethodCounters_invocation_counter
                ((after_get_method_counters cfg env s).reg rax))
              ((after_get_method_counters cfg env s).fld MethodCounters_invoke_mask
                ((after_get_method_counters cfg env s).reg rax))))) := by
  constructor
  · rintro ⟨hP, hm⟩
    have h := increment_mask_and_jump_run cfg rax MethodData_invocation_counter
      MethodData_invoke_mask (s.set rax (s.fld Method_method_data (s.reg rbx))) (by decide)
    have hrun : generate_counter_incr cfg env s
        = increment_mask_and_jump cfg rax MethodData_invocation_counter
            MethodData_invoke_mask rcx (s.set rax (s.fld Method_method_data (s.reg rbx))) := by
      simp [generate_counter_incr, mov, hP, hm]
    rw [hrun]
    simpa using h
  · intro hno
    have h := increment_mask_and_jump_run cfg rax MethodCounters_invocation_counter
      MethodCounters_invoke_mask (after_get_method_counters cfg env s) (by decide)
    rw [counter_incr_without_mdo cfg env s hno]
    constructor
    · intro hb
      rw [if_pos hb]
      exact ⟨after_get_method_counters_trace cfg env s, rfl⟩
    · intro hb
      rw [if_neg (by rw [hb]; decide), h.1, h.2, after_get_method_counters_trace]
      simp

/-- C17, witness: a product build without `ProfileInterpreter`, where
`get_method_counters` does not take its skip label. -/
theorem counter_incr_selects_counter_witness :
    (generate_counter_incr linux_x86_64 idle_env (entry_state 0 0)).state.trace
      = (entry_state 0 0).trace
        ++ [Event.call Callee.get_method_counters [(entry_state 0 0).reg rbx],
          Event.store_field MethodCounters_invocation_counter
            ((after_get_method_counters linux_x86_64 idle_env (entry_state 0 0)).reg rax)
            (incremented linux_x86_64
              ((after_get_method_counters linux_x86_64 idle_env (entry_state 0 0)).fld
                MethodCounters_invocation_counter
                ((after_get_method_counters linux_x86_64 idle_env (entry_state 0 0)).reg rax)))]
    ∧ (generate_counter_incr linux_x86_64 idle_env (entry_state 0 0)).val?
      = some (overflows linux_x86_64
          ((after_get_method_counters linux_x86_64 idle_env (entry_state 0 0)).fld
            MethodCounters_invocation_counter
            ((after_get_method_counters linux_x86_64 idle_env (entry_state 0 0)).reg rax))
          ((after_get_method_counters linux_x86_64 idle_env (entry_state 0 0)).fld
            MethodCounters_invoke_mask
            ((after_get_method_counters linux_x86_64 idle_env (entry_state 0 0)).reg rax))) :=
  ((counter_incr_selects_counter linux_x86_64 idle_env (entry_state 0 0)).2 (by decide)).2 rfl

/-! ## Method lock: target object and monitor record -/

theorem subptr_imm_eq (x : Nat) (y : Int) : w64 ((x : Int) - (w64 y : Nat)) = ea x (-y) := by
  unfold ea w64
  norm_num
  omega

theorem poll_push (v : Nat) : poll_quiet (Event.push v) := rfl
theorem poll_store (a v : Nat) : poll_quiet (Event.store a v) := rfl
theorem poll_bang (a : Nat) : poll_quiet (Event.bang a) := rfl

theorem poll_call (c : Callee) (h : (c == Callee.safepoint_poll) = false) (a : List Nat) :
    poll_quiet (Event.call c a) := by
  have hc : c ≠ Callee.safepoint_poll := by
    intro hc
    rw [hc] at h
    exact absurd h (by decide)
  unfold poll_quiet poll_mark
  split <;> simp_all

theorem poll_store_field (f : Field) (h : (f == JavaThread_thread_state) = false) (a v : Nat) :
    poll_quiet (Event.store_field f a v) := by
  have hf : f ≠ JavaThread_thread_state := by
    intro hf
    rw [hf] at h
    exact absurd h (by decide)
  unfold poll_quiet poll_mark
  split <;> simp_all

theorem native_entry_frame_poll_quiet (cfg : Config) (env : Env) :
    Appends poll_quiet (native_entry_frame cfg env) := by
  unfold native_entry_frame native_entry_frame_start native_entry_frame_checks
    generate_fixed_frame fixed_frame_mdp fixed_frame_bcp
  repeat' (with_reducible first
    | exact Appends.pure _ | exact Appends.get | exact Appends.exit _ | exact Appends.stop _
    | exact Appends.mov _ _ | exact Appends.movl _ _ | exact Appends.load_unsigned_short _ _
    | exact Appends.pop _ | exact Appends.addptr _ _ | exact Appends.subptr _ _
    | exact Appends.shlptr _ _ | exact Appends.shrptr _ _ | exact Appends.shll _ _
    | exact Appends.subl _ _ | exact Appends.orl _ _ | exact Appends.andptr _ _
    | exact Appends.get_method _ _ | exact Appends.restore_bcp _ | exact Appends.restore_locals _
    | exact Appends.jmp_reg _ | exact Appends.leave | exact Appends.pop_ltos
    | exact Appends.pop_dtos | exact Appends.assert_frame_setup _ _
    | exact Appends.silent _ (fun _ => rfl)
    | exact Appends.enter poll_push
    | exact Appends.push _ poll_push
    | exact Appends.push_ltos poll_store
    | exact Appends.push_dtos poll_store
    | exact Appends.movptr_to _ _ _ poll_store
    | exact Appends.subptr_mem _ _ _ poll_store
    | exact Appends.movptr_fld _ _ _ (poll_store_field _ (by decide))
    | exact Appends.movl_fld _ _ _ (poll_store_field _ (by decide))
    | exact Appends.movbool _ _ _ (poll_store_field _ (by decide))
    | exact Appends.call _ _ _ (poll_call _ (by decide))
    | exact Appends.call_VM _ _ _ (poll_call _ (by decide))
    | exact Appends.vm_routine _ _ _ (poll_call _ (by decide))
    | exact Appends.load_mirror _ _ _ _ (poll_call _ (by decide))
    | exact bang_pages_appends _ poll_bang _ _
    | apply Appends.bind | apply Appends.ite | intro _)

theorem native_entry_count_bang_lock_poll_quiet (cfg : Config) (env : Env) (b : Bool) :
    Appends poll_quiet (native_entry_count_bang_lock cfg env b) := by
  unfold native_entry_count_bang_lock generate_counter_incr increment_mask_and_jump
    generate_counter_overflow bang_stack_shadow_pages lock_method
  repeat' (with_reducible first
    | exact Appends.pure _ | exact Appends.get | exact Appends.exit _ | exact Appends.stop _
    | exact Appends.mov _ _ | exact Appends.movl _ _ | exact Appends.load_unsigned_short _ _
    | exact Appends.pop _ | exact Appends.addptr _ _ | exact Appends.subptr _ _
    | exact Appends.shlptr _ _ | exact Appends.shrptr _ _ | exact Appends.shll _ _
    | exact Appends.subl _ _ | exact Appends.orl _ _ | exact Appends.andptr _ _
    | exact Appends.get_method _ _ | exact Appends.restore_bcp _ | exact Appends.restore_locals _
    | exact Appends.jmp_reg _ | exact Appends.leave | exact Appends.pop_ltos
    | exact Appends.pop_dtos | exact Appends.assert_frame_setup _ _
    | exact Appends.silent _ (fun _ => rfl)
    | exact Appends.enter poll_push
    | exact Appends.push _ poll_push
    | exact Appends.push_ltos poll_store
    | exact Appends.push_dtos poll_store
    | exact Appends.movptr_to _ _ _ poll_store
    | exact Appends.subptr_mem _ _ _ poll_store
    | exact Appends.movptr_fld _ _ _ (poll_store_field _ (by decide))
    | exact Appends.movl_fld _ _ _ (poll_store_field _ (by decide))
    | exact Appends.movbool _ _ _ (poll_store_field _ (by decide))
    | exact Appends.call _ _ _ (poll_call _ (by decide))
    | exact Appends.call_VM _ _ _ (poll_call _ (by decide))
    | exact Appends.vm_routine _ _ _ (poll_call _ (by decide))
    | exact Appends.load_mirror _ _ _ _ (poll_call _ (by decide))
    | exact bang_pages_appends _ poll_bang _ _
    | apply Appends.bind | apply Appends.ite | intro _)

theorem native_entry_prepare_poll_quiet (cfg : Config) (env : Env) :
    Appends poll_quiet (native_entry_prepare cfg env) := by
  unfold native_entry_prepare native_entry_param_area
  repeat' (with_reducible first
    | exact Appends.pure _ | exact Appends.get | exact Appends.exit _ | exact Appends.stop _
    | exact Appends.mov _ _ | exact Appends.movl _ _ | exact Appends.load_unsigned_short _ _
    | exact Appends.pop _ | exact Appends.addptr _ _ | exact Appends.subptr _ _
    | exact Appends.shlptr _ _ | exact Appends.shrptr _ _ | exact Appends.shll _ _
    | exact Appends.subl _ _ | exact Appends.orl _ _ | exact Appends.andptr _ _
    | exact Appends.get_method _ _ | exact Appends.restore_bcp _ | exact Appends.restore_locals _
    | exact Appends.jmp_reg _ | exact Appends.leave | exact Appends.pop_ltos
    | exact Appends.pop_dtos | exact Appends.assert_frame_setup _ _
    | exact Appends.silent _ (fun _ => rfl)
    | exact Appends.enter poll_push
    | exact Appends.push _ poll_push
    | exact Appends.push_ltos poll_store
    | exact Appends.push_dtos poll_store
    | exact Appends.movptr_to _ _ _ poll_store
    | exact Appends.subptr_mem _ _ _ poll_store
    | exact Appends.movptr_fld _ _ _ (poll_store_field _ (by decide))
    | exact Appends.movl_fld _ _ _ (poll_store_field _ (by decide))
    | exact Appends.movbool _ _ _ (poll_store_field _ (by decide))
    | exact Appends.call _ _ _ (poll_call _ (by decide))
    | exact Appends.call_VM _ _ _ (poll_call _ (by decide))
    | exact Appends.vm_routine _ _ _ (poll_call _ (by decide))
    | exact Appends.load_mirror _ _ _ _ (poll_call _ (by decide))
    | exact bang_pages_appends _ poll_bang _ _
    | apply Appends.bind | apply Appends.ite | intro _)

theorem native_entry_assert_poll_quiet (cfg : Config) :
    Appends poll_quiet (native_entry_assert_thread_state cfg) := by
  unfold native_entry_assert_thread_state
  repeat' (with_reducible first
    | exact Appends.pure _ | exact Appends.get | exact Appends.exit _ | exact Appends.stop _
    | exact Appends.mov _ _ | exact Appends.movl _ _ | exact Appends.load_unsigned_short _ _
    | exact Appends.pop _ | exact Appends.addptr _ _ | exact Appends.subptr _ _
    | exact Appends.shlptr _ _ | exact Appends.shrptr _ _ | exact Appends.shll _ _
    | exact Appends.subl _ _ | exact Appends.orl _ _ | exact Appends.andptr _ _
    | exact Appends.get_method _ _ | exact Appends.restore_bcp _ | exact Appends.restore_locals _
    | exact Appends.jmp_reg _ | exact Appends.leave | exact Appends.pop_ltos
    | exact Appends.pop_dtos | exact Appends.assert_frame_setup _ _
    | exact Appends.silent _ (fun _ => rfl)
    | exact Appends.enter poll_push
    | exact Appends.push _ poll_push
    | exact Appends.push_ltos poll_store
    | exact Appends.push_dtos poll_store
    | exact Appends.movptr_to _ _ _ poll_store
    | exact Appends.subptr_mem _ _ _ poll_store
    | exact Appends.movptr_fld _ _ _ (poll_store_field _ (by decide))
    | exact Appends.movl_fld _ _ _ (poll_store_field _ (by decide))
    | exact Appends.movbool _ _ _ (poll_store_field _ (by decide))
    | exact Appends.call _ _ _ (poll_call _ (by decide))
    | exact Appends.call_VM _ _ _ (poll_call _ (by decide))
    | exact Appends.vm_routine _ _ _ (poll_call _ (by decide))
    | exact Appends.load_mirror _ _ _ _ (poll_call _ (by decide))
    | exact bang_pages_appends _ poll_bang _ _
    | apply Appends.bind | apply Appends.ite | intro _)

theorem native_entry_unlink_poll_quiet (cfg : Config) (env : Env) :
    Appends poll_quiet (native_entry_unlink cfg env) := by
  unfold native_entry_unlink native_entry_oop_result
  repeat' (with_reducible first
    | exact Appends.pure _ | exact Appends.get | exact Appends.exit _ | exact Appends.stop _
    | exact Appends.mov _ _ | exact Appends.movl _ _ | exact Appends.load_unsigned_short _ _
    | exact Appends.pop _ | exact Appends.addptr _ _ | exact Appends.subptr _ _
    | exact Appends.shlptr _ _ | exact Appends.shrptr _ _ | exact Appends.shll _ _
    | exact Appends.subl _ _ | exact Appends.orl _ _ | exact Appends.andptr _ _
    | exact Appends.get_method _ _ | exact Appends.restore_bcp _ | exact Appends.restore_locals _
    | exact Appends.jmp_reg _ | exact Appends.leave | exact Appends.pop_ltos
    | exact Appends.pop_dtos | exact Appends.assert_frame_setup _ _
    | exact Appends.silent _ (fun _ => rfl)
    | exact Appends.enter poll_push
    | exact Appends.push _ poll_push
    | exact Appends.push_ltos poll_store
    | exact Appends.push_dtos poll_store
    | exact Appends.movptr_to _ _ _ poll_store
    | exact Appends.subptr_mem _ _ _ poll_store
    | exact Appends.movptr_fld _ _ _ (poll_store_field _ (by decide))
    | exact Appends.movl_fld _ _ _ (poll_store_field _ (by decide))
    | exact Appends.movbool _ _ _ (poll_store_field _ (by decide))
    | exact Appends.call _ _ _ (poll_call _ (by decide))
    | exact Appends.call_VM _ _ _ (poll_call _ (by decide))
    | exact Appends.vm_routine _ _ _ (poll_call _ (by decide))
    | exact Appends.load_mirror _ _ _ _ (poll_call _ (by decide))
    | exact bang_pages_appends _ poll_bang _ _
    | apply Appends.bind | apply Appends.ite | intro _)

theorem native_entry_finish_poll_quiet (cfg : Config) (env : Env) :
    Appends poll_quiet (native_entry_finish cfg env) := by
  unfold native_entry_finish native_entry_pending_exception native_entry_unlock
    native_entry_return
  repeat' (with_reducible first
    | exact Appends.pure _ | exact Appends.get | exact Appends.exit _ | exact Appends.stop _
    | exact Appends.mov _ _ | exact Appends.movl _ _ | exact Appends.load_unsigned_short _ _
    | exact Appends.pop _ | exact Appends.addptr _ _ | exact Appends.subptr _ _
    | exact Appends.shlptr _ _ | exact Appends.shrptr _ _ | exact Appends.shll _ _
    | exact Appends.subl _ _ | exact Appends.orl _ _ | exact Appends.andptr _ _
    | exact Appends.get_method _ _ | exact Appends.restore_bcp _ | exact Appends.restore_locals _
    | exact Appends.jmp_reg _ | exact Appends.leave | exact Appends.pop_ltos
    | exact Appends.pop_dtos | exact Appends.assert_frame_setup _ _
    | exact Appends.silent _ (fun _ => rfl)
    | exact Appends.enter poll_push
    | exact Appends.push _ poll_push
    | exact Appends.push_ltos poll_store
    | exact Appends.push_dtos poll_store
    | exact Appends.movptr_to _ _ _ poll_store
    | exact Appends.subptr_mem _ _ _ poll_store
    | exact Appends.movptr_fld _ _ _ (poll_store_field _ (by decide))
    | exact Appends.movl_fld _ _ _ (poll_store_field _ (by decide))
    | exact Appends.movbool _ _ _ (poll_store_field _ (by decide))
    | exact Appends.call _ _ _ (poll_call _ (by decide))
    | exact Appends.call_VM _ _ _ (poll_call _ (by decide))
    | exact Appends.vm_routine _ _ _ (poll_call _ (by decide))
    | exact Appends.load_mirror _ _ _ _ (poll_call _ (by decide))
    | exact bang_pages_appends _ poll_bang _ _
    | apply Appends.bind | apply Appends.ite | intro _)

theorem poll_quiet_bind {α β : Type} {M : List PollMark} {x : Asm α} {f : α → Asm β}
    (hx : Appends poll_quiet x) (hf : ∀ a, Shape poll_mark M (f a)) :
    Shape poll_mark M (x >>= f) :=
  Shape.bind_quiet hx hf

theorem poll_state_last (b : Register) (v : Nat) :
    Shape poll_mark [PollMark.state (v % 2 ^ 32)]
      (movl_fld b JavaThread_thread_state (fun _ => v)) :=
  Shape.one _ fun s => ⟨Event.store_field JavaThread_thread_state (s.reg b) (v % 2 ^ 32), rfl, rfl⟩

theorem poll_state_bind {β : Type} {M : List PollMark} (b : Register) (v : Nat)
    {f : Unit → Asm β} (hf : ∀ a, Shape poll_mark M (f a)) :
    Shape poll_mark (PollMark.state (v % 2 ^ 32) :: M)
      (movl_fld b JavaThread_thread_state (fun _ => v) >>= f) :=
  Shape.shape_bind (poll_state_last b v) hf

theorem poll_barrier_bind {β : Type} {M : List PollMark} (cfg : Config)
    {f : Unit → Asm β} (hf : ∀ a, Shape poll_mark M (f a)) :
    Shape poll_mark ((if cfg.UseSystemMemoryBarrier then [] else [PollMark.barrier]) ++ M)
      ((if !cfg.UseSystemMemoryBarrier then membar else pure ()) >>= f) := by
  by_cases h : cfg.UseSystemMemoryBarrier = true
  · simp only [h, if_true, Bool.not_true, List.nil_append]
    exact Shape.bind_quiet (Appends.pure _) hf
  · simp only [Bool.not_eq_true] at h
    simp only [h, Bool.not_false, if_true]
    exact Shape.shape_bind (Shape.one _ fun s => ⟨Event.membar, rfl, rfl⟩) hf

theorem poll_call_bind {β : Type} {M : List PollMark} (env : Env)
    (args : List (Machine → Nat)) {f : Unit → Asm β} (hf : ∀ a, Shape poll_mark M (f a)) :
    Shape poll_mark (PollMark.poll :: M) (call env Callee.safepoint_poll args >>= f) :=
  Shape.shape_bind (M := [PollMark.poll])
    (Shape.one _ fun s => ⟨Event.call Callee.safepoint_poll
      (List.map (fun (a : Machine → Nat) => a s) args), rfl, rfl⟩) hf

theorem native_entry_transition_poll_shape (cfg : Config) (env : Env) :
    Shape poll_mark (poll_sequence cfg) (native_entry_transition cfg env) := by
  unfold native_entry_transition poll_sequence
  repeat' (with_reducible first
    | exact poll_state_last _ _
    | apply poll_state_bind
    | apply poll_barrier_bind
    | apply poll_call_bind
    | exact Appends.pure _ | exact Appends.get
    | exact Appends.mov _ _ | exact Appends.subptr _ _ | exact Appends.andptr _ _
    | exact Appends.push_ltos poll_store
    | exact Appends.push_dtos poll_store
    | exact Appends.call _ _ _ (poll_call _ (by decide))
    | apply poll_quiet_bind
    | apply Appends.bind | apply Appends.ite | intro _)

theorem native_entry_poll_marks (cfg : Config) (env : Env) (synchronized : Bool) :
    NoneOrAll poll_mark (poll_sequence cfg) (generate_native_entry cfg env synchronized) :=
  NoneOrAll.none_quiet_bind (native_entry_frame_poll_quiet cfg env) fun _ =>
  NoneOrAll.none_quiet_bind (native_entry_count_bang_lock_poll_quiet cfg env synchronized) fun _ =>
  NoneOrAll.none_quiet_bind (native_entry_prepare_poll_quiet cfg env) fun _ =>
  NoneOrAll.none_then_quiet
    (AllOrLeave.all_quiet_bind (native_entry_assert_poll_quiet cfg) fun _ =>
      AllOrLeave.of_shape_falls (native_entry_transition_poll_shape cfg env)
        (native_entry_transition_falls cfg env)) fun _ =>
    Appends.bind (native_entry_unlink_poll_quiet cfg env) fun _ =>
      native_entry_finish_poll_quiet cfg env

/-- C13 (as amended): in every run of the native entry the poll marks
(stores to the thread state, memory barriers, safepoint polls) are either
absent, when control left before the native call, or exactly: the store of
`_thread_in_native`, the store of `_thread_in_native_trans`, then one memory
barrier when `UseSystemMemoryBarrier` is off and none when it is on, then the
safepoint poll (whose test of `suspend_flags` follows it), then the store of
`_thread_in_Java`. -/
theorem native_barrier_before_poll (cfg : Config) (env : Env) (synchronized : Bool)
    (s : Machine) :
    ∃ evs, (generate_native_entry cfg env synchronized s).state.trace = s.trace ++ evs
      ∧ (poll_marks evs = [] ∨ poll_marks evs = poll_sequence cfg) :=
  native_entry_poll_marks cfg env synchronized s

set_option maxRecDepth 100000 in
/-- C13, counterexample to the claim as stated: with `UseSystemMemoryBarrier`
on, a native method entered at stack pointer `0x100000` stores
`_thread_in_native_trans` (5) and polls for a safepoint with no memory
barrier in between, nor anywhere else in the run. -/
theorem native_poll_without_barrier :
    poll_marks (generate_native_entry linux_x86_64_system_barrier idle_env false
        (entry_state 0 0x100)).state.trace
      = [PollMark.state 4, PollMark.state 5, PollMark.poll, PollMark.state 8] := by
  decide

/-! ## Native entry: oop result -/

theorem ea_add_sub (x : Nat) (h : x < 2 ^ 64) : ea ((x + 16) % 2 ^ 64) (-16) = x := by
  unfold ea w64
  norm_num at h ⊢
  omega

theorem w64_sub_eq_ea (x : Nat) (y : Int) : w64 ((x : Int) - y) = ea x (-y) := by
  unfold ea
  rw [sub_eq_add_neg]

/-- C19: the code of lines 1038-1056 always falls through.  When the frame's
result-handler slot equals `AbstractInterpreter::result_handler(T_OBJECT)` it
calls `resolve_jobject` on the raw result popped from the saved-result area,
stores what `resolve_jobject` leaves in `rax` into the frame's oop-temp slot,
and pushes the result back, so that the stack pointer is where it was
(`resolve_jobject` keeping `rsp`).  For every other result handler it stores
nothing: memory, trace and stack pointer are unchanged. -/
theorem oop_result_stored_iff (cfg : Config) (env : Env) (s : Machine)
    (hsp : s.reg rsp < 2 ^ 64) :
    (native_entry_oop_result cfg env s).exit? = none
    ∧ (s.mem (ea (s.reg rbp) (cfg.interpreter_frame_result_handler_offset * wordSize))
          = cfg.result_handler_T_OBJECT →
        (native_entry_oop_result cfg env s).state.trace
          = s.trace ++ [Event.call Callee.resolve_jobject [s.mem (ea (s.reg rsp) 0)],
              Event.store (ea ((after_resolve_jobject cfg env s).reg rbp)
                  (cfg.interpreter_frame_oop_temp_offset * wordSize))
                ((after_resolve_jobject cfg env s).reg rax),
              Event.store (ea ((after_resolve_jobject cfg env s).reg rsp) (-16))
                ((after_resolve_jobject cfg env s).reg rax),
              Event.store (ea ((after_resolve_jobject cfg env s).reg rsp) (-8)) 0]
        ∧ ((after_resolve_jobject cfg env s).reg rsp = (s.reg rsp + 16) % 2 ^ 64 →
            (native_entry_oop_result cfg env s).state.reg rsp = s.reg rsp))
    ∧ (s.mem (ea (s.reg rbp) (cfg.interpreter_frame_result_handler_offset * wordSize))
          ≠ cfg.result_handler_T_OBJECT →
        (native_entry_oop_result cfg env s).state.trace = s.trace
        ∧ (native_entry_oop_result cfg env s).state.mem = s.mem
        ∧ (native_entry_oop_result cfg env s).state.reg rsp = s.reg rsp) := by
  have h16 : w64 16 = 16 := by decide
  by_cases h : s.mem (ea (s.reg rbp) (cfg.interpreter_frame_result_handler_offset * wordSize))
      = cfg.result_handler_T_OBJECT
  · simp only [wordSize, Nat.cast_ofNat] at h
    simp [native_entry_oop_result, mov, pop_ltos, addptr, call, movptr_to, push_ltos, subptr,
      after_resolve_jobject, before_resolve_jobject, subptr_imm_eq, ea_ea, stackElementSize,
      wordSize, h, h16, w64_sub_eq_ea]
    intro hr
    rw [hr]
    exact ea_add_sub _ hsp
  · have h' : ¬ cfg.result_handler_T_OBJECT
        = s.mem (ea (s.reg rbp) (cfg.interpreter_frame_result_handler_offset * wordSize)) :=
      fun e => h e.symm
    simp only [wordSize, Nat.cast_ofNat] at h h'
    simp [native_entry_oop_result, mov, wordSize, h, h']

/-- C19, witness: a frame at `rbp = 0x200000` whose result-handler slot holds
the `T_OBJECT` handler (`7777` in `linux_x86_64`). -/
theorem oop_result_stored_iff_witness :
    (native_entry_oop_result linux_x86_64 idle_env
        ((entry_state 0 0x100).store 0x200018 7777)).state.trace
      = ((entry_state 0 0x100).store 0x200018 7777).trace
        ++ [Event.call Callee.resolve_jobject
              [((entry_state 0 0x100).store 0x200018 7777).mem
                (ea (((entry_state 0 0x100).store 0x200018 7777).reg rsp) 0)],
            Event.store (ea ((after_resolve_jobject linux_x86_64 idle_env
                  ((entry_state 0 0x100).store 0x200018 7777)).reg rbp)
                (linux_x86_64.interpreter_frame_oop_temp_offset * wordSize))
              ((after_resolve_jobject linux_x86_64 idle_env
                ((entry_state 0 0x100).store 0x200018 7777)).reg rax),
            Event.store (ea ((after_resolve_jobject linux_x86_64 idle_env
                  ((entry_state 0 0x100).store 0x200018 7777)).reg rsp) (-16))
              ((after_resolve_jobject linux_x86_64 idle_env
                ((entry_state 0 0x100).store 0x200018 7777)).reg rax),
            Event.store (ea ((after_resolve_jobject linux_x86_64 idle_env
                  ((entry_state 0 0x100).store 0x200018 7777)).reg rsp) (-8)) 0] :=
  ((oop_result_stored_iff linux_x86_64 idle_env ((entry_state 0 0x100).store 0x200018 7777)
    (by decide)).2.1 (by decide)).1

/-! ## Native entry: return to the caller -/

theorem pop_xmm0 (s : Machine) (r : Register) : (s.pop r).xmm0 = s.xmm0 := rfl
theorem call_xmm0 (env : Env) (s : Machine) (c : Callee) (args : List Nat) :
    (s.call env c args).xmm0 = (env.effect c s).xmm0 := rfl

theorem native_entry_return_run (cfg : Config) (env : Env) (s : Machine)
    (hn : env.branch Callee.notify_method_exit (s.call env Callee.notify_method_exit []) = false) :
    (native_entry_return cfg env s).state.trace
      = s.trace ++ [Event.call Callee.notify_method_exit [],
          Event.call Callee.result_handler [(before_result_handler cfg env s).reg r11]]
    ∧ (native_entry_return cfg env s).exit?
      = some (Exit.jmp ((after_result_handler cfg env s).mem
          (ea ((after_result_handler cfg env s).reg rbp) 8)))
    ∧ (native_entry_return cfg env s).state.reg rbp
      = (after_result_handler cfg env s).mem ((after_result_handler cfg env s).reg rbp)
    ∧ (native_entry_return cfg env s).state.reg rsp
      = (after_result_handler cfg env s).mem (ea ((after_result_handler cfg env s).reg rbp)
          (cfg.interpreter_frame_sender_sp_offset * wordSize))
    ∧ (native_entry_return cfg env s).state.reg rax = (after_result_handler cfg env s).reg rax
    ∧ (native_entry_return cfg env s).state.xmm0 = (after_result_handler cfg env s).xmm0 := by
  have h16 : w64 16 = 16 := by decide
  simp [native_entry_return, vm_routine, call, pop_ltos, pop_dtos, mov, addptr, leave, pop,
    jmp_reg, after_result_handler, before_result_handler, stackElementSize, wordSize, h16, hn,
    pop_xmm0, call_xmm0]

theorem native_entry_frame_start_run (e : Machine) :
    (native_entry_frame_start e).exit? = none
    ∧ (native_entry_frame_start e).state.reg rax = e.mem (e.reg rsp)
    ∧ (native_entry_frame_start e).state.reg rbp = e.reg rbp
    ∧ (native_entry_frame_start e).state.reg rbcp = e.reg rbcp
    ∧ (native_entry_frame_start e).state.reg rsp = ea (e.reg rsp) (-8) := by
  simp [native_entry_frame_start, mov, load_unsigned_short, pop, push, ea_ea, wordSize]

theorem native_entry_frame_checks_run (cfg : Config) (s : Machine) :
    (native_entry_frame_checks cfg s).state.reg rbp = s.reg rbp
    ∧ (native_entry_frame_checks cfg s).state.mem = s.mem := by
  by_cases hA : cfg.ASSERT = true
  · simp [native_entry_frame_checks, load_unsigned_short, stop, hA]
    split_ifs <;> simp
  · simp [native_entry_frame_checks, hA]

theorem native_entry_frame_slots (cfg : Config) (env : Env) (e : Machine) :
    (native_entry_frame cfg env e).state.reg rbp = ea (e.reg rsp) (-24)
    ∧ (native_entry_frame cfg env e).state.mem (ea (e.reg rsp) (-16)) = e.mem (e.reg rsp)
    ∧ (native_entry_frame cfg env e).state.mem (ea (e.reg rsp) (-24)) = e.reg rbp
    ∧ (native_entry_frame cfg env e).state.mem (ea (e.reg rsp) (-32)) = e.reg rbcp := by
  obtain ⟨a0, a1, a2, a3, a4⟩ := native_entry_frame_start_run e
  rcases bind_cases native_entry_frame_start
      (fun _ => generate_fixed_frame cfg env true >>= fun _ => native_entry_frame_checks cfg) e
    with ⟨x, s0, hxs, _⟩ | ⟨u, s0, hxs, hr⟩
  · rw [hxs] at a0; simp at a0
  · rw [hxs] at a1 a2 a3 a4
    simp only [state_ok] at a1 a2 a3 a4
    obtain ⟨b0, b1, _, _, b4⟩ := fixed_frame_facts cfg env s0 true
    simp only [fixed_frame_words, List.cons.injEq] at b4
    obtain ⟨c1, c2, c3, _⟩ := b4
    have hrun : native_entry_frame cfg env e
        = (generate_fixed_frame cfg env true >>= fun _ => native_entry_frame_checks cfg) s0 := hr
    rcases bind_cases (generate_fixed_frame cfg env true)
        (fun _ => native_entry_frame_checks cfg) s0 with ⟨x, s1, hys, _⟩ | ⟨u, s1, hys, hr2⟩
    · rw [hys] at b0; simp at b0
    · rw [hys] at b1 c1 c2 c3
      simp only [state_ok] at b1 c1 c2 c3
      obtain ⟨d1, d2⟩ := native_entry_frame_checks_run cfg s1
      rw [hrun, hr2, d1, d2, b1, a4, ea_ea]
      rw [a4, ea_ea] at c1 c2 c3
      norm_num at c1 c2 c3 ⊢
      exact ⟨by rw [c1, a1], by rw [c2, a2], by rw [c3, a3]⟩

theorem bind_assoc_run {α β γ : Type} (x : Asm α) (f : α → Asm β) (g : β → Asm γ) :
    (x >>= f) >>= g = x >>= fun a => f a >>= g := by
  funext s
  simp only [run_bind]
  cases x s <;> rfl

theorem native_entry_split (cfg : Config) (env : Env) (synchronized : Bool) :
    generate_native_entry cfg env synchronized
      = native_entry_before_return cfg env synchronized >>= fun _ => native_entry_return cfg env := by
  simp only [generate_native_entry, native_entry_finish, native_entry_before_return,
    bind_assoc_run]

/-- C14 (as amended): at the throw entry the expression stack is emptied and
then `exception_handler_for_exception` is called, with the exception oop as
argument (`empty_expression_stack` keeping `c_rarg1`).  When the call leaves
an exception pending, `call_VM` forwards it and nothing is pushed.  Otherwise
the exception oop that the call preserved in the thread's `vm_result` is
pushed and control jumps to the address returned in `rax`, whatever that
address is: there is no null test and no fall-through. -/
theorem throw_entry_jumps_to_lookup_result (cfg : Config) (env : Env) (s : Machine) :
    (∃ evs, (throw_exception_entry cfg env s).state.trace
        = s.trace ++ [Event.call Callee.verify_oop [s.reg rax],
            Event.call Callee.empty_expression_stack [],
            Event.call Callee.exception_handler_for_exception
              [(env.effect Callee.empty_expression_stack
                ((s.log (Event.call Callee.verify_oop [s.reg rax])).set (c_rarg1 cfg)
                  (s.reg rax))).reg (c_rarg1 cfg)]] ++ evs
      ∧ ((after_handler_lookup cfg env s).fld Thread_pending_exception
            ((after_handler_lookup cfg env s).reg r15_thread) ≠ 0 →
          evs = [] ∧ (throw_exception_entry cfg env s).exit? = some Exit.forward_exception)
      ∧ ((after_handler_lookup cfg env s).fld Thread_pending_exception
            ((after_handler_lookup cfg env s).reg r15_thread) = 0 →
          evs = [Event.store_field JavaThread_vm_result
                ((after_handler_lookup cfg env s).reg r15_thread) 0,
              Event.call Callee.verify_oop
                [(after_handler_lookup cfg env s).fld JavaThread_vm_result
                  ((after_handler_lookup cfg env s).reg r15_thread)],
              Event.push ((after_handler_lookup cfg env s).fld JavaThread_vm_result
                ((after_handler_lookup cfg env s).reg r15_thread))]
          ∧ (throw_exception_entry cfg env s).exit?
            = some (Exit.jmp ((after_handler_lookup cfg env s).reg rax))))
    ∧ ((∀ m, (env.effect Callee.empty_expression_stack m).reg (c_rarg1 cfg)
          = m.reg (c_rarg1 cfg)) →
        (env.effect Callee.empty_expression_stack
          ((s.log (Event.call Callee.verify_oop [s.reg rax])).set (c_rarg1 cfg)
            (s.reg rax))).reg (c_rarg1 cfg) = s.reg rax) := by
  constructor
  · by_cases hp : (after_handler_lookup cfg env s).fld Thread_pending_exception
        ((after_handler_lookup cfg env s).reg r15_thread) = 0
    · simp only [after_handler_lookup, call_fld, call_reg] at hp
      simp only [after_handler_lookup]
      simp [throw_exception_entry, verify_oop, mov, call, call_VM_oop, call_VM, get_vm_result,
        movptr_fld, push, jmp_reg, hp]
    · simp only [after_handler_lookup, call_fld, call_reg] at hp
      simp only [after_handler_lookup]
      simp [throw_exception_entry, verify_oop, mov, call, call_VM_oop, call_VM, get_vm_result,
        movptr_fld, push, jmp_reg, hp]
  · intro h
    rw [h]
    simp

/-- C14, witness: collaborators that keep the registers. -/
theorem throw_entry_jumps_to_lookup_result_witness :
    (idle_env.effect Callee.empty_expression_stack
      ((((entry_state 0 0).set rax 0x77).log
          (Event.call Callee.verify_oop [((entry_state 0 0).set rax 0x77).reg rax])).set
        (c_rarg1 linux_x86_64) (((entry_state 0 0).set rax 0x77).reg rax))).reg
      (c_rarg1 linux_x86_64) = ((entry_state 0 0).set rax 0x77).reg rax :=
  (throw_entry_jumps_to_lookup_result linux_x86_64 idle_env ((entry_state 0 0).set rax 0x77)).2
    (fun _ => rfl)

/-- C14, counterexample to the claim as stated: the handler lookup returns
null for the exception `0x77`; the exception is pushed all the same and
control leaves through a jump to the returned null address instead of
falling through to activation removal. -/
theorem throw_entry_null_handler_still_jumps :
    (after_handler_lookup linux_x86_64 null_handler_env ((entry_state 0 0).set rax 0x77)).reg rax
      = 0
    ∧ pushes (throw_exception_entry linux_x86_64 null_handler_env
        ((entry_state 0 0).set rax 0x77)).state.trace = [0x77]
    ∧ (throw_exception_entry linux_x86_64 null_handler_env
        ((entry_state 0 0).set rax 0x77)).exit? = some (Exit.jmp 0) := by
  decide

/-! ## Reentry addresses: restoring the bytecode cursor and the locals base -/

theorem machine_eq (a b : Machine) (h1 : a.reg = b.reg) (h2 : a.mem = b.mem)
    (h3 : a.fld = b.fld) (h4 : a.xmm0 = b.xmm0) (h5 : a.trace = b.trace) : a = b := by
  cases a
  cases b
  simp_all

theorem restored_reg (cfg : Config) (s : Machine) (r : Register) :
    (restored cfg s).reg r
      = if r = rlocals then (s.reg rbp
            + s.mem (ea (s.reg rbp) (cfg.interpreter_frame_locals_offset * wordSize)) * wordSize)
          % 2 ^ 64
        else if r = rbcp then s.mem (ea (s.reg rbp) (cfg.interpreter_frame_bcp_offset * wordSize))
        else s.reg r := by
  by_cases h1 : r = rlocals <;> by_cases h2 : r = rbcp <;>
    simp [restored, restore_bcp, restore_locals, mov, h1, h2]

theorem restored_rest (cfg : Config) (s : Machine) :
    (restored cfg s).mem = s.mem ∧ (restored cfg s).fld = s.fld
    ∧ (restored cfg s).xmm0 = s.xmm0 ∧ (restored cfg s).trace = s.trace := by
  simp [restored, restore_bcp, restore_locals, mov]

theorem restore_run (cfg : Config) (s : Machine) :
    (restore_bcp cfg >>= fun _ => restore_locals cfg) s = Run.ok () (restored cfg s) := by
  simp [restored, restore_bcp, restore_locals, mov]

theorem restored_idem (cfg : Config) (s : Machine) :
    restored cfg (restored cfg s) = restored cfg s := by
  obtain ⟨m1, f1, x1, t1⟩ := restored_rest cfg s
  obtain ⟨m2, f2, x2, t2⟩ := restored_rest cfg (restored cfg s)
  apply machine_eq
  · funext r
    rw [restored_reg, restored_reg cfg s r, m1, restored_reg cfg s rbp]
    simp only [reduceCtorEq, if_false]
    split_ifs <;> rfl
  · rw [m2]
  · rw [f2]
  · rw [x2]
  · rw [t2]

theorem begins_restored {α : Type} (cfg : Config) (rest : Asm α) (s : Machine) :
    (restore_bcp cfg >>= fun _ => restore_locals cfg >>= fun _ => rest) s
      = (restore_bcp cfg >>= fun _ => restore_locals cfg >>= fun _ => rest) (restored cfg s) := by
  have h : ∀ m, (restore_bcp cfg >>= fun _ => restore_locals cfg >>= fun _ => rest) m
      = rest (restored cfg m) := by
    intro m
    rw [← bind_assoc_run, run_bind, restore_run]
  rw [h, h, restored_idem]

theorem restored_store (cfg : Config) (s : Machine) (a v : Nat) :
    restored cfg ((restored cfg s).store a v) = restored cfg (s.store a v) := by
  obtain ⟨m1, f1, x1, t1⟩ := restored_rest cfg s
  obtain ⟨m2, f2, x2, t2⟩ := restored_rest cfg ((restored cfg s).store a v)
  obtain ⟨m3, f3, x3, t3⟩ := restored_rest cfg (s.store a v)
  have hm : ((restored cfg s).store a v).mem = (s.store a v).mem := by
    funext b
    rw [store_mem, store_mem, m1]
  apply machine_eq
  · funext r
    rw [restored_reg, restored_reg cfg (s.store a v) r, hm, store_reg, store_reg,
      restored_reg cfg s r, restored_reg cfg s rbp]
    simp only [reduceCtorEq, if_false]
    split_ifs <;> rfl
  · rw [m2, m3, hm]
  · rw [f2, f3, store_fld, store_fld, f1]
  · rw [x2, x3]
    exact x1
  · rw [t2, t3, store_trace, store_trace, t1]

theorem rethrow_head_run (cfg : Config) (env : Env) (m : Machine) :
    rethrow_exception_head cfg env m
      = Run.ok () ((restored cfg (m.store
          (ea (m.reg rbp) (cfg.interpreter_frame_last_sp_offset * wordSize)) 0)).call env
            Callee.reinit_heapbase []) := by
  simp [rethrow_exception_head, movptr_to, call, restored, restore_bcp, restore_locals, mov]

theorem rethrow_head_restored (cfg : Config) (env : Env) (s : Machine) :
    rethrow_exception_head cfg env (restored cfg s) = rethrow_exception_head cfg env s := by
  rw [rethrow_head_run, rethrow_head_run, restored_reg cfg s rbp]
  simp only [reduceCtorEq, if_false]
  rw [restored_store]

theorem throw_entry_keeps_cursor (cfg : Config) (s : Machine) :
    (throw_exception_entry cfg idle_env s).state.reg rbcp = s.reg rbcp
    ∧ (throw_exception_entry cfg idle_env s).state.reg rlocals = s.reg rlocals := by
  by_cases hw : cfg.win64 = true <;>
    by_cases hp : s.fld Thread_pending_exception (s.reg r15_thread) = 0 <;>
    simp [throw_exception_entry, verify_oop, mov, call, call_VM_oop, call_VM, get_vm_result,
      movptr_fld, push, jmp_reg, idle_env, c_rarg1, Machine.call, hw, hp]

theorem remove_activation_entry_keeps_cursor (s : Machine) :
    (remove_activation_entry idle_env s).state.reg rbcp = s.reg rbcp
    ∧ (remove_activation_entry idle_env s).state.reg rlocals = s.reg rlocals := by
  simp [remove_activation_entry, remove_activation_entry_unwind,
    remove_activation_entry_continue, pop, movptr_fld, vm_routine, call, get_vm_result, mov,
    verify_oop, push, jmp_reg, idle_env, Machine.call]

theorem popframe_entry_keeps_bcp (cfg : Config) (s : Machine) (h0 : s.reg rax % 2 ^ 32 = 0) :
    (remove_activation_preserving_args_entry cfg idle_env s).state.reg rbcp = s.reg rbcp := by
  simp only [Nat.reducePow] at h0
  by_cases hw : cfg.win64 = true <;>
    simp [remove_activation_preserving_args_entry, popframe_entry_check, popframe_entry_finish,
      popframe_save_args,
      call, movl, orl, movl_fld, mov, get_method, load_unsigned_short, shll, restore_locals,
      subptr, addptr, vm_routine, jmp_reg, idle_env, c_rarg1, Machine.call, hw, h0]

theorem bang_below_safe_limit (cfg : Config) (b : Bool) (s : Machine)
    (hwm : s.reg rsp ≤ s.fld JavaThread_shadow_zone_growth_watermark (s.reg r15_thread))
    (hsafe : s.reg rsp ≤ s.fld JavaThread_shadow_zone_safe_limit (s.reg r15_thread)) :
    (bang_stack_shadow_pages cfg b s).state.reg = s.reg
    ∧ (bang_stack_shadow_pages cfg b s).state.fld = s.fld := by
  obtain ⟨b1, b2, b3, b4⟩ := bang_pages_run cfg.page_size
    (Int.tdiv cfg.stack_shadow_zone_size cfg.page_size).toNat 1 s
  have hnot : ¬ s.fld JavaThread_shadow_zone_growth_watermark (s.reg r15_thread) < s.reg rsp := by
    omega
  cases hrun : bang_pages cfg.page_size
      (Int.tdiv cfg.stack_shadow_zone_size cfg.page_size).toNat 1 s with
  | leave e s1 => rw [hrun] at b1; simp at b1
  | ok u s1 =>
    rw [hrun] at b2 b3 b4
    simp only [state_ok] at b2 b3 b4
    by_cases hAs : cfg.ASSERT = true
    · by_cases h1 : s.fld JavaThread_shadow_zone_safe_limit (s.reg r15_thread) = 0
      · rw [bang_stop cfg b s hAs h1]
        exact ⟨rfl, rfl⟩
      · by_cases h2 : s.fld JavaThread_shadow_zone_growth_watermark (s.reg r15_thread) = 0
        · simp [bang_stack_shadow_pages, stop, hAs, h1, h2]
        · simp [bang_stack_shadow_pages, stop, movptr_fld, hAs, h1, h2, hnot, hsafe, hrun, b2, b3]
    · simp [bang_stack_shadow_pages, stop, movptr_fld, hAs, hnot, hsafe, hrun, b2, b3]

theorem bang_one_run (cfg : Config) (b : Bool) (s : Machine) :
    (bang_stack_shadow_pages cfg b s).state.reg r15_thread = s.reg r15_thread
    ∧ safe_limit (bang_stack_shadow_pages cfg b s).state = safe_limit s
    ∧ (watermark (bang_stack_shadow_pages cfg b s).state = watermark s
      ∨ (s.reg rsp ≤ watermark s ∧ safe_limit s < s.reg rsp
        ∧ watermark (bang_stack_shadow_pages cfg b s).state = s.reg rsp)) := by
  unfold watermark safe_limit
  by_cases hwm : s.fld JavaThread_shadow_zone_growth_watermark (s.reg r15_thread) < s.reg rsp
  · rw [bang_skip cfg b s hwm]
    exact ⟨rfl, rfl, Or.inl rfl⟩
  · by_cases hsafe : s.fld JavaThread_shadow_zone_safe_limit (s.reg r15_thread) < s.reg rsp
    · by_cases hA : cfg.ASSERT = true →
          s.fld JavaThread_shadow_zone_safe_limit (s.reg r15_thread) ≠ 0
      · obtain ⟨_, r2, r3, r4, _⟩ := bang_record cfg b s hsafe (by omega) hA
        rw [r2, r3, r4]
        exact ⟨rfl, rfl, Or.inr ⟨by omega, hsafe, rfl⟩⟩
      · have hA1 : cfg.ASSERT = true := by
          by_contra hc; exact hA (fun h => absurd h hc)
        have h0 : s.fld JavaThread_shadow_zone_safe_limit (s.reg r15_thread) = 0 := by
          by_contra hc; exact hA (fun _ => hc)
        rw [bang_stop cfg b s hA1 h0]
        exact ⟨rfl, rfl, Or.inl rfl⟩
    · obtain ⟨r1, r2⟩ := bang_below_safe_limit cfg b s (by omega) (by omega)
      rw [r1, r2]
      exact ⟨rfl, rfl, Or.inl rfl⟩

theorem bang_runs_watermark (cfg : Config) (b : Bool) (sps : List Nat) :
    ∀ s, safe_limit s < watermark s →
      safe_limit (bang_runs cfg b sps s) = safe_limit s
      ∧ watermark (bang_runs cfg b sps s) ≤ watermark s
      ∧ safe_limit s < watermark (bang_runs cfg b sps s) := by
  induction sps with
  | nil => intro s h; exact ⟨rfl, le_refl _, h⟩
  | cons sp sps ih =>
    intro s h
    have hw : watermark (s.set rsp sp) = watermark s := rfl
    have hl : safe_limit (s.set rsp sp) = safe_limit s := rfl
    obtain ⟨_, a2, a3⟩ := bang_one_run cfg b (s.set rsp sp)
    rw [hl] at a2
    rw [hw, hl] at a3
    have hsp : (s.set rsp sp).reg rsp = sp := by simp
    rw [hsp] at a3
    have hinv : safe_limit (bang_stack_shadow_pages cfg b (s.set rsp sp)).state
        < watermark (bang_stack_shadow_pages cfg b (s.set rsp sp)).state := by
      rw [a2]
      rcases a3 with a3 | ⟨_, c2, c3⟩
      · rw [a3]; exact h
      · rw [c3]; exact c2
    obtain ⟨i1, i2, i3⟩ := ih _ hinv
    rw [a2] at i1 i3
    refine ⟨i1, ?_, i3⟩
    show watermark (bang_runs cfg b sps (bang_stack_shadow_pages cfg b (s.set rsp sp)).state)
      ≤ watermark s
    rcases a3 with a3 | ⟨c1, _, c3⟩
    · rw [a3] at i2; exact i2
    · rw [c3] at i2; omega

/-- C29: in any sequence of executions of `bang_stack_shadow_pages` (at any
stack pointers) that starts with the growth watermark strictly above the safe
limit, the safe limit is never written, the watermark never increases and
stays strictly above the safe limit.  In one execution at stack pointer `sp`
the watermark either stays as it is or, only when `sp <= watermark` and
`sp > safe limit`, becomes exactly `sp`. -/
theorem watermark_never_increases (cfg : Config) (b : Bool) (sps : List Nat) (s : Machine)
    (h : safe_limit s < watermark s) :
    safe_limit (bang_runs cfg b sps s) = safe_limit s
    ∧ watermark (bang_runs cfg b sps s) ≤ watermark s
    ∧ safe_limit s < watermark (bang_runs cfg b sps s)
    ∧ ∀ sp, watermark (bang_runs cfg b [sp] s) = watermark s
        ∨ (sp ≤ watermark s ∧ safe_limit s < sp ∧ watermark (bang_runs cfg b [sp] s) = sp) := by
  obtain ⟨a1, a2, a3⟩ := bang_runs_watermark cfg b sps s h
  refine ⟨a1, a2, a3, fun sp => ?_⟩
  have hrun := (bang_one_run cfg b (s.set rsp sp)).2.2
  have hsp : (s.set rsp sp).reg rsp = sp := by simp
  rw [hsp] at hrun
  exact hrun

/-- C29, witness: three executions, at `0x100000`, `0x180000` and `0xFF000`,
starting from watermark `0x200000` and safe limit `0x8000`. -/
theorem watermark_never_increases_witness :
    safe_limit (bang_runs linux_x86_64 false [0x100000, 0x180000, 0xFF000] (entry_state 0 0))
      = safe_limit (entry_state 0 0)
    ∧ watermark (bang_runs linux_x86_64 false [0x100000, 0x180000, 0xFF000] (entry_state 0 0))
      ≤ watermark (entry_state 0 0)
    ∧ safe_limit (entry_state 0 0)
      < watermark (bang_runs linux_x86_64 false [0x100000, 0x180000, 0xFF000] (entry_state 0 0))
    ∧ ∀ sp, watermark (bang_runs linux_x86_64 false [sp] (entry_state 0 0))
          = watermark (entry_state 0 0)
        ∨ (sp ≤ watermark (entry_state 0 0) ∧ safe_limit (entry_state 0 0) < sp
          ∧ watermark (bang_runs linux_x86_64 false [sp] (entry_state 0 0)) = sp) :=
  watermark_never_increases linux_x86_64 false [0x100000, 0x180000, 0xFF000] (entry_state 0 0)
    (by decide)

/-! ## Early-return entry -/

/-- C22: for every tos state the early-return entry empties the expression
stack, loads the early-return value for that state, stores
`earlyret_inactive` to the earlyret state of the thread's JVMTI thread state
(the pointer loaded into `rcx`), and only then
calls `remove_activation(state, rsi, false, false, true)`; these are its only
calls and its only store.  When `remove_activation` returns, control jumps to
the address it left in `rsi`. -/
theorem earlyret_entry_sequence (cfg : Config) (env : Env) (state : TosState) (s : Machine) :
    ((generate_earlyret_entry_for cfg env state s).state.trace
      = s.trace ++ [Event.call Callee.empty_expression_stack [],
          Event.call (Callee.load_earlyret_value state) [],
          Event.store_field JvmtiThreadState_earlyret_state
            ((before_earlyret_remove_activation cfg env state s).reg rcx)
            (cfg.earlyret_inactive % 2 ^ 32),
          Event.call (Callee.remove_activation false false true) []])
    ∧ ((generate_earlyret_entry_for cfg env state s).state.reg rsi
      = (after_earlyret_remove_activation cfg env state s).reg rsi)
    ∧ ((∀ m, env.branch (Callee.remove_activation false false true) m = false) →
      (generate_earlyret_entry_for cfg env state s).exit?
        = some (Exit.jmp ((after_earlyret_remove_activation cfg env state s).reg rsi))) := by
  have key : ∀ m, generate_earlyret_entry_for cfg env state m
      = (do
          call env Callee.empty_expression_stack []
          call env (Callee.load_earlyret_value state) []
          mov rcx (Fld r15_thread JavaThread_jvmti_thread_state)
          movl_fld rcx JvmtiThreadState_earlyret_state (fun _ => cfg.earlyret_inactive)
          vm_routine env (Callee.remove_activation false false true) []
          jmp_reg rsi : Asm Unit) (restored cfg m) := by
    intro m
    unfold generate_earlyret_entry_for
    rw [← bind_assoc_run, run_bind, restore_run]
  rw [key]
  obtain ⟨_, _, _, ht⟩ := restored_rest cfg s
  have hrun : (do
          call env Callee.empty_expression_stack []
          call env (Callee.load_earlyret_value state) []
          mov rcx (Fld r15_thread JavaThread_jvmti_thread_state)
          movl_fld rcx JvmtiThreadState_earlyret_state (fun _ => cfg.earlyret_inactive)
          vm_routine env (Callee.remove_activation false false true) []
          jmp_reg rsi : Asm Unit) (restored cfg s)
      = if env.branch (Callee.remove_activation false false true)
            (after_earlyret_remove_activation cfg env state s) = true
        then Run.leave Exit.forward_exception (after_earlyret_remove_activation cfg env state s)
        else Run.leave (Exit.jmp ((after_earlyret_remove_activation cfg env state s).reg rsi))
          (after_earlyret_remove_activation cfg env state s) := by
    by_cases hb : env.branch (Callee.remove_activation false false true)
        (after_earlyret_remove_activation cfg env state s) = true
    · rw [if_pos hb]
      simp only [after_earlyret_remove_activation, before_earlyret_remove_activation] at hb ⊢
      simp [call, mov, movl_fld, vm_routine, jmp_reg] at hb ⊢
      simp [hb]
    · rw [if_neg hb]
      simp only [after_earlyret_remove_activation, before_earlyret_remove_activation] at hb ⊢
      simp [call, mov, movl_fld, vm_routine, jmp_reg] at hb ⊢
      simp [hb]
  have htr : (after_earlyret_remove_activation cfg env state s).trace
      = s.trace ++ [Event.call Callee.empty_expression_stack [],
          Event.call (Callee.load_earlyret_value state) [],
          Event.store_field JvmtiThreadState_earlyret_state
            ((before_earlyret_remove_activation cfg env state s).reg rcx)
            (cfg.earlyret_inactive % 2 ^ 32),
          Event.call (Callee.remove_activation false false true) []] := by
    simp [after_earlyret_remove_activation, before_earlyret_remove_activation, ht]
  rw [hrun]
  refine ⟨?_, ?_, ?_⟩
  · split <;> exact htr
  · split <;> rfl
  · intro hb
    rw [if_neg (by rw [hb]; decide)]
    rfl

/-- C22, witness: collaborators that always return. -/
theorem earlyret_entry_sequence_witness :
    (∀ m, idle_env.branch (Callee.remove_activation false false true) m = false)
    ∧ (generate_earlyret_entry_for linux_x86_64 idle_env TosState.itos (entry_state 0 0)).exit?
        = some (Exit.jmp ((after_earlyret_remove_activation linux_x86_64 idle_env TosState.itos
            (entry_state 0 0)).reg rsi)) :=
  ⟨fun _ => rfl,
    (earlyret_entry_sequence linux_x86_64 idle_env TosState.itos (entry_state 0 0)).2.2
      (fun _ => rfl)⟩

/-! ## Remove-activation entry -/

theorem remove_activation_entry_unwind_run (env : Env) (s : Machine)
    (hret : ∀ m, env.branch (Callee.remove_activation false true false) m = false)
    (hthread : ∀ m, (env.effect (Callee.remove_activation false true false) m).reg r15_thread
      = m.reg r15_thread)
    (hresult : ∀ m, (env.effect (Callee.remove_activation false true false) m).fld
        JavaThread_vm_result (m.reg r15_thread) = m.fld JavaThread_vm_result (m.reg r15_thread)) :
    (remove_activation_entry_unwind env s).exit? = none
    ∧ (remove_activation_entry_unwind env s).state.reg rax = s.mem (s.reg rsp)
    ∧ (remove_activation_entry_unwind env s).state.reg rdx
      = (after_remove_activation env s).reg rdx
    ∧ (remove_activation_entry_unwind env s).state.reg r15_thread = s.reg r15_thread
    ∧ (remove_activation_entry_unwind env s).state.trace
      = s.trace ++ [Event.store_field JavaThread_vm_result (s.reg r15_thread) (s.mem (s.reg rsp)),
          Event.call (Callee.remove_activation false true false) [],
          Event.store_field JavaThread_vm_result (s.reg r15_thread) 0,
          Event.call Callee.verify_oop [s.mem (s.reg rsp)]] := by
  have h1 := hthread ((s.pop rax).store_field JavaThread_vm_result ((s.pop rax).reg r15_thread)
    ((s.pop rax).reg rax))
  have h2 := hresult ((s.pop rax).store_field JavaThread_vm_result ((s.pop rax).reg r15_thread)
    ((s.pop rax).reg rax))
  simp at h1 h2
  simp [remove_activation_entry_unwind, after_remove_activation, pop, movptr_fld, vm_routine,
    call, get_vm_result, mov, verify_oop, hret, h1, h2]

theorem remove_activation_entry_continue_run (env : Env) (u : Machine)
    (hleaf : ∀ m, (env.effect Callee.exception_handler_for_return_address m).reg rsp = m.reg rsp
      ∧ (env.effect Callee.exception_handler_for_return_address m).mem (m.reg rsp)
        = m.mem (m.reg rsp)
      ∧ (env.effect Callee.exception_handler_for_return_address m).mem (ea (m.reg rsp) 8)
        = m.mem (ea (m.reg rsp) 8)) :
    (remove_activation_entry_continue env u).exit?
      = some (Exit.jmp ((env.effect Callee.exception_handler_for_return_address
          ((u.push (u.reg rax)).push (u.reg rdx))).reg rax))
    ∧ (remove_activation_entry_continue env u).state.reg rax = u.reg rax
    ∧ (remove_activation_entry_continue env u).state.reg rdx = u.reg rdx
    ∧ (remove_activation_entry_continue env u).state.trace
      = u.trace ++ [Event.push (u.reg rax), Event.push (u.reg rdx),
          Event.call Callee.exception_handler_for_return_address [u.reg r15_thread, u.reg rdx]] := by
  obtain ⟨h1, h2, h3⟩ := hleaf ((u.push (u.reg rax)).push (u.reg rdx))
  have e1 : ea (ea (ea (u.reg rsp) (-8)) (-8)) 8 = ea (u.reg rsp) (-8) := by
    rw [ea_ea, ea_ea]; rfl
  have e2 : ea (u.reg rsp) (-8) ≠ ea (ea (u.reg rsp) (-8)) (-8) := by
    rw [ea_ea, Ne, ea_eq_iff]; decide
  simp [wordSize, e1, e2] at h1 h2 h3
  simp [remove_activation_entry_continue, push, call, mov, pop, jmp_reg, wordSize, h1, h2, h3,
    e1, e2]

/-- C21: the remove-activation entry calls
`remove_activation(vtos, rdx, false, true, false)`, so with
`throw_monitor_exception = false`, and it is its only call of
`remove_activation`.  When that macro returns, keeps the thread register and
the thread's `vm_result`, and the handler lookup keeps the stack pointer and
the two words pushed for it, control jumps to the address
`exception_handler_for_return_address` returned, with `rax` the exception oop
popped from the expression stack at entry and `rdx` the return address
`remove_activation` left in `rdx`, which is also the address passed to the
lookup. -/
theorem remove_activation_entry_keeps_exception (env : Env) (s : Machine)
    (hret : ∀ m, env.branch (Callee.remove_activation false true false) m = false)
    (hthread : ∀ m, (env.effect (Callee.remove_activation false true false) m).reg r15_thread
      = m.reg r15_thread)
    (hresult : ∀ m, (env.effect (Callee.remove_activation false true false) m).fld
        JavaThread_vm_result (m.reg r15_thread) = m.fld JavaThread_vm_result (m.reg r15_thread))
    (hleaf : ∀ m, (env.effect Callee.exception_handler_for_return_address m).reg rsp = m.reg rsp
      ∧ (env.effect Callee.exception_handler_for_return_address m).mem (m.reg rsp)
        = m.mem (m.reg rsp)
      ∧ (env.effect Callee.exception_handler_for_return_address m).mem (ea (m.reg rsp) 8)
        = m.mem (ea (m.reg rsp) 8)) :
    (remove_activation_entry env s).state.trace
      = s.trace ++ [Event.store_field JavaThread_vm_result (s.reg r15_thread) (s.mem (s.reg rsp)),
          Event.call (Callee.remove_activation false true false) [],
          Event.store_field JavaThread_vm_result (s.reg r15_thread) 0,
          Event.call Callee.verify_oop [s.mem (s.reg rsp)],
          Event.push (s.mem (s.reg rsp)),
          Event.push ((after_remove_activation env s).reg rdx),
          Event.call Callee.exception_handler_for_return_address
            [s.reg r15_thread, (after_remove_activation env s).reg rdx]]
    ∧ (remove_activation_entry env s).exit?
      = some (Exit.jmp (return_address_handler env s))
    ∧ (remove_activation_entry env s).state.reg rax = s.mem (s.reg rsp)
    ∧ (remove_activation_entry env s).state.reg rdx = (after_remove_activation env s).reg rdx := by
  obtain ⟨u0, u1, u2, u3, u4⟩ := remove_activation_entry_unwind_run env s hret hthread hresult
  have hrun : remove_activation_entry env s
      = remove_activation_entry_continue env (remove_activation_entry_unwind env s).state := by
    unfold remove_activation_entry
    rcases bind_cases (remove_activation_entry_unwind env)
      (fun _ => remove_activation_entry_continue env) s with ⟨e, s1, h1, _⟩ | ⟨a, s1, h1, h2⟩
    · rw [h1] at u0
      simp at u0
    · rw [h2, h1]
      rfl
  obtain ⟨c0, c1, c2, c3⟩ := remove_activation_entry_continue_run env
    (remove_activation_entry_unwind env s).state hleaf
  rw [hrun]
  refine ⟨?_, ?_, ?_, ?_⟩
  · rw [c3, u4, u1, u2, u3]
    simp
  · rw [c0]
    rfl
  · rw [c1, u1]
  · rw [c2, u2]

/-- C21, witness: collaborators that change nothing and always return. -/
theorem remove_activation_entry_keeps_exception_witness :
    (remove_activation_entry idle_env (entry_state 0 0)).exit?
      = some (Exit.jmp (return_address_handler idle_env (entry_state 0 0)))
    ∧ (remove_activation_entry idle_env (entry_state 0 0)).state.reg rax = 0x4242 :=
  ⟨(remove_activation_entry_keeps_exception idle_env (entry_state 0 0) (fun _ => rfl)
      (fun _ => rfl) (fun _ => rfl) (fun _ => ⟨rfl, rfl, rfl⟩)).2.1,
    (remove_activation_entry_keeps_exception idle_env (entry_state 0 0) (fun _ => rfl)
      (fun _ => rfl) (fun _ => rfl) (fun _ => ⟨rfl, rfl, rfl⟩)).2.2.1⟩

/-! ## Fixed frame: the relativized locals slot -/

theorem fixed_frame_locals_word (cfg : Config) (env : Env) (s : Machine) (b : Bool) :
    (generate_fixed_frame cfg env b s).state.mem (ea (s.reg rsp) (-72))
      = w64 ((s.reg rlocals : Int) - (ea (s.reg rsp) (-16) : Nat)) / 2 ^ logStackElementSize := by
  have h := (fixed_frame_facts cfg env s b).2.2.2.2
  simp only [fixed_frame_words, List.cons.injEq] at h
  have h9 := h.2.2.2.2.2.2.2.2.1
  rw [h9]
  rfl

theorem relativized_displaced (l r : Nat) (d : Int) :
    w64 ((ea l d : Int) - (ea (ea r d) (-16) : Nat)) = w64 ((l : Int) - (ea r (-16) : Nat)) := by
  unfold ea w64
  norm_num
  omega

theorem relativized_round_trip (l p : Nat) (h1 : p ≤ l) (h2 : l < 2 ^ 64)
    (h3 : (l - p) % stackElementSize = 0) :
    (p + w64 ((l : Int) - (p : Nat)) / 2 ^ logStackElementSize * stackElementSize) % 2 ^ 64
      = l := by
  have hw : w64 ((l : Int) - (p : Nat)) = l - p := by
    rw [w64_of_range _ (by omega) (by norm_num at h2 ⊢; omega)]
    omega
  rw [hw]
  simp only [stackElementSize, logStackElementSize] at h3 ⊢
  norm_num at h2 ⊢
  omega

/-- C23: `generate_fixed_frame` stores in the locals slot of the new frame
(the word at `rbp - 7*wordSize`) the value
`(rlocals - rbp) >> logStackElementSize`, computed in 64 bit arithmetic with
the new `rbp`.  When `rlocals >= rbp` and the difference is a multiple of the
stack element size, `rbp + slot*stackElementSize` is `rlocals` again.  When
the stack pointer at entry and `rlocals` are both displaced by the same
amount `d`, the new `rbp` is displaced by `d` and the stored value is the
same. -/
theorem fixed_frame_locals_relative (cfg : Config) (env : Env) (s : Machine) (b : Bool) :
    ((generate_fixed_frame cfg env b s).state.mem
        (ea ((generate_fixed_frame cfg env b s).state.reg rbp) (-56))
      = w64 ((s.reg rlocals : Int) - ((generate_fixed_frame cfg env b s).state.reg rbp : Nat))
          / 2 ^ logStackElementSize)
    ∧ ((generate_fixed_frame cfg env b s).state.reg rbp ≤ s.reg rlocals →
        s.reg rlocals < 2 ^ 64 →
        (s.reg rlocals - (generate_fixed_frame cfg env b s).state.reg rbp) % stackElementSize = 0 →
        ((generate_fixed_frame cfg env b s).state.reg rbp
          + (generate_fixed_frame cfg env b s).state.mem
              (ea ((generate_fixed_frame cfg env b s).state.reg rbp) (-56)) * stackElementSize)
          % 2 ^ 64 = s.reg rlocals)
    ∧ (∀ (d : Int) (s1 : Machine), s1.reg rsp = ea (s.reg rsp) d →
        s1.reg rlocals = ea (s.reg rlocals) d →
        (generate_fixed_frame cfg env b s1).state.reg rbp
          = ea ((generate_fixed_frame cfg env b s).state.reg rbp) d
        ∧ (generate_fixed_frame cfg env b s1).state.mem
            (ea ((generate_fixed_frame cfg env b s1).state.reg rbp) (-56))
          = (generate_fixed_frame cfg env b s).state.mem
            (ea ((generate_fixed_frame cfg env b s).state.reg rbp) (-56))) := by
  have hbp : ∀ m : Machine, (generate_fixed_frame cfg env b m).state.reg rbp
      = ea (m.reg rsp) (-16) := fun m => (fixed_frame_facts cfg env m b).2.1
  have hslot : ∀ m : Machine, (generate_fixed_frame cfg env b m).state.mem
        (ea ((generate_fixed_frame cfg env b m).state.reg rbp) (-56))
      = w64 ((m.reg rlocals : Int) - (ea (m.reg rsp) (-16) : Nat)) / 2 ^ logStackElementSize := by
    intro m
    rw [hbp, ea_ea]
    exact fixed_frame_locals_word cfg env m b
  refine ⟨?_, ?_, ?_⟩
  · rw [hslot, hbp]
  · intro h1 h2 h3
    rw [hslot]
    rw [hbp] at h1 h3 ⊢
    exact relativized_round_trip _ _ h1 h2 h3
  · intro d s1 hsp hl
    rw [hslot, hslot, hbp, hbp, hsp, hl, relativized_displaced]
    refine ⟨?_, rfl⟩
    rw [ea_ea, ea_ea, add_comm]

/-- C23, witness: a frame built at `rsp = 0x100000` with the locals base at
`0x100020`, six words above the new `rbp`. -/
theorem fixed_frame_locals_relative_witness :
    ((generate_fixed_frame linux_x86_64 idle_env false
        ((entry_state 0 0).set rlocals 0x100020)).state.reg rbp
      + (generate_fixed_frame linux_x86_64 idle_env false
          ((entry_state 0 0).set rlocals 0x100020)).state.mem
          (ea ((generate_fixed_frame linux_x86_64 idle_env false
            ((entry_state 0 0).set rlocals 0x100020)).state.reg rbp) (-56)) * stackElementSize)
      % 2 ^ 64 = ((entry_state 0 0).set rlocals 0x100020).reg rlocals :=
  (fixed_frame_locals_relative linux_x86_64 idle_env ((entry_state 0 0).set rlocals 0x100020)
    false).2.1 (by decide) (by decide) (by decide)

/-! ## Native entry: parameter area -/

theorem and_minus_16 (x : Nat) (h : x < 2 ^ 64) :
    x &&& 18446744073709551600 = x - x % 16 := by
  have e1 : (18446744073709551600 : Nat) = (2 ^ 60 - 1) <<< 4 := by decide
  have e2 : x - x % 16 = (x >>> 4) <<< 4 := by
    rw [Nat.shiftLeft_eq, Nat.shiftRight_eq_div_pow]
    omega
  rw [e1, e2]
  apply Nat.eq_of_testBit_eq
  intro i
  rw [Nat.testBit_and, Nat.testBit_shiftLeft, Nat.testBit_shiftLeft, Nat.testBit_shiftRight,
    Nat.testBit_two_pow_sub_one]
  by_cases h4 : 4 ≤ i
  · have e : 4 + (i - 4) = i := by omega
    rw [e]
    by_cases h64 : i < 64
    · have : i - 4 < 60 := by omega
      simp [h4, this]
    · have hx : x.testBit i = false := by
        apply Nat.testBit_lt_two_pow
        calc x < 2 ^ 64 := h
          _ ≤ 2 ^ i := Nat.pow_le_pow_right (by decide) (by omega)
      simp [hx]
  · simp [h4]

theorem param_area_run (cfg : Config) (s : Machine) :
    (native_entry_param_area cfg s).exit? = none
    ∧ (native_entry_param_area cfg s).state.reg rsp
      = param_area_unaligned cfg s &&& w64 (-16) := by
  simp [native_entry_param_area, get_method, mov, load_unsigned_short, shll, subptr, andptr,
    logStackElementSize, wordSize]
  congr 1
  unfold param_area_unaligned parameter_count w64 stackElementSize wordSize
  generalize s.fld ConstMethod_size_of_parameters _ = p
  norm_num
  omega

/-- C24: the parameter-area allocation of the native entry (lines 840-849)
falls through with
`rsp = (rsp - p*stackElementSize - arg_reg_save_area_bytes) & -16`, all in
64 bit arithmetic, where `p` is the method's unsigned 16 bit parameter count.
The new stack pointer is a multiple of 16, is at most the unaligned value and
lies fewer than 16 bytes below it.  When the subtraction does not wrap, the
unaligned value is the integer `rsp - p*stackElementSize -
arg_reg_save_area_bytes`. -/
theorem param_area_aligned (cfg : Config) (s : Machine) :
    (native_entry_param_area cfg s).exit? = none
    ∧ parameter_count cfg s ≤ 65535
    ∧ (native_entry_param_area cfg s).state.reg rsp
      = param_area_unaligned cfg s &&& w64 (-16)
    ∧ (native_entry_param_area cfg s).state.reg rsp % 16 = 0
    ∧ (native_entry_param_area cfg s).state.reg rsp ≤ param_area_unaligned cfg s
    ∧ param_area_unaligned cfg s - (native_entry_param_area cfg s).state.reg rsp < 16
    ∧ (s.reg rsp < 2 ^ 64 → 0 ≤ cfg.arg_reg_save_area_bytes →
        (parameter_count cfg s * stackElementSize : Nat) + cfg.arg_reg_save_area_bytes
          ≤ (s.reg rsp : Int) →
        (param_area_unaligned cfg s : Int)
          = (s.reg rsp : Int) - (parameter_count cfg s * stackElementSize : Nat)
            - cfg.arg_reg_save_area_bytes) := by
  obtain ⟨h0, h1⟩ := param_area_run cfg s
  have hp : parameter_count cfg s < 2 ^ 16 := Nat.mod_lt _ (by decide)
  have hx : param_area_unaligned cfg s < 2 ^ 64 := w64_lt _
  have hm : w64 (-16) = 18446744073709551600 := by decide
  have ha := and_minus_16 _ hx
  rw [hm] at h1
  rw [h1, hm, ha]
  refine ⟨h0, by omega, rfl, by omega, by omega, by omega, ?_⟩
  intro hs h0 hle
  unfold param_area_unaligned
  rw [w64_of_range _ (by omega) (by norm_num at hs ⊢; omega)]
  omega

/-- C24, witness: `rsp = 0x100000`, no parameters, no register save area. -/
theorem param_area_aligned_witness :
    (param_area_unaligned linux_x86_64 (entry_state 0 0) : Int)
      = ((entry_state 0 0).reg rsp : Int)
        - (parameter_count linux_x86_64 (entry_state 0 0) * stackElementSize : Nat)
        - linux_x86_64.arg_reg_save_area_bytes :=
  (param_area_aligned linux_x86_64 (entry_state 0 0)).2.2.2.2.2.2 (by decide) (by decide)
    (by decide)

/-! ## PopFrame with a deoptimized caller: the preserved argument region -/

theorem popframe_save_args_run (cfg : Config) (env : Env) (s : Machine) :
    (popframe_save_args cfg env s).exit? = none
    ∧ (popframe_save_args cfg env s).state.trace
      = s.trace ++ [Event.call Callee.popframe_preserve_args
          [s.reg r15_thread, parameter_count cfg s * stackElementSize,
            preserved_args_start cfg s]] := by
  unfold preserved_args_start
  rw [restored_reg]
  simp [popframe_save_args, get_method, mov, load_unsigned_short, shll, restore_locals, subptr,
    addptr, call, logStackElementSize, wordSize]
  constructor
  · unfold parameter_count stackElementSize wordSize
    generalize s.fld ConstMethod_size_of_parameters _ = p
    omega
  · unfold parameter_count ea w64 stackElementSize wordSize
    generalize s.fld ConstMethod_size_of_parameters _ = p
    generalize s.mem _ = m
    generalize s.reg rbp = b
    norm_num
    omega

theorem normal_entry_locals_base_run (e : Machine) :
    (normal_entry_locals_base e).exit? = none
    ∧ (normal_entry_locals_base e).state.reg rlocals
      = w64 ((ea (e.reg rsp) wordSize : Nat) + (e.reg rcx : Int) * stackElementSize - wordSize)
    ∧ (normal_entry_locals_base e).state.reg rsp = ea (e.reg rsp) wordSize
    ∧ (normal_entry_locals_base e).state.reg rdx = e.reg rdx
    ∧ (normal_entry_locals_base e).state.trace = e.trace := by
  simp [normal_entry_locals_base, pop, mov]

/-- C25: on the deoptimized-caller branch of the popframe entry (the branch
taken when `interpreter_contains` left zero in `eax`) the first thing the
code does is call `popframe_preserve_args(thread, size, start)` with
`size = p*stackElementSize` and `start = rlocals - p*stackElementSize +
wordSize`, where `p` is the unsigned 16 bit parameter count of the frame's
method and `rlocals` the locals base reloaded from the frame.  The region
ends one word above `rlocals`.  For the `rlocals` that the method entry
computes at lines 1236-1237 from a stack with `p` parameters, the region
starts at the stack address the entry computed it from (the stack pointer
after the return address is popped): `rlocals` is that address plus
`p*stackElementSize - wordSize`. -/
theorem popframe_preserved_region (cfg : Config) (env : Env) (s : Machine)
    (h0 : s.reg rax % 2 ^ 32 = 0) :
    (∃ rest, (popframe_entry_finish cfg env s).state.trace
      = s.trace ++ Event.call Callee.popframe_preserve_args
          [s.reg r15_thread, parameter_count cfg s * stackElementSize,
            preserved_args_start cfg s] :: rest)
    ∧ preserved_args_start cfg s
      = w64 (((restored cfg s).reg rlocals : Int)
          - (parameter_count cfg s * stackElementSize : Nat) + wordSize)
    ∧ (preserved_args_start cfg s + parameter_count cfg s * stackElementSize) % 2 ^ 64
      = ea ((restored cfg s).reg rlocals) wordSize
    ∧ (∀ e : Machine, e.reg rcx = parameter_count cfg s →
        (restored cfg s).reg rlocals = (normal_entry_locals_base e).state.reg rlocals →
        (normal_entry_locals_base e).state.reg rlocals
          = w64 ((ea (e.reg rsp) wordSize : Nat)
              + (parameter_count cfg s * stackElementSize : Nat) - wordSize)
        ∧ preserved_args_start cfg s = ea (e.reg rsp) wordSize) := by
  refine ⟨?_, ?_, ?_, ?_⟩
  · obtain ⟨x0, xt⟩ := popframe_save_args_run cfg env s
    cases hx : popframe_save_args cfg env s with
    | leave e s1 =>
      rw [hx] at x0
      simp at x0
    | ok a s1 =>
      rw [hx] at xt
      simp only [state_ok] at xt
      simp only [Nat.reducePow] at h0
      by_cases hb : env.branch (Callee.remove_activation false false false)
          (Machine.call env s1 (Callee.remove_activation false false false) []) = true
      · refine ⟨[Event.call (Callee.remove_activation false false false) []], ?_⟩
        simp [popframe_entry_finish, h0, hx, vm_routine, call, movl_fld, jmp_reg, hb, xt]
      · refine ⟨[Event.call (Callee.remove_activation false false false) [],
          Event.store_field JavaThread_popframe_condition
            ((Machine.call env s1 (Callee.remove_activation false false false) []).reg r15_thread)
            (cfg.popframe_force_deopt_reexecution_bit % 2 ^ 32)], ?_⟩
        simp [popframe_entry_finish, h0, hx, vm_routine, call, movl_fld, jmp_reg, hb, xt]
  · unfold preserved_args_start ea w64 stackElementSize wordSize
    norm_num
    omega
  · unfold preserved_args_start ea w64 stackElementSize wordSize
    generalize (restored cfg s).reg rlocals = l
    generalize parameter_count cfg s = p
    norm_num
    omega
  · intro e hc hl
    obtain ⟨_, hb, _⟩ := normal_entry_locals_base_run e
    unfold preserved_args_start
    rw [hl, hb, hc]
    have ha : ea (e.reg rsp) wordSize < 2 ^ 64 := w64_lt _
    generalize ea (e.reg rsp) wordSize = a at ha ⊢
    generalize parameter_count cfg s = p
    unfold ea w64 stackElementSize wordSize
    norm_num at ha ⊢
    omega

/-- C25, witness: a frame whose method has two parameters and whose locals
slot is zero, so that `rlocals = rbp = 0x200000`; the method entry computes
the same `rlocals` from `rsp = 0x1FFFF0` with `rcx = 2`. -/
theorem popframe_preserved_region_witness :
    preserved_args_start linux_x86_64
        ((entry_state 0 0).store_field ConstMethod_size_of_parameters 0 2)
      = ea ((((entry_state 0 0).set rsp 0x1FFFF0).set rcx 2).reg rsp) wordSize :=
  ((popframe_preserved_region linux_x86_64 idle_env
      ((entry_state 0 0).store_field ConstMethod_size_of_parameters 0 2)
      (by decide)).2.2.2 (((entry_state 0 0).set rsp 0x1FFFF0).set rcx 2)
    (by decide) (by decide)).2

/-! ## Result handlers -/

theorem sign_extend_value (x : Nat) :
    as_signed 32 (if x % 2 ^ 8 < 2 ^ 7 then x % 2 ^ 8 else 2 ^ 32 - 2 ^ 8 + x % 2 ^ 8)
      = as_signed 8 x
    ∧ as_signed 32 (if x % 2 ^ 16 < 2 ^ 15 then x % 2 ^ 16 else 2 ^ 32 - 2 ^ 16 + x % 2 ^ 16)
      = as_signed 16 x := by
  unfold as_signed
  norm_num
  constructor <;> split_ifs <;> omega

/-- C26: the routine emitted by `generate_result_handler_for(type)` leaves
`rax` unchanged for `T_INT`, `T_LONG`, `T_VOID`, `T_FLOAT` and `T_DOUBLE`;
for `T_BOOLEAN` it yields 1 if the low byte of `rax` is non-zero and 0
otherwise; for `T_CHAR` it zero-extends the low 16 bits; for `T_BYTE` and
`T_SHORT` the 32 bit result is the sign extension of the low 8 and 16 bits;
for `T_OBJECT` it returns the contents of the frame's oop-temp slot whatever
`rax` held.  Each of these ten handlers ends by returning to the address on
top of the stack.  For every other `BasicType` generation stops at
`ShouldNotReachHere` and there is no handler. -/
theorem result_handler_for_type (cfg : Config) (s : Machine) :
    (∀ t ∈ [BasicType.T_INT, BasicType.T_LONG, BasicType.T_VOID, BasicType.T_FLOAT,
        BasicType.T_DOUBLE], result_handler_rax cfg t s = some (s.reg rax))
    ∧ result_handler_rax cfg BasicType.T_BOOLEAN s
      = some (if s.reg rax % 2 ^ 8 ≠ 0 then 1 else 0)
    ∧ result_handler_rax cfg BasicType.T_CHAR s = some (s.reg rax % 2 ^ 16)
    ∧ (∃ v, result_handler_rax cfg BasicType.T_BYTE s = some v ∧ v < 2 ^ 32
        ∧ as_signed 32 v = as_signed 8 (s.reg rax))
    ∧ (∃ v, result_handler_rax cfg BasicType.T_SHORT s = some v ∧ v < 2 ^ 32
        ∧ as_signed 32 v = as_signed 16 (s.reg rax))
    ∧ result_handler_rax cfg BasicType.T_OBJECT s
      = some (s.mem (ea (s.reg rbp) (cfg.interpreter_frame_oop_temp_offset * wordSize)))
    ∧ (∀ t ∈ [BasicType.T_BOOLEAN, BasicType.T_CHAR, BasicType.T_BYTE, BasicType.T_SHORT,
        BasicType.T_INT, BasicType.T_LONG, BasicType.T_VOID, BasicType.T_FLOAT,
        BasicType.T_DOUBLE, BasicType.T_OBJECT],
        result_handler_exit cfg t s = some (some (Exit.jmp (s.mem (s.reg rsp)))))
    ∧ (∀ t, t ∉ [BasicType.T_BOOLEAN, BasicType.T_CHAR, BasicType.T_BYTE, BasicType.T_SHORT,
        BasicType.T_INT, BasicType.T_LONG, BasicType.T_VOID, BasicType.T_FLOAT,
        BasicType.T_DOUBLE, BasicType.T_OBJECT] → generate_result_handler_for cfg t = none) := by
  refine ⟨?_, ?_, ?_, ?_, ?_, ?_, ?_, ?_⟩
  · intro t ht
    simp only [List.mem_cons, List.mem_singleton, List.not_mem_nil, or_false] at ht
    rcases ht with h | h | h | h | h <;> subst h <;>
      simp [result_handler_rax, generate_result_handler_for, result_handler_fixup, ret_imm16, mov]
  · have e : s.reg rax % 4294967296 % 256 = s.reg rax % 256 := by omega
    simp [result_handler_rax, generate_result_handler_for, result_handler_fixup, ret_imm16, mov,
      c2bool, e]
  · simp [result_handler_rax, generate_result_handler_for, result_handler_fixup, ret_imm16, mov,
      movzwl]
  · refine ⟨_, ?_, ?_, (sign_extend_value (s.reg rax)).1⟩
    · simp [result_handler_rax, generate_result_handler_for, result_handler_fixup, ret_imm16,
        mov, sign_extend_byte]
    · split_ifs <;> omega
  · refine ⟨_, ?_, ?_, (sign_extend_value (s.reg rax)).2⟩
    · simp [result_handler_rax, generate_result_handler_for, result_handler_fixup, ret_imm16,
        mov, sign_extend_short]
    · split_ifs <;> omega
  · simp [result_handler_rax, generate_result_handler_for, result_handler_fixup, ret_imm16, mov,
      verify_oop]
  · intro t ht
    simp only [List.mem_cons, List.mem_singleton, List.not_mem_nil, or_false] at ht
    rcases ht with h | h | h | h | h | h | h | h | h | h <;> subst h <;>
      simp [result_handler_exit, generate_result_handler_for, result_handler_fixup, ret_imm16,
        mov, c2bool, movzwl, sign_extend_byte, sign_extend_short, verify_oop]
  · intro t ht
    cases t <;> simp at ht <;> rfl

/-- C26, witness: the `T_INT` handler is one of the ten, `T_ARRAY` has none. -/
theorem result_handler_for_type_witness :
    result_handler_rax linux_x86_64 BasicType.T_INT (entry_state 0 0)
      = some ((entry_state 0 0).reg rax)
    ∧ generate_result_handler_for linux_x86_64 BasicType.T_ARRAY = none :=
  ⟨(result_handler_for_type linux_x86_64 (entry_state 0 0)).1 BasicType.T_INT (by decide),
    (result_handler_for_type linux_x86_64 (entry_state 0 0)).2.2.2.2.2.2.2 BasicType.T_ARRAY
      (by decide)⟩
/-! ## Initialisation of the additional locals -/

theorem locals_loop_pushes (n : Nat) : ∀ (fuel : Nat) (s : Machine), 0 < n → n < 2 ^ 31 →
    n ≤ fuel → s.reg rdx % 2 ^ 32 = n →
    (locals_loop fuel s).exit? = none
    ∧ (locals_loop fuel s).state.trace = s.trace ++ List.replicate n (Event.push 0)
    ∧ (locals_loop fuel s).state.reg rdx = 0 := by
  induction n with
  | zero => intro fuel s h; omega
  | succ k ih =>
    intro fuel s _ hk hf hd
    obtain ⟨f, rfl⟩ : ∃ f, fuel = f + 1 := ⟨fuel - 1, by omega⟩
    have hw : w32 (((k + 1 : Nat) : Int) - 1) = k := by
      unfold w32
      norm_num at hk ⊢
      omega
    have hw2 : w32 ((s.reg rdx : Int) % 4294967296 - 1) = k := by
      unfold w32
      norm_num at hk hd ⊢
      omega
    by_cases h1 : k = 0
    · have hg : greater_after_dec32 (s.reg rdx) = false := by
        unfold greater_after_dec32
        rw [hd]
        simp only [hw, h1]
        rfl
      subst h1
      simp [locals_loop, push, mov, hg, hw2]
    · have hg : greater_after_dec32 (s.reg rdx) = true := by
        unfold greater_after_dec32
        rw [hd]
        simp only [hw]
        have a1 : (k != 0) = true := by simp [h1]
        have a2 : decide (2 ^ 31 ≤ k) = false := by
          rw [decide_eq_false_iff_not]
          omega
        have a3 : (k + 1 == 2 ^ 31) = false := by
          rw [beq_eq_false_iff_ne]
          omega
        rw [a1, a2, a3]
        rfl
      have hrun : locals_loop (f + 1) s
          = locals_loop f (((s.push (w64 0)).set rdx k)) := by
        simp [locals_loop, push, mov, hg, hw2]
      have hd1 : (((s.push (w64 0)).set rdx k)).reg rdx % 2 ^ 32 = k := by
        simp only [set_reg, if_true]
        omega
      obtain ⟨i0, i1, i2⟩ := ih f _ (by omega) (by omega) (by omega) hd1
      rw [hrun]
      refine ⟨i0, ?_, i2⟩
      rw [i1]
      simp [List.replicate_succ]

theorem as_signed_32 (x : Nat) :
    (lessEqual_zero32 x = true ↔ as_signed 32 x ≤ 0)
    ∧ (0 < as_signed 32 x → (as_signed 32 x).toNat = x % 2 ^ 32 ∧ x % 2 ^ 32 < 2 ^ 31) := by
  unfold lessEqual_zero32 as_signed
  norm_num
  constructor
  · split_ifs <;> omega
  · split_ifs <;> omega

theorem native_entry_frame_checks_trace (cfg : Config) (s : Machine) :
    (native_entry_frame_checks cfg s).state.trace = s.trace := by
  by_cases hA : cfg.ASSERT = true
  · simp [native_entry_frame_checks, load_unsigned_short, stop, hA]
    split_ifs <;> simp
  · simp [native_entry_frame_checks, hA]

/-- C27: with `n` the signed 32 bit count of additional locals in `rdx`, the
locals-initialisation code of `generate_normal_entry` (lines 1239-1251)
falls through having pushed exactly `n` null words when `n > 0`, and does
nothing at all when `n <= 0`.  The loop ends by its own test: any iteration
bound of at least `n` gives the same run.  The native entry has no such
loop: before the fixed frame it pushes only the two null words of the
result-handler and oop-temp slots, and the pushes of its whole frame code
are those two followed by the eleven words of the fixed frame. -/
theorem locals_initialised (cfg : Config) (env : Env) (s : Machine) :
    (0 < additional_locals_signed s →
      (normal_entry_locals s).exit? = none
      ∧ (normal_entry_locals s).state.trace
        = s.trace ++ List.replicate (additional_locals_signed s).toNat (Event.push 0)
      ∧ ∀ fuel, (additional_locals_signed s).toNat ≤ fuel →
          (locals_loop fuel s).exit? = none
          ∧ (locals_loop fuel s).state.trace = (normal_entry_locals s).state.trace)
    ∧ (additional_locals_signed s ≤ 0 → normal_entry_locals s = Run.ok () s)
    ∧ (native_entry_frame_start s).exit? = none
    ∧ (native_entry_frame_start s).state.trace = s.trace ++ [Event.push 0, Event.push 0]
    ∧ pushes (native_entry_frame cfg env s).state.trace
      = pushes s.trace ++ 0 :: 0
          :: fixed_frame_words cfg env (native_entry_frame_start s).state true := by
  obtain ⟨hle, hpos⟩ := as_signed_32 (s.reg rdx)
  have hstart : (native_entry_frame_start s).state.trace
      = s.trace ++ [Event.push 0, Event.push 0] := by
    simp [native_entry_frame_start, mov, load_unsigned_short, pop, push]
  refine ⟨?_, ?_, (native_entry_frame_start_run s).1, hstart, ?_⟩
  · intro h
    unfold additional_locals_signed at h ⊢
    obtain ⟨e1, e2⟩ := hpos h
    have hn : ¬ lessEqual_zero32 (s.reg rdx) = true := by
      rw [hle]
      omega
    have hrun : normal_entry_locals s = locals_loop (s.reg rdx % 2 ^ 32) s := by
      simp [normal_entry_locals, hn]
    have h0 : 0 < s.reg rdx % 2 ^ 32 := by omega
    obtain ⟨a0, a1, _⟩ := locals_loop_pushes _ (s.reg rdx % 2 ^ 32) s h0 e2 (le_refl _) rfl
    rw [hrun, e1]
    refine ⟨a0, a1, ?_⟩
    intro fuel hf
    obtain ⟨b0, b1, _⟩ := locals_loop_pushes _ fuel s h0 e2 hf rfl
    exact ⟨b0, by rw [b1, a1]⟩
  · intro h
    unfold additional_locals_signed at h
    have hn : lessEqual_zero32 (s.reg rdx) = true := hle.2 h
    simp [normal_entry_locals, hn]
  · have h0 := (native_entry_frame_start_run s).1
    unfold native_entry_frame
    rcases bind_cases native_entry_frame_start
      (fun _ => generate_fixed_frame cfg env true >>= fun _ => native_entry_frame_checks cfg) s
      with ⟨e, s1, h1, _⟩ | ⟨a, s1, h1, h2⟩
    · rw [h1] at h0
      simp at h0
    · have hs1 : (native_entry_frame_start s).state = s1 := by rw [h1]; rfl
      rw [hs1] at hstart ⊢
      obtain ⟨f0, _, _, f3, _⟩ := fixed_frame_facts cfg env s1 true
      rcases bind_cases (generate_fixed_frame cfg env true)
        (fun _ => native_entry_frame_checks cfg) s1 with ⟨e, s2, g1, _⟩ | ⟨b, s2, g1, g2⟩
      · rw [g1] at f0
        simp at f0
      · have hs2 : (generate_fixed_frame cfg env true s1).state = s2 := by rw [g1]; rfl
        rw [hs2] at f3
        rw [h2, g2, native_entry_frame_checks_trace, f3, hstart]
        simp [pushes, List.filterMap_append]

/-- C27, witness: three additional locals, and minus one. -/
theorem locals_initialised_witness :
    (normal_entry_locals ((entry_state 0 0).set rdx 3)).state.trace
      = ((entry_state 0 0).set rdx 3).trace
        ++ List.replicate (additional_locals_signed ((entry_state 0 0).set rdx 3)).toNat
            (Event.push 0)
    ∧ normal_entry_locals ((entry_state 0 0).set rdx 0xFFFFFFFF)
      = Run.ok () ((entry_state 0 0).set rdx 0xFFFFFFFF) :=
  ⟨((locals_initialised linux_x86_64 idle_env ((entry_state 0 0).set rdx 3)).1
      (by decide)).2.1,
    (locals_initialised linux_x86_64 idle_env ((entry_state 0 0).set rdx 0xFFFFFFFF)).2.1
      (by decide)⟩

/-! ## Service thread: poll and work of one iteration -/

theorem poll_log {W : Type} (env : ServiceEnv W) (st : ServiceState W) :
    (poll env st).2.log = st.log ++ poll_events (poll env st).1.get := by
  simp [poll, has_work, poll_events, poll_order, Flags.get]

theorem work_if_log {W : Type} (env : ServiceEnv W) (b : Bool) (w : Work)
    (st : ServiceState W) :
    (work_if env b w st).log = st.log ++ (if b then [ServiceEvent.work w] else []) := by
  cases b <;> simp [work_if]

theorem dequeue_if_log {W : Type} (env : ServiceEnv W) (b : Bool) (st : ServiceState W) :
    (if b then dequeue_event env st else st).log
      = st.log ++ (if b then [ServiceEvent.dequeue] else []) := by
  cases b <;> simp [dequeue_event]

theorem process_work_log {W : Type} (env : ServiceEnv W) (f : Flags) (st : ServiceState W) :
    (process_work env f st).log = st.log ++ work_events f.get := by
  simp only [process_work, work_if_log, dequeue_if_log, work_events, work_order, raised,
    Flags.get, List.append_assoc, List.append_nil]

theorem raised_count (r : Work → Bool) (w : Work) : ∀ l : List Work,
    (raised r l).count (ServiceEvent.work w) = if r w then l.count w else 0 := by
  intro l
  induction l with
  | nil => simp [raised]
  | cons a l ih =>
    simp only [raised, List.count_append, ih, List.count_cons]
    by_cases ha : a = w
    · subst ha
      cases r a <;> simp
      omega
    · have hne : (ServiceEvent.work a == ServiceEvent.work w) = false := by
        simp [ha]
      have hc : List.count (ServiceEvent.work w) [ServiceEvent.work a] = 0 := by
        rw [List.count_cons, hne]
        rfl
      cases hr : r a <;> cases hw : r w <;> simp [ha, hne, hc]

theorem poll_loop_log {W : Type} (env : ServiceEnv W) : ∀ (fuel : Nat) (st : ServiceState W)
    (r : Flags × ServiceState W), poll_loop env fuel st = some r →
    r.1.any = true
    ∧ ∃ k, k < fuel ∧ r.2.log = st.log ++ idle_rounds k ++ poll_events r.1.get := by
  intro fuel
  induction fuel with
  | zero => intro st r h; simp [poll_loop] at h
  | succ n ih =>
    intro st r h
    unfold poll_loop at h
    by_cases ha : (poll env st).1.any = true
    · simp only [ha, if_true, Option.some.injEq] at h
      subst h
      exact ⟨ha, 0, Nat.succ_pos n, by simp [idle_rounds, poll_log]⟩
    · simp only [ha, if_false] at h
      obtain ⟨h1, k, hk, h2⟩ := ih _ r h
      refine ⟨h1, k + 1, by omega, ?_⟩
      have hq : poll_events (poll env st).1.get = poll_events (fun _ => false) := by
        have hf : ∀ w, (poll env st).1.get w = false := by
          intro w
          simp only [Flags.any, Bool.or_eq_true, not_or, Bool.not_eq_true] at ha
          cases w <;> simp [Flags.get, ha]
        simp [poll_events, hf]
      rw [h2]
      simp [service_wait, poll_log, hq, idle_rounds]

theorem poll_loop_mono {W : Type} (env : ServiceEnv W) : ∀ (fuel : Nat) (st : ServiceState W)
    (r : Flags × ServiceState W), poll_loop env fuel st = some r →
    ∀ more, poll_loop env (fuel + more) st = some r := by
  intro fuel
  induction fuel with
  | zero => intro st r h; simp [poll_loop] at h
  | succ n ih =>
    intro st r h more
    have e : n + 1 + more = (n + more) + 1 := by omega
    rw [e]
    unfold poll_loop at h ⊢
    by_cases ha : (poll env st).1.any = true
    · simp only [ha, if_true] at h ⊢
      exact h
    · simp only [ha, if_false] at h ⊢
      exact ih _ r h more

theorem poll_order_complete (w : Work) : w ∈ poll_order ∧ poll_order.count w = 1
    ∧ work_order.count w = 1 := by
  cases w <;> decide

/-- C28: in one outer iteration of `ServiceThread::service_thread_entry`
that gets past the poll loop, the log of the thread is: some number `k` of
rounds in which all thirteen predicates were called and all returned false,
each followed by one wait; then one poll in which all thirteen predicates
were called and at least one returned true, followed by no wait; then the
dequeue if `has_jvmti_events` was raised and, for every kind of work, its
routine exactly once if its flag was raised by that final poll and not at
all otherwise.  A larger bound on the number of polls gives the same run,
and an iteration whose first poll finds work gets past the loop. -/
theorem service_iteration_polls_and_works {W : Type} (env : ServiceEnv W) (fuel : Nat)
    (st : ServiceState W) :
    (∀ st2, service_thread_iteration env fuel st = some st2 →
      ∃ (k : Nat) (f : Flags), f.any = true
        ∧ st2.log = st.log ++ idle_rounds k ++ poll_events f.get ++ work_events f.get
        ∧ (∀ w, (poll_events f.get).count (ServiceEvent.poll w (f.get w)) = 1)
        ∧ (∀ w, (poll_events (fun _ => false)).count (ServiceEvent.poll w false) = 1)
        ∧ (∀ w, (work_events f.get).count (ServiceEvent.work w) = if f.get w then 1 else 0)
        ∧ (work_events f.get).count ServiceEvent.wait = 0
        ∧ ∀ more, service_thread_iteration env (fuel + more) st = some st2)
    ∧ ((poll env st).1.any = true →
        service_thread_iteration env (fuel + 1) st
          = some (process_work env (poll env st).1 (poll env st).2)) := by
  have hpoll : ∀ (r : Work → Bool) (w : Work),
      (poll_events r).count (ServiceEvent.poll w (r w)) = 1 := by
    intro r w
    have hinj : ∀ l : List Work, (l.map fun v => ServiceEvent.poll v (r v)).count
        (ServiceEvent.poll w (r w)) = l.count w := by
      intro l
      induction l with
      | nil => rfl
      | cons a l ih =>
        rw [List.map_cons, List.count_cons, List.count_cons, ih]
        by_cases ha : a = w
        · subst ha
          simp
        · simp [ha]
    unfold poll_events
    rw [hinj, (poll_order_complete w).2.1]
  constructor
  · intro st2 h
    unfold service_thread_iteration at h
    cases hp : poll_loop env fuel st with
    | none => rw [hp] at h; simp at h
    | some r =>
      rw [hp] at h
      simp only [Option.some.injEq] at h
      obtain ⟨hany, k, _, hlog⟩ := poll_loop_log env fuel st r hp
      refine ⟨k, r.1, hany, ?_, hpoll _, hpoll (fun _ => false), ?_, ?_, ?_⟩
      · rw [← h, process_work_log, hlog]
      · intro w
        unfold work_events
        rw [List.count_append, raised_count, (poll_order_complete w).2.2]
        have hd : List.count (ServiceEvent.work w)
            (if r.1.get Work.has_jvmti_events = true then [ServiceEvent.dequeue] else []) = 0 := by
          split <;> rfl
        rw [hd]
        simp
      · have hr : ∀ l : List Work, (raised r.1.get l).count ServiceEvent.wait = 0 := by
          intro l
          induction l with
          | nil => rfl
          | cons a l ih =>
            simp only [raised, List.count_append, ih]
            split <;> rfl
        unfold work_events
        rw [List.count_append, hr]
        split <;> rfl
      · intro more
        unfold service_thread_iteration
        rw [poll_loop_mono env fuel st r hp more]
        exact congrArg some h
  · intro ha
    unfold service_thread_iteration poll_loop
    simp [ha]

/-- C28, witness: string table work shows up after two waits; the third
poll raises the one flag and the one routine runs. -/
theorem service_iteration_polls_and_works_witness :
    ∃ (k : Nat) (f : Flags), f.any = true
      ∧ (idle_rounds 2 ++ poll_events (fun w => w == Work.stringtable_work)
          ++ [ServiceEvent.work Work.stringtable_work])
        = [] ++ idle_rounds k ++ poll_events f.get ++ work_events f.get :=
  match (service_iteration_polls_and_works late_stringtable 5 ⟨0, []⟩).1
    ⟨2, idle_rounds 2 ++ poll_events (fun w => w == Work.stringtable_work)
      ++ [ServiceEvent.work Work.stringtable_work]⟩ rfl with
  | ⟨k, f, h1, h2, _⟩ => ⟨k, f, h1, h2⟩

/-! ## The frame setup check -/

theorem same_frame_refl (s : Machine) : same_frame s s := ⟨rfl, rfl, rfl⟩

theorem same_frame_fresh {cfg : Config} {s t : Machine} (h : fresh_frame cfg s)
    (hst : same_frame s t) : fresh_frame cfg t := by
  obtain ⟨h1, h2⟩ := h
  obtain ⟨a1, a2, a3⟩ := hst
  unfold fresh_frame
  rw [a1, a2, a3]
  exact ⟨h1, h2⟩

theorem same_frame_trans {s t u : Machine} (h1 : same_frame s t) (h2 : same_frame t u) :
    same_frame s u := by
  obtain ⟨a1, a2, a3⟩ := h1
  obtain ⟨b1, b2, b3⟩ := h2
  rw [a1] at b3
  exact ⟨by rw [b1, a1], by rw [b2, a2], by rw [b3, a3]⟩

theorem Stable.stable_pure {α : Type} {cfg : Config} (a : α) : Stable cfg (pure a : Asm α) :=
  fun s _ => same_frame_refl s

theorem Stable.stable_get {cfg : Config} : Stable cfg Asm.get := fun s _ => same_frame_refl s

theorem Stable.stable_exit {α : Type} {cfg : Config} (e : Exit) :
    Stable cfg (Asm.exit e : Asm α) := fun s _ => same_frame_refl s

theorem Stable.stable_stop {α : Type} {cfg : Config} (msg : String) :
    Stable cfg (stop msg : Asm α) := fun s _ => same_frame_refl s

theorem Stable.stable_bind {α β : Type} {cfg : Config} {x : Asm α} {f : α → Asm β}
    (hx : Stable cfg x) (hf : ∀ a, Stable cfg (f a)) : Stable cfg (x >>= f) := by
  intro s h
  rcases bind_cases x f s with ⟨e, s1, h1, h2⟩ | ⟨a, s1, h1, h2⟩
  · have := hx s h
    rw [h1] at this
    rw [h2]
    exact this
  · have := hx s h
    rw [h1] at this
    rw [h2]
    exact same_frame_trans this (hf a s1 (same_frame_fresh h this))

theorem Stable.stable_ite {α : Type} {cfg : Config} {c : Prop} [Decidable c] {x y : Asm α}
    (hx : Stable cfg x) (hy : Stable cfg y) : Stable cfg (if c then x else y) := by
  split
  · exact hx
  · exact hy

theorem Stable.stable_silent {cfg : Config} (f : Machine → Machine)
    (h : ∀ s, (f s).reg rsp = s.reg rsp ∧ (f s).reg rbp = s.reg rbp ∧ (f s).mem = s.mem) :
    Stable cfg (Asm.step f) := by
  intro s _
  obtain ⟨h1, h2, h3⟩ := h s
  exact ⟨h1, h2, by simp only [run_step, state_ok]; rw [h3]⟩

theorem Stable.stable_mov {cfg : Config} (r : Register) (v : Machine → Nat) (h1 : r ≠ rsp)
    (h2 : r ≠ rbp) : Stable cfg (mov r v) :=
  Stable.stable_silent _ fun s => by simp [Ne.symm h1, Ne.symm h2]

theorem Stable.stable_movl {cfg : Config} (r : Register) (v : Machine → Nat) (h1 : r ≠ rsp)
    (h2 : r ≠ rbp) : Stable cfg (movl r v) :=
  Stable.stable_silent _ fun s => by simp [Ne.symm h1, Ne.symm h2]

theorem Stable.stable_load_unsigned_short {cfg : Config} (r : Register) (v : Machine → Nat)
    (h1 : r ≠ rsp) (h2 : r ≠ rbp) : Stable cfg (load_unsigned_short r v) :=
  Stable.stable_silent _ fun s => by simp [Ne.symm h1, Ne.symm h2]

theorem Stable.stable_movptr_fld {cfg : Config} (b : Register) (f : Field)
    (v : Machine → Nat) : Stable cfg (movptr_fld b f v) :=
  Stable.stable_silent _ fun s => by simp

theorem Stable.stable_movl_fld {cfg : Config} (b : Register) (f : Field) (v : Machine → Nat) :
    Stable cfg (movl_fld b f v) :=
  Stable.stable_silent _ fun s => by simp

theorem Stable.stable_movbool {cfg : Config} (b : Register) (f : Field) (v : Bool) :
    Stable cfg (movbool b f v) :=
  Stable.stable_silent _ fun s => by simp

theorem Stable.stable_call {cfg : Config} (env : Env) (c : Callee)
    (args : List (Machine → Nat)) (h : keeps_frame env c) : Stable cfg (call env c args) := by
  intro s hs
  obtain ⟨h1, h2, h3⟩ := h s
  simp only [call, run_step, state_ok]
  refine ⟨by rw [call_reg, h1], by rw [call_reg, h2], ?_⟩
  rw [call_mem, hs.1, h3]

theorem Stable.stable_call_VM {cfg : Config} (env : Env) (c : Callee)
    (args : List (Machine → Nat)) (h : keeps_frame env c) : Stable cfg (call_VM env c args) :=
  Stable.stable_bind (Stable.stable_call env c args h) fun _ =>
    Stable.stable_bind Stable.stable_get fun _ =>
      Stable.stable_ite (Stable.stable_exit _) (Stable.stable_pure _)

theorem Stable.stable_vm_routine {cfg : Config} (env : Env) (c : Callee)
    (args : List (Machine → Nat)) (h : keeps_frame env c) :
    Stable cfg (vm_routine env c args) :=
  Stable.stable_bind (Stable.stable_call env c args h) fun _ =>
    Stable.stable_bind Stable.stable_get fun _ =>
      Stable.stable_ite (Stable.stable_exit _) (Stable.stable_pure _)

theorem Stable.stable_load_mirror {cfg : Config} (env : Env) (d m t : Register)
    (hd : d ≠ rsp ∧ d ≠ rbp) (ht : t ≠ rsp ∧ t ≠ rbp) : Stable cfg (load_mirror env d m t) :=
  Stable.stable_silent _ fun s => by simp [Ne.symm hd.1, Ne.symm hd.2, Ne.symm ht.1, Ne.symm ht.2]

theorem c_rarg1_ne_frame (cfg : Config) : c_rarg1 cfg ≠ rsp ∧ c_rarg1 cfg ≠ rbp := by
  unfold c_rarg1
  split <;> exact ⟨by decide, by decide⟩

theorem Stable.stable_increment_mask_and_jump {cfg : Config} (base : Register)
    (counter mask : Field) (scratch : Register) (h1 : scratch ≠ rsp) (h2 : scratch ≠ rbp) :
    Stable cfg (increment_mask_and_jump cfg base counter mask scratch) := by
  unfold increment_mask_and_jump
  refine Stable.stable_bind (Stable.stable_movl _ _ h1 h2) fun _ => ?_
  refine Stable.stable_bind (Stable.stable_movl _ _ h1 h2) fun _ => ?_
  refine Stable.stable_bind (Stable.stable_movl_fld _ _ _) fun _ => ?_
  refine Stable.stable_bind (Stable.stable_movl _ _ h1 h2) fun _ => ?_
  exact Stable.stable_bind Stable.stable_get fun _ => Stable.stable_pure _

theorem Stable.stable_counter_incr {cfg : Config} (env : Env)
    (h : keeps_frame env Callee.get_method_counters) :
    Stable cfg (generate_counter_incr cfg env) := by
  unfold generate_counter_incr
  refine Stable.stable_bind ?_ fun mdo => ?_
  · refine Stable.stable_ite ?_ (Stable.stable_pure _)
    refine Stable.stable_bind (Stable.stable_mov _ _ (by decide) (by decide)) fun _ => ?_
    exact Stable.stable_bind Stable.stable_get fun _ => Stable.stable_pure _
  · refine Stable.stable_ite ?_ ?_
    · exact Stable.stable_increment_mask_and_jump _ _ _ _ (by decide) (by decide)
    · refine Stable.stable_bind (Stable.stable_call _ _ _ h) fun _ => ?_
      refine Stable.stable_bind Stable.stable_get fun _ => ?_
      refine Stable.stable_ite (Stable.stable_pure _) ?_
      exact Stable.stable_increment_mask_and_jump _ _ _ _ (by decide) (by decide)

theorem Stable.stable_counter_overflow {cfg : Config} (env : Env)
    (h : keeps_frame env Callee.frequency_counter_overflow) :
    Stable cfg (generate_counter_overflow cfg env) := by
  unfold generate_counter_overflow
  refine Stable.stable_bind
    (Stable.stable_movl _ _ (c_rarg1_ne_frame cfg).1 (c_rarg1_ne_frame cfg).2) fun _ => ?_
  refine Stable.stable_bind (Stable.stable_call_VM _ _ _ h) fun _ => ?_
  exact Stable.stable_mov _ _ (by decide) (by decide)

theorem bang_pages_mem (ps : Int) (k : Nat) : ∀ (p : Nat) (s : Machine) (a : Nat),
    (∀ i, i < k → a ≠ ea (s.reg rsp) (-(((p + i : Nat) : Int) * ps))) →
    (bang_pages ps k p s).state.mem a = s.mem a := by
  induction k with
  | zero => intro p s a _; simp [bang_pages]
  | succ k ih =>
    intro p s a h
    have h0 := h 0 (Nat.succ_pos k)
    simp only [Nat.add_zero] at h0
    simp only [bang_pages, bang_stack_with_offset, run_bind, run_step]
    rw [ih]
    · simp [upd, h0]
    · intro i hi
      have := h (i + 1) (by omega)
      have e : p + (i + 1) = p + 1 + i := by omega
      rw [e] at this
      exact this

theorem bang_address_ne (z ps q : Int) (x : Nat) (hz : 0 ≤ z)
    (hz2 : z < 2 ^ 64) (hp : 0 < ps) (h1 : 1 ≤ q) (hq : q ≤ Int.tdiv z ps) :
    x ≠ ea x (-(q * ps)) := by
  rw [Int.tdiv_eq_ediv hz (le_of_lt hp)] at hq
  have h2 : z / ps * ps ≤ z := Int.ediv_mul_le z (ne_of_gt hp)
  have h3 : q * ps ≤ z / ps * ps := Int.mul_le_mul_of_nonneg_right hq (le_of_lt hp)
  have h4 : 0 < q * ps := by positivity
  generalize q * ps = d at h3 h4 ⊢
  unfold ea w64
  norm_num at hz2 ⊢
  omega

theorem Stable.stable_bang {cfg : Config} (b : Bool) (hc : frame_constants cfg) :
    Stable cfg (bang_stack_shadow_pages cfg b) := by
  obtain ⟨_, _, _, _, _, _, hpage, hzone0, hzone⟩ := hc
  have hloop : Stable cfg (bang_pages cfg.page_size
      (Int.tdiv cfg.stack_shadow_zone_size cfg.page_size).toNat 1) := by
    intro s _
    obtain ⟨_, r2, _, _⟩ := bang_pages_run cfg.page_size
      (Int.tdiv cfg.stack_shadow_zone_size cfg.page_size).toNat 1 s
    have hm := bang_pages_mem cfg.page_size
      (Int.tdiv cfg.stack_shadow_zone_size cfg.page_size).toNat 1 s (s.reg rsp) (by
        intro i hi
        exact bang_address_ne cfg.stack_shadow_zone_size cfg.page_size _ _ hzone0 hzone hpage
          (by omega) (by omega))
    exact ⟨by rw [r2], by rw [r2], hm⟩
  unfold bang_stack_shadow_pages
  repeat' (first
    | exact hloop | exact Stable.stable_pure _ | exact Stable.stable_get
    | exact Stable.stable_stop _ | exact Stable.stable_movptr_fld _ _ _
    | apply Stable.stable_bind | apply Stable.stable_ite | intro _)

theorem fresh_frame_setup (cfg : Config) (hc : frame_constants cfg) (s : Machine)
    (h : fresh_frame cfg s) : frame_setup cfg s := by
  obtain ⟨h1, h2⟩ := h
  obtain ⟨c1, c2, _⟩ := hc
  unfold frame_setup
  rw [c2]
  have e : ea (s.reg rbp) (-9 * (wordSize : Int)) = s.reg rsp := by rw [h1]; rfl
  rw [e, h2, c1, h1]
  unfold ea w64 wordSize
  norm_num
  omega

theorem Ends.of_stable {α : Type} {cfg : Config} (hc : frame_constants cfg) {x : Asm α}
    (hx : Stable cfg x) : Ends cfg x :=
  fun s h => fresh_frame_setup cfg hc _ (same_frame_fresh h (hx s h))

theorem Ends.ends_bind {α β : Type} {cfg : Config} (hc : frame_constants cfg) {x : Asm α}
    {f : α → Asm β} (hx : Stable cfg x) (hf : ∀ a, Ends cfg (f a)) : Ends cfg (x >>= f) := by
  intro s h
  rcases bind_cases x f s with ⟨e, s1, h1, h2⟩ | ⟨a, s1, h1, h2⟩
  · have := hx s h
    rw [h1] at this
    rw [h2]
    exact fresh_frame_setup cfg hc _ (same_frame_fresh h this)
  · have := hx s h
    rw [h1] at this
    rw [h2]
    exact hf a s1 (same_frame_fresh h this)

theorem Ends.ends_ite {α : Type} {cfg : Config} {c : Prop} [Decidable c] {x y : Asm α}
    (hx : Ends cfg x) (hy : Ends cfg y) : Ends cfg (if c then x else y) := by
  split
  · exact hx
  · exact hy

theorem Ends.of_locks {α : Type} {cfg : Config} {x : Asm α} (hx : Locks cfg x) : Ends cfg x :=
  fun s h => (hx s h).1

theorem Locks.locks_bind {α β : Type} {cfg : Config} (hc : frame_constants cfg) {x : Asm α}
    {f : α → Asm β} (hx : Stable cfg x) (hf : ∀ a, Locks cfg (f a)) : Locks cfg (x >>= f) := by
  intro s h
  rcases bind_cases x f s with ⟨e, s1, h1, h2⟩ | ⟨a, s1, h1, h2⟩
  · have := hx s h
    rw [h1] at this
    rw [h2]
    refine ⟨fresh_frame_setup cfg hc _ (same_frame_fresh h this), ?_⟩
    intro hn
    simp at hn
  · have := hx s h
    rw [h1] at this
    simp only [state_ok] at this
    rw [h2]
    obtain ⟨l1, l2⟩ := hf a s1 (same_frame_fresh h this)
    refine ⟨l1, fun hn => ?_⟩
    obtain ⟨m1, m2, m3⟩ := l2 hn
    obtain ⟨a1, a2, a3⟩ := this
    unfold monitor_allocated
    rw [a1] at m2 m3
    rw [a3] at m3
    exact ⟨by rw [m1, a2], m2, m3⟩

theorem lock_arith (b : Nat) (q : Int) (hq0 : 0 ≤ q) (hq : 8 * q < 2 ^ 64) :
    (b + w64 ((w64 (-9) : Nat) - q) * 8) % 2 ^ 64
      = w64 ((ea b (-72) : Nat) - (w64 (8 * q) : Nat)) := by
  have e9 : w64 (-9) = 18446744073709551607 := by decide
  rw [e9]
  unfold ea w64
  norm_num at hq ⊢
  omega

theorem lock_obj_ne (x : Nat) (sz obj : Int) (h0 : 0 ≤ obj) (h1 : obj < sz) (h2 : sz < 2 ^ 64) :
    x ≠ ea (w64 ((x : Int) - (w64 sz : Nat))) obj := by
  unfold ea w64
  norm_num at h2 ⊢
  omega

theorem lock_allocate_locks (cfg : Config) (env : Env) (hc : frame_constants cfg)
    (hk : keeps_frame env Callee.lock_object) :
    Locks cfg (do
      subptr rsp (Imm cfg.interpreter_frame_monitor_size_in_bytes)
      subptr_mem rbp (cfg.interpreter_frame_monitor_block_top_offset * wordSize)
        (Int.tdiv cfg.interpreter_frame_monitor_size_in_bytes wordSize)
      movptr_to rsp cfg.BasicObjectLock_obj_offset (R rax)
      mov (c_rarg1 cfg) (R rsp)
      vm_routine env Callee.lock_object [R (c_rarg1 cfg)] : Asm Unit) := by
  intro s hs
  obtain ⟨h1, h2⟩ := hs
  obtain ⟨c1, c2, c3, c4, c5, c6, _⟩ := hc
  obtain ⟨n1, n2⟩ := c_rarg1_ne_frame cfg
  have hrun : ∃ S : Machine, S.reg rsp = w64 ((s.reg rsp : Int)
        - (w64 cfg.interpreter_frame_monitor_size_in_bytes : Nat))
      ∧ S.reg rbp = s.reg rbp
      ∧ S.mem (ea (s.reg rbp) (-72))
        = w64 ((s.mem (s.reg rsp) : Int)
            - Int.tdiv cfg.interpreter_frame_monitor_size_in_bytes wordSize)
      ∧ ((do
        subptr rsp (Imm cfg.interpreter_frame_monitor_size_in_bytes)
        subptr_mem rbp (cfg.interpreter_frame_monitor_block_top_offset * wordSize)
          (Int.tdiv cfg.interpreter_frame_monitor_size_in_bytes wordSize)
        movptr_to rsp cfg.BasicObjectLock_obj_offset (R rax)
        mov (c_rarg1 cfg) (R rsp)
        vm_routine env Callee.lock_object [R (c_rarg1 cfg)] : Asm Unit) s).state
        = S.call env Callee.lock_object [S.reg (c_rarg1 cfg)] := by
    refine ⟨((((s.set rsp (w64 ((s.reg rsp : Int)
        - (w64 cfg.interpreter_frame_monitor_size_in_bytes : Nat)))).store
          (ea (s.reg rbp) (cfg.interpreter_frame_monitor_block_top_offset * wordSize))
          (w64 ((s.mem (ea (s.reg rbp)
              (cfg.interpreter_frame_monitor_block_top_offset * wordSize)) : Int)
            - Int.tdiv cfg.interpreter_frame_monitor_size_in_bytes wordSize))).store
          (ea (w64 ((s.reg rsp : Int)
            - (w64 cfg.interpreter_frame_monitor_size_in_bytes : Nat)))
            cfg.BasicObjectLock_obj_offset) (s.reg rax)).set (c_rarg1 cfg)
          (w64 ((s.reg rsp : Int) - (w64 cfg.interpreter_frame_monitor_size_in_bytes : Nat)))),
      ?_, ?_, ?_, ?_⟩
    · simp [Ne.symm n1]
    · simp [Ne.symm n2]
    · have e : ea (s.reg rbp) (cfg.interpreter_frame_monitor_block_top_offset * wordSize)
          = s.reg rsp := by rw [c2, h1]; rfl
      have hne : ¬ ea (s.reg rbp) (-72) = ea (w64 ((s.reg rsp : Int)
          - (w64 cfg.interpreter_frame_monitor_size_in_bytes : Nat)))
            cfg.BasicObjectLock_obj_offset := by
        rw [← h1]
        exact lock_obj_ne _ _ _ c4 c5 c6
      simp only [set_mem, store_mem, hne, if_false, e]
      rw [← h1]
      simp
    · simp [subptr, subptr_mem, movptr_to, mov, vm_routine, call, Ne.symm n1, Ne.symm n2]
      split <;> rfl
  obtain ⟨S, s1, s2, s3, s4⟩ := hrun
  obtain ⟨k1, k2, k3⟩ := hk S
  have e : ea (s.reg rbp) (-9 * (wordSize : Int)) = ea (S.reg rbp) (-72) := by rw [s2]; rfl
  have hsz : 0 ≤ cfg.interpreter_frame_monitor_size_in_bytes := by omega
  rw [s4]
  constructor
  · unfold frame_setup
    simp only [call_reg, call_mem]
    rw [k1, k2, s1, s2, c2, e, k3, s2, s3, h2, c1, h1]
    have hq : cfg.interpreter_frame_monitor_size_in_bytes
        = 8 * (cfg.interpreter_frame_monitor_size_in_bytes / 8) := by omega
    have ha := lock_arith (s.reg rbp) (cfg.interpreter_frame_monitor_size_in_bytes / 8)
      (by omega) (by omega)
    rw [← hq] at ha
    simp only [wordSize, Nat.cast_ofNat]
    rw [Int.tdiv_eq_ediv hsz (by decide)]
    exact ha
  · intro _
    unfold monitor_allocated
    simp only [call_reg, call_mem]
    refine ⟨by rw [k2, s2], by rw [k1, s1, subptr_imm_eq], ?_⟩
    rw [h1, ← s2, k3, s2, s3, h1]

theorem lock_method_locks (cfg : Config) (env : Env) (hc : frame_constants cfg)
    (hk : keeps_frame env Callee.lock_object) : Locks cfg (lock_method cfg env) := by
  unfold lock_method
  refine Locks.locks_bind hc ?_ fun _ => ?_
  · repeat' (with_reducible first
      | exact Stable.stable_pure _ | exact Stable.stable_get | exact Stable.stable_stop _
      | exact Stable.stable_load_unsigned_short _ _ (by decide) (by decide)
      | apply Stable.stable_bind | apply Stable.stable_ite | intro _)
  refine Locks.locks_bind hc
    (Stable.stable_load_unsigned_short _ _ (by decide) (by decide)) fun _ => ?_
  refine Locks.locks_bind hc Stable.stable_get fun _ => ?_
  refine Locks.locks_bind hc (Stable.stable_mov _ _ (by decide) (by decide)) fun _ => ?_
  refine Locks.locks_bind hc ?_ fun _ => ?_
  · repeat' (with_reducible first
      | exact Stable.stable_pure _ | exact Stable.stable_get | exact Stable.stable_stop _
      | exact Stable.stable_load_mirror _ _ _ _ (by decide) (by decide)
      | apply Stable.stable_bind | apply Stable.stable_ite | intro _)
  exact lock_allocate_locks cfg env hc hk

theorem sync_check_stable (cfg : Config) :
    Stable cfg (if cfg.ASSERT then do
      load_unsigned_short rax (Fld rbx Method_access_flags)
      let s ← get
      if testl_zero s rax cfg.JVM_ACC_SYNCHRONIZED then pure ()
      else stop "method needs synchronization"
    else pure () : Asm Unit) := by
  repeat' (with_reducible first
    | exact Stable.stable_pure _ | exact Stable.stable_get | exact Stable.stable_stop _
    | exact Stable.stable_load_unsigned_short _ _ (by decide) (by decide)
    | apply Stable.stable_bind | apply Stable.stable_ite | intro _)

theorem native_entry_count_bang_lock_ends (cfg : Config) (env : Env) (synchronized : Bool)
    (hc : frame_constants cfg) (hk : ∀ c ∈ frame_collaborators, keeps_frame env c) :
    Ends cfg (native_entry_count_bang_lock cfg env synchronized) := by
  unfold native_entry_count_bang_lock
  refine Ends.ends_bind hc (Stable.stable_movbool _ _ _) fun _ => ?_
  refine Ends.ends_bind hc
    (Stable.stable_ite (Stable.stable_counter_incr env (hk _ (by decide)))
      (Stable.stable_pure _)) fun overflow => ?_
  refine Ends.ends_bind hc
    (Stable.stable_ite (Stable.stable_counter_overflow env (hk _ (by decide)))
      (Stable.stable_pure _)) fun _ => ?_
  refine Ends.ends_bind hc (Stable.stable_bang _ hc) fun _ => ?_
  refine Ends.ends_bind hc (Stable.stable_movbool _ _ _) fun _ => ?_
  exact Ends.ends_ite (Ends.of_locks (lock_method_locks cfg env hc (hk _ (by decide))))
    (Ends.of_stable hc (sync_check_stable cfg))

theorem normal_entry_count_bang_lock_ends (cfg : Config) (env : Env) (synchronized : Bool)
    (hc : frame_constants cfg) (hk : ∀ c ∈ frame_collaborators, keeps_frame env c) :
    Ends cfg (normal_entry_count_bang_lock cfg env synchronized) := by
  unfold normal_entry_count_bang_lock
  refine Ends.ends_bind hc (Stable.stable_movbool _ _ _) fun _ => ?_
  refine Ends.ends_bind hc (Stable.stable_call _ _ _ (hk _ (by decide))) fun _ => ?_
  refine Ends.ends_bind hc
    (Stable.stable_ite (Stable.stable_counter_incr env (hk _ (by decide)))
      (Stable.stable_pure _)) fun overflow => ?_
  refine Ends.ends_bind hc
    (Stable.stable_ite (Stable.stable_counter_overflow env (hk _ (by decide)))
      (Stable.stable_pure _)) fun _ => ?_
  refine Ends.ends_bind hc (Stable.stable_bang _ hc) fun _ => ?_
  refine Ends.ends_bind hc (Stable.stable_movbool _ _ _) fun _ => ?_
  exact Ends.ends_ite (Ends.of_locks (lock_method_locks cfg env hc (hk _ (by decide))))
    (Ends.of_stable hc (sync_check_stable cfg))

theorem After.bind_right {α β : Type} {Q : Machine → Prop} {x : Asm α} {f : α → Asm β}
    (hf : ∀ a, After Q (f a)) : After Q (x >>= f) := by
  intro s b t h
  rcases bind_cases x f s with ⟨e, s1, _, h2⟩ | ⟨a, s1, _, h2⟩
  · rw [h2] at h
    cases h
  · rw [h2] at h
    exact hf a s1 b t h

theorem After.bind_stable {α β : Type} {cfg : Config} {x : Asm α} {f : α → Asm β}
    (hx : After (fresh_frame cfg) x) (hf : ∀ a, Stable cfg (f a)) :
    After (fresh_frame cfg) (x >>= f) := by
  intro s b t h
  rcases bind_cases x f s with ⟨e, s1, _, h2⟩ | ⟨a, s1, h1, h2⟩
  · rw [h2] at h
    cases h
  · rw [h2] at h
    have hs1 := hx s a s1 h1
    have := hf a s1 hs1
    rw [h] at this
    exact same_frame_fresh hs1 this

theorem After.bind_ends {α β : Type} {cfg : Config} {x : Asm α} {f : α → Asm β}
    (hx : After (fresh_frame cfg) x) (hf : ∀ a, Ends cfg (f a)) :
    After (frame_setup cfg) (x >>= f) := by
  intro s b t h
  rcases bind_cases x f s with ⟨e, s1, _, h2⟩ | ⟨a, s1, h1, h2⟩
  · rw [h2] at h
    cases h
  · rw [h2] at h
    have := hf a s1 (hx s a s1 h1)
    rw [h] at this
    exact this

theorem fixed_frame_fresh (cfg : Config) (env : Env) (b : Bool) (s : Machine) :
    fresh_frame cfg (generate_fixed_frame cfg env b s).state := by
  obtain ⟨_, f1, f2, _, f4⟩ := fixed_frame_facts cfg env s b
  simp only [fixed_frame_words, List.cons.injEq] at f4
  have h11 := f4.2.2.2.2.2.2.2.2.2.2.1
  unfold fresh_frame
  rw [f1, f2, ea_ea]
  exact ⟨rfl, h11⟩

theorem After.fixed_frame (cfg : Config) (env : Env) (b : Bool) :
    After (fresh_frame cfg) (generate_fixed_frame cfg env b) := by
  intro s a t h
  have := fixed_frame_fresh cfg env b s
  rw [h] at this
  exact this

theorem native_entry_frame_fresh (cfg : Config) (env : Env) :
    After (fresh_frame cfg) (native_entry_frame cfg env) := by
  unfold native_entry_frame
  refine After.bind_right fun _ => ?_
  refine After.bind_stable (After.fixed_frame cfg env true) fun _ => ?_
  unfold native_entry_frame_checks
  repeat' (with_reducible first
    | exact Stable.stable_pure _ | exact Stable.stable_get | exact Stable.stable_stop _
    | exact Stable.stable_load_unsigned_short _ _ (by decide) (by decide)
    | apply Stable.stable_bind | apply Stable.stable_ite | intro _)

theorem normal_entry_frame_fresh (cfg : Config) (env : Env) :
    After (fresh_frame cfg) (normal_entry_frame cfg env) := by
  unfold normal_entry_frame normal_entry_allocate
  refine After.bind_right fun _ => ?_
  refine After.bind_right fun _ => ?_
  refine After.bind_right fun _ => ?_
  refine After.bind_right fun _ => ?_
  refine After.bind_stable (After.fixed_frame cfg env false) fun _ => ?_
  repeat' (with_reducible first
    | exact Stable.stable_pure _ | exact Stable.stable_get | exact Stable.stable_stop _
    | exact Stable.stable_load_unsigned_short _ _ (by decide) (by decide)
    | apply Stable.stable_bind | apply Stable.stable_ite | intro _)

theorem assert_frame_setup_passes (cfg : Config) (msg : String) (s : Machine)
    (h : frame_setup cfg s) : (assert_frame_setup cfg msg s).exit? = none := by
  unfold frame_setup at h
  simp only [Nat.reducePow] at h
  by_cases hA : cfg.ASSERT = true
  · simp [assert_frame_setup, mov, hA, h]
  · simp [assert_frame_setup, hA]

theorem NoStop.nostop_pure {α : Type} (a : α) : NoStop (pure a : Asm α) :=
  fun _ _ h => by cases h

theorem NoStop.nostop_get : NoStop Asm.get := fun _ _ h => by cases h

theorem NoStop.nostop_step (f : Machine → Machine) : NoStop (Asm.step f) :=
  fun _ _ h => by cases h

theorem NoStop.nostop_exit {α : Type} (e : Exit) (he : ∀ msg, e ≠ Exit.stop msg) :
    NoStop (Asm.exit e : Asm α) := by
  intro s msg h
  simp only [run_exit, exit_leave, Option.some.injEq] at h
  exact he msg h

theorem NoStop.nostop_bind {α β : Type} {x : Asm α} {f : α → Asm β} (hx : NoStop x)
    (hf : ∀ a, NoStop (f a)) : NoStop (x >>= f) := by
  intro s msg
  rcases bind_cases x f s with ⟨e, s1, h1, h2⟩ | ⟨a, s1, _, h2⟩
  · have := hx s msg
    rw [h1] at this
    rw [h2]
    exact this
  · rw [h2]
    exact hf a s1 msg

theorem NoStop.nostop_ite {α : Type} {c : Prop} [Decidable c] {x y : Asm α} (hx : NoStop x)
    (hy : NoStop y) : NoStop (if c then x else y) := by
  split
  · exact hx
  · exact hy

theorem NoStop.nostop_mov (r : Register) (v : Machine → Nat) : NoStop (mov r v) :=
  NoStop.nostop_step _

theorem NoStop.nostop_load_unsigned_short (r : Register) (v : Machine → Nat) :
    NoStop (load_unsigned_short r v) := NoStop.nostop_step _

theorem NoStop.nostop_shll (r : Register) (n : Nat) : NoStop (shll r n) := NoStop.nostop_step _

theorem NoStop.nostop_subptr (r : Register) (v : Machine → Nat) : NoStop (subptr r v) :=
  NoStop.nostop_step _

theorem NoStop.nostop_andptr (r : Register) (v : Machine → Nat) : NoStop (andptr r v) :=
  NoStop.nostop_step _

theorem NoStop.nostop_movptr_to (b : Register) (d : Int) (v : Machine → Nat) :
    NoStop (movptr_to b d v) := NoStop.nostop_step _

theorem NoStop.nostop_get_method (cfg : Config) (r : Register) : NoStop (get_method cfg r) :=
  NoStop.nostop_step _

theorem NoStop.nostop_load_mirror (env : Env) (d m t : Register) :
    NoStop (load_mirror env d m t) := NoStop.nostop_step _

theorem NoStop.nostop_call (env : Env) (c : Callee) (args : List (Machine → Nat)) :
    NoStop (call env c args) := NoStop.nostop_step _

theorem NoStop.nostop_call_VM (env : Env) (c : Callee) (args : List (Machine → Nat)) :
    NoStop (call_VM env c args) :=
  NoStop.nostop_bind (NoStop.nostop_call env c args) fun _ =>
    NoStop.nostop_bind NoStop.nostop_get fun _ =>
      NoStop.nostop_ite (NoStop.nostop_exit _ (fun _ h => by cases h)) (NoStop.nostop_pure _)

theorem NoStop.nostop_vm_routine (env : Env) (c : Callee) (args : List (Machine → Nat)) :
    NoStop (vm_routine env c args) :=
  NoStop.nostop_bind (NoStop.nostop_call env c args) fun _ =>
    NoStop.nostop_bind NoStop.nostop_get fun _ =>
      NoStop.nostop_ite (NoStop.nostop_exit _ (fun _ h => by cases h)) (NoStop.nostop_pure _)

theorem NoStop.after_passing {α β : Type} {x : Asm α} {f : α → Asm β} {s : Machine}
    (hx : (x s).exit? = none) (hf : ∀ a, NoStop (f a)) (msg : String) :
    ((x >>= f) s).exit? ≠ some (Exit.stop msg) := by
  rcases bind_cases x f s with ⟨e, s1, h1, _⟩ | ⟨a, s1, _, h2⟩
  · rw [h1] at hx
    simp at hx
  · rw [h2]
    exact hf a s1 msg

theorem native_entry_prepare_no_stop (cfg : Config) (env : Env) (s : Machine)
    (h : frame_setup cfg s) (msg : String) :
    (native_entry_prepare cfg env s).exit? ≠ some (Exit.stop msg) := by
  unfold native_entry_prepare native_entry_param_area
  refine NoStop.after_passing (assert_frame_setup_passes cfg _ s h) (fun _ => ?_) msg
  repeat' (with_reducible first
    | exact NoStop.nostop_pure _ | exact NoStop.nostop_get
    | exact NoStop.nostop_mov _ _ | exact NoStop.nostop_load_unsigned_short _ _
    | exact NoStop.nostop_shll _ _ | exact NoStop.nostop_subptr _ _
    | exact NoStop.nostop_andptr _ _ | exact NoStop.nostop_movptr_to _ _ _
    | exact NoStop.nostop_get_method _ _ | exact NoStop.nostop_load_mirror _ _ _ _
    | exact NoStop.nostop_call _ _ _ | exact NoStop.nostop_call_VM _ _ _
    | exact NoStop.nostop_vm_routine _ _ _
    | apply NoStop.nostop_bind | apply NoStop.nostop_ite | intro _)

theorem normal_entry_start_no_stop (cfg : Config) (env : Env) (s : Machine)
    (h : frame_setup cfg s) (msg : String) :
    (normal_entry_start cfg env s).exit? ≠ some (Exit.stop msg) := by
  unfold normal_entry_start
  refine NoStop.after_passing (assert_frame_setup_passes cfg _ s h) (fun _ => ?_) msg
  exact NoStop.nostop_bind (NoStop.nostop_vm_routine _ _ _) fun _ =>
    NoStop.nostop_exit _ (fun _ h => by cases h)

/-- C30: with the frame constants as HotSpot declares them and
collaborators that return with the frame intact, the debug check "broken
stack frame setup in interpreter" never fires.  Immediately after
`generate_fixed_frame` the frame satisfies
`rbp + [monitor_block_top slot]*wordSize = rsp`.  `lock_method`, run on such
a fresh frame, keeps the equality on every path; when it falls through it
has lowered `rsp` by the size of a monitor record in bytes and the slot by
the same size in words.  Hence, in both entries, synchronized or not,
whenever the code before the check falls through, the equality holds there,
and the code that starts with the check (`native_entry_prepare`,
`normal_entry_start`) never ends in a `stop`. -/
theorem frame_setup_never_broken (cfg : Config) (env : Env) (synchronized : Bool)
    (s : Machine) (hc : frame_constants cfg)
    (hk : ∀ c ∈ frame_collaborators, keeps_frame env c) :
    (∀ b, frame_setup cfg (generate_fixed_frame cfg env b s).state)
    ∧ (fresh_frame cfg s →
        frame_setup cfg (lock_method cfg env s).state
        ∧ ((lock_method cfg env s).exit? = none →
            monitor_allocated cfg s (lock_method cfg env s).state))
    ∧ (∀ t, native_entry_to_frame_check cfg env synchronized s = Run.ok () t →
        frame_setup cfg t
        ∧ (assert_frame_setup cfg "broken stack frame setup in interpreter 5" t).exit? = none
        ∧ ∀ msg, (native_entry_prepare cfg env t).exit? ≠ some (Exit.stop msg))
    ∧ (∀ t, normal_entry_to_frame_check cfg env synchronized s = Run.ok () t →
        frame_setup cfg t
        ∧ (assert_frame_setup cfg "broken stack frame setup in interpreter 6" t).exit? = none
        ∧ ∀ msg, (normal_entry_start cfg env t).exit? ≠ some (Exit.stop msg)) := by
  refine ⟨fun b => fresh_frame_setup cfg hc _ (fixed_frame_fresh cfg env b s), ?_, ?_, ?_⟩
  · intro h
    exact lock_method_locks cfg env hc (hk _ (by decide)) s h
  · intro t ht
    have h : frame_setup cfg t :=
      After.bind_ends (native_entry_frame_fresh cfg env)
        (fun _ => native_entry_count_bang_lock_ends cfg env synchronized hc hk) s () t ht
    exact ⟨h, assert_frame_setup_passes cfg _ t h, native_entry_prepare_no_stop cfg env t h⟩
  · intro t ht
    have h : frame_setup cfg t :=
      After.bind_ends (normal_entry_frame_fresh cfg env)
        (fun _ => normal_entry_count_bang_lock_ends cfg env synchronized hc hk) s () t ht
    exact ⟨h, assert_frame_setup_passes cfg _ t h, normal_entry_start_no_stop cfg env t h⟩

set_option maxRecDepth 100000 in
/-- C30, witness: a debug build, collaborators that change nothing, a
native synchronized method entered at `rsp = 0x100000`. -/
theorem frame_setup_never_broken_witness :
    frame_constants linux_x86_64_debug
    ∧ (∀ c ∈ frame_collaborators, keeps_frame idle_env c)
    ∧ (assert_frame_setup linux_x86_64_debug "broken stack frame setup in interpreter 5"
        (native_entry_to_frame_check linux_x86_64_debug idle_env true
          (entry_state 0 0x120)).state).exit? = none :=
  ⟨by decide, fun _ _ _ => ⟨rfl, rfl, rfl⟩,
    ((frame_setup_never_broken linux_x86_64_debug idle_env true (entry_state 0 0x120)
      (by decide) (fun _ _ _ => ⟨rfl, rfl, rfl⟩)).2.2.1 _ rfl).2.1⟩

end TemplateInterpreter
